import Mathlib

/-!
# crun Node.js binding: kill, delete, update, list, ps, resourceUsage and exec

A shallow embedding of `src/nodejs/src/crun_binding.c`.

* C strings (`char*`) are byte lists; a JS string is given by the bytes N-API hands to C.
* JS values are the inductive `NapiValue`; objects are ordered property lists.
* The runtime collaborator (libcrun), POSIX `regcomp`/`regexec` and the indeterminate
  values C leaves in uninitialised locals are fields of `Env`; the status interface of
  libcrun and the kernel files are fields of `Host`, the delegated exec a field of
  `Runner`; the state of the outside world is an abstract type `W` threaded through every
  delegated call.
* Every delegated libcrun call and every `fopen` is recorded, with its return value, in
  `Sys.trace`.
* The C library scanners (`scanf` conversions, `fgets`, `atoi`, `strtol`, `strchr`,
  `strcasecmp`) are functions on byte lists.
-/

namespace Crun

/-! ## Strings and numbers -/

/-- A C string: the bytes before the terminating NUL. -/
abbrev CStr := List UInt8

/-- The UTF-8 bytes of a string literal. -/
def utf8 (s : String) : CStr := s.data.flatMap String.utf8EncodeChar

/-- A JS number, by what the integer getters of N-API can observe of it. -/
inductive JsNumber where
  /-- An integer-valued number. -/
  | int (n : Int)
  /-- A finite number that is not an integer; `trunc` is its truncation toward zero. -/
  | frac (trunc : Int)
  | nan
  | posInf
  | negInf
  deriving DecidableEq, Repr

/-- Two's-complement reduction to a C `int` / `int32_t`. -/
def wrap_int32 (x : Int) : Int := (x + 2 ^ 31) % 2 ^ 32 - 2 ^ 31

/-- Saturation to the `int64_t` range. -/
def clamp_int64 (x : Int) : Int :=
  if x > 2 ^ 63 - 1 then 2 ^ 63 - 1 else if x < -(2 : Int) ^ 63 then -(2 : Int) ^ 63 else x

/-- N-API `napi_get_value_int32` on a number: the bottom 32 bits of the truncated value,
zero for a non-finite number. -/
def napi_get_value_int32 : JsNumber → Int
  | .int n => wrap_int32 n
  | .frac t => wrap_int32 t
  | .nan => 0
  | .posInf => 0
  | .negInf => 0

/-- N-API `napi_get_value_int64` on a number: the truncated value saturated to the
`int64_t` range, zero for a non-finite number. -/
def napi_get_value_int64 : JsNumber → Int
  | .int n => clamp_int64 n
  | .frac t => clamp_int64 t
  | .nan => 0
  | .posInf => 0
  | .negInf => 0

/-- The text `snprintf(buf, size, "%d" or "%ld", n)` leaves in `buf`. -/
def snprintf_int (size : Nat) (n : Int) : CStr := (utf8 (toString n)).take (size - 1)

/-- The text left in `dst` by `strncpy(dst, src, size - 1); dst[size - 1] = 0`: the bytes
of `src` before its first NUL, at most `size - 1` of them. `src` is the buffer that
`napi_get_string` filled, which holds a NUL wherever the JS string holds U+0000. -/
def strncpy_buf (size : Nat) (src : CStr) : CStr :=
  (src.takeWhile (fun b => b != 0)).take (size - 1)

/-! ## JS values -/

inductive napi_valuetype where
  | napi_undefined
  | napi_null
  | napi_boolean
  | napi_number
  | napi_string
  | napi_symbol
  | napi_object
  | napi_function
  | napi_external
  | napi_bigint
  deriving DecidableEq, Repr

mutual
/-- A JS value as the binding sees it through N-API. -/
inductive NapiValue where
  | undefined
  | null
  | boolean (b : Bool)
  | number (d : JsNumber)
  | string (s : CStr)
  | symbol
  | function
  | external
  | bigint
  | object (props : NapiProps)
  | array (items : NapiItems)
  deriving DecidableEq
/-- The named properties of an object, in insertion order. -/
inductive NapiProps where
  | nil
  | cons (key : String) (value : NapiValue) (rest : NapiProps)
  deriving DecidableEq
/-- The elements of an array. -/
inductive NapiItems where
  | nil
  | cons (item : NapiValue) (rest : NapiItems)
  deriving DecidableEq
end

/-- The property list as a list of key/value pairs. -/
def NapiProps.toList : NapiProps → List (String × NapiValue)
  | .nil => []
  | .cons k v rest => (k, v) :: rest.toList

/-- The property list holding the given key/value pairs. -/
def NapiProps.ofList : List (String × NapiValue) → NapiProps
  | [] => .nil
  | (k, v) :: rest => .cons k v (NapiProps.ofList rest)

/-- The value stored under `key`, if the property exists. -/
def NapiProps.find (key : String) : NapiProps → Option NapiValue
  | .nil => none
  | .cons k v rest => if k = key then some v else rest.find key

/-- N-API `napi_typeof`. -/
def napi_typeof : NapiValue → napi_valuetype
  | .undefined => .napi_undefined
  | .null => .napi_null
  | .boolean _ => .napi_boolean
  | .number _ => .napi_number
  | .string _ => .napi_string
  | .symbol => .napi_symbol
  | .function => .napi_function
  | .external => .napi_external
  | .bigint => .napi_bigint
  | .object _ => .napi_object
  | .array _ => .napi_object

/-- N-API `napi_has_named_property` followed by `napi_get_named_property`:
`none` when `has_prop` is false. -/
def napi_named_property (obj : NapiValue) (key : String) : Option NapiValue :=
  match obj with
  | .object props => props.find key
  | _ => none

/-- The object built by `napi_create_object` and one `napi_set_named_property` per pair. -/
def napi_object_of (fields : List (String × NapiValue)) : NapiValue :=
  .object (NapiProps.ofList fields)

/-- Embedding of `napi_get_string`: a copy of the string, NULL for a non-string. -/
def napi_get_string (value : NapiValue) : Option CStr :=
  match value with
  | .string s => some s
  | _ => none

/-- Embedding of `get_string_property`. -/
def get_string_property (obj : NapiValue) (key : String) : Option CStr :=
  match napi_named_property obj key with
  | none => none
  | some val => napi_get_string val

/-- Embedding of `get_bool_property`. `napi_get_value_bool` writes `result` only for a
boolean; for any other value the uninitialised local is returned, here `indet key`. -/
def get_bool_property (indet : String → Bool) (obj : NapiValue) (key : String)
    (default_val : Bool) : Bool :=
  match napi_named_property obj key with
  | none => default_val
  | some (.boolean b) => b
  | some _ => indet key

/-- Embedding of `napi_create_error_obj` (`msg` is never NULL at its call sites). -/
def napi_create_error_obj (code : Int) (msg : CStr) : NapiValue :=
  napi_object_of
    [("code", .number (.int code)), ("message", .string msg), ("error", .boolean true)]

/-- Embedding of `create_error_from_crun`: the message is formatted into `char msg[2048]`. -/
def create_error_from_crun (pfx : String) (err : Option CStr) : NapiValue :=
  match err with
  | some m => napi_create_error_obj (-1) ((utf8 pfx ++ utf8 ": " ++ m).take 2047)
  | none => napi_create_error_obj (-1) ((utf8 pfx ++ utf8 ": Unknown error").take 2047)

/-- The `i`-th argument as filled in by `napi_get_cb_info`: `undefined` when not passed. -/
def cb_arg (args : List NapiValue) (i : Nat) : NapiValue := args.getD i .undefined

/-! ## The runtime collaborator -/

/-- The fields of `libcrun_context_t` the binding sets; all others are zero. -/
structure libcrun_context_t where
  id : CStr
  state_root : Option CStr
  systemd_cgroup : Int
  fifo_exec_wait_fd : Int
  detach : Int := 0
  preserve_fds : Int := 0
  listen_fds : Int := 0
  console_socket : Option CStr := none
  pid_file : Option CStr := none
  deriving DecidableEq

/-- One element of the array handed to `libcrun_container_update_from_values`. -/
structure libcrun_update_value_s where
  «section» : String
  name : String
  numeric : Int
  value : CStr
  deriving DecidableEq

/-- What a libcrun primitive hands back: its return value and the message of the error
object it left in `*err`, if any. -/
structure Ret where
  ret : Int
  err : Option CStr
  deriving DecidableEq

/-- The external collaborators of the binding over a world of type `W`;
`R` is the type of compiled patterns (`regex_t`). -/
structure Env (W R : Type) where
  /-- POSIX `regcomp` with `REG_EXTENDED | REG_NOSUB`; `none` for a non-zero return. -/
  regcomp : CStr → Option R
  /-- POSIX `regexec(&re, name, 0, NULL, 0)`. -/
  regexec : R → CStr → Int
  /-- The indeterminate value of the uninitialised `result` in `get_bool_property`. -/
  indet : String → Bool
  /-- `libcrun_get_containers_list(&list, root, &err)`: the names of the list it stores,
  in list order. -/
  list : CStr → W → (Ret × List CStr) × W
  /-- `libcrun_container_kill(&ctx, id, signal, &err)`. -/
  kill : libcrun_context_t → CStr → CStr → W → Ret × W
  /-- `libcrun_container_killall(&ctx, id, signal, &err)`. -/
  killall : libcrun_context_t → CStr → CStr → W → Ret × W
  /-- `libcrun_container_delete(&ctx, NULL, id, force, &err)`. -/
  delete : libcrun_context_t → CStr → Bool → W → Ret × W
  /-- `libcrun_container_update_from_values(&ctx, id, values, values_len, &err)`. -/
  update_from_values : libcrun_context_t → CStr → List libcrun_update_value_s → W → Ret × W
  /-- `libcrun_container_update_from_file(&ctx, id, path, &err)`. -/
  update_from_file : libcrun_context_t → CStr → CStr → W → Ret × W
  /-- `libcrun_container_update_intel_rdt(&ctx, id, &rdt_update, &err)`, given the two
  fields of `rdt_update`. -/
  update_intel_rdt : libcrun_context_t → CStr → Option CStr → Option CStr → W → Ret × W

/-- The fields of `libcrun_container_status_t` the binding reads. -/
structure libcrun_container_status_t where
  pid : Int
  cgroup_path : Option CStr
  bundle : Option CStr
  created : Option CStr
  owner : Option CStr
  deriving DecidableEq

/-- The `user` of a process description: `uid_t` and `gid_t` values. -/
structure runtime_spec_schema_config_schema_process_user where
  uid : Nat
  gid : Nat
  deriving DecidableEq

/-- The `capabilities` of a process description; an element is NULL (`none`) where the
JS array held a value that is not a string. -/
structure runtime_spec_schema_config_schema_process_capabilities where
  effective : List (Option CStr)
  inheritable : List (Option CStr)
  bounding : List (Option CStr)
  ambient : List (Option CStr)
  permitted : List (Option CStr)
  deriving DecidableEq

/-- The fields of the process description that `CrunExec` can set; all others, the
AppArmor profile among them, stay zero. -/
structure runtime_spec_schema_config_schema_process where
  args : List (Option CStr)
  terminal : Bool
  cwd : Option CStr
  env : List (Option CStr)
  user : Option runtime_spec_schema_config_schema_process_user
  selinux_label : Option CStr
  no_new_privileges : Bool
  capabilities : Option runtime_spec_schema_config_schema_process_capabilities
  deriving DecidableEq

/-- The fields of `struct libcrun_container_exec_options_s` that `CrunExec` sets. -/
structure libcrun_container_exec_options_s where
  path : Option CStr
  process : Option runtime_spec_schema_config_schema_process
  cgroup : Option CStr
  deriving DecidableEq

/-- A delegated call with its arguments. -/
inductive Call where
  | get_containers_list (root : CStr)
  | container_kill (ctx : libcrun_context_t) (id : CStr) (signal : CStr)
  | container_killall (ctx : libcrun_context_t) (id : CStr) (signal : CStr)
  | container_delete (ctx : libcrun_context_t) (id : CStr) (force : Bool)
  | container_update_from_values (ctx : libcrun_context_t) (id : CStr)
      (values : List libcrun_update_value_s)
  | container_update_from_file (ctx : libcrun_context_t) (id : CStr) (path : CStr)
  | container_update_intel_rdt (ctx : libcrun_context_t) (id : CStr)
      (l3_cache_schema : Option CStr) (mem_bw_schema : Option CStr)
  | container_exec_with_options (ctx : libcrun_context_t) (id : CStr)
      (opts : libcrun_container_exec_options_s)
  | read_container_status (root : CStr) (id : CStr)
  | is_container_running (status : libcrun_container_status_t)
  | get_container_state_string (id : CStr) (status : libcrun_container_status_t)
      (root : CStr)
  /-- An `fopen(path, "r")`; the recorded return value is 1 when the file was opened
  and 0 when `fopen` returned NULL. -/
  | fopen (path : CStr)
  deriving DecidableEq

/-- A delegated call that was made, and the value it returned. -/
structure Event where
  call : Call
  ret : Int
  deriving DecidableEq

/-- The state threaded through the binding: the outside world and the delegated calls
made so far, oldest first. -/
structure Sys (W : Type) where
  world : W
  trace : List Event

variable {W R : Type}

/-- Record a delegated call and its outcome. -/
def Sys.record (s : Sys W) (c : Call) (r : Ret × W) : Ret × Sys W :=
  (r.1, { world := r.2, trace := s.trace ++ [{ call := c, ret := r.1.ret }] })

/-- The delegated calls: each runs the collaborator on the current world and appends the
call, with its return value, to the trace. -/
def libcrun_get_containers_list (E : Env W R) (root : CStr) (s : Sys W) :
    (Ret × List CStr) × Sys W :=
  let r := E.list root s.world
  (r.1, { world := r.2,
          trace := s.trace ++ [{ call := .get_containers_list root, ret := r.1.1.ret }] })

def libcrun_container_kill (E : Env W R) (ctx : libcrun_context_t) (id sig : CStr)
    (s : Sys W) : Ret × Sys W :=
  s.record (.container_kill ctx id sig) (E.kill ctx id sig s.world)

def libcrun_container_killall (E : Env W R) (ctx : libcrun_context_t) (id sig : CStr)
    (s : Sys W) : Ret × Sys W :=
  s.record (.container_killall ctx id sig) (E.killall ctx id sig s.world)

def libcrun_container_delete (E : Env W R) (ctx : libcrun_context_t) (id : CStr)
    (force : Bool) (s : Sys W) : Ret × Sys W :=
  s.record (.container_delete ctx id force) (E.delete ctx id force s.world)

def libcrun_container_update_from_values (E : Env W R) (ctx : libcrun_context_t) (id : CStr)
    (values : List libcrun_update_value_s) (s : Sys W) : Ret × Sys W :=
  s.record (.container_update_from_values ctx id values)
    (E.update_from_values ctx id values s.world)

def libcrun_container_update_from_file (E : Env W R) (ctx : libcrun_context_t) (id : CStr)
    (path : CStr) (s : Sys W) : Ret × Sys W :=
  s.record (.container_update_from_file ctx id path) (E.update_from_file ctx id path s.world)

def libcrun_container_update_intel_rdt (E : Env W R) (ctx : libcrun_context_t) (id : CStr)
    (l3 mem_bw : Option CStr) (s : Sys W) : Ret × Sys W :=
  s.record (.container_update_intel_rdt ctx id l3 mem_bw)
    (E.update_intel_rdt ctx id l3 mem_bw s.world)

/-! ## `CrunKill` and `CrunDelete` -/

/-- The options object of a call: argument `i` when it was passed and is an object. -/
def options_arg (args : List NapiValue) (i : Nat) : Option NapiValue :=
  if i + 1 ≤ args.length ∧ napi_typeof (cb_arg args i) = .napi_object then
    some (cb_arg args i)
  else none

/-- A string option; NULL without an options object. -/
def option_string (opts : Option NapiValue) (key : String) : Option CStr :=
  match opts with
  | some o => get_string_property o key
  | none => none

/-- A boolean option; `false` without an options object. -/
def option_bool (indet : String → Bool) (opts : Option NapiValue) (key : String) : Bool :=
  match opts with
  | some o => get_bool_property indet o key false
  | none => false

/-- The context every entry point fills in before calling libcrun. -/
def make_context (indet : String → Bool) (id : CStr) (opts : Option NapiValue) :
    libcrun_context_t :=
  { id := id
    state_root := option_string opts "stateRoot"
    systemd_cgroup := if option_bool indet opts "systemdCgroup" then 1 else 0
    fifo_exec_wait_fd := -1 }

/-- The state root the container list is read from. -/
def list_root (opts : Option NapiValue) : CStr :=
  match option_string opts "stateRoot" with
  | some r => r
  | none => utf8 "/run/crun"

/-- The content of `sig_str_buf` in `CrunKill` after the signal argument is read. -/
def kill_sig_str_buf (args : List NapiValue) : CStr :=
  if 2 ≤ args.length then
    match cb_arg args 1 with
    | .number d => snprintf_int 32 (napi_get_value_int32 d)
    | .string tmp => strncpy_buf 32 tmp
    | _ => utf8 "SIGTERM"
  else utf8 "SIGTERM"

/-- The loop of `CrunKill` over the container list; `killed_count` is a C `int`. -/
def kill_matching (E : Env W R) (re : R) (ctx : libcrun_context_t) (sig : CStr) :
    List CStr → Int → Sys W → Int × Sys W
  | [], killed_count, s => (killed_count, s)
  | name :: next, killed_count, s =>
    if E.regexec re name = 0 then
      let k := libcrun_container_kill E ctx name sig s
      if 0 ≤ k.1.ret then
        kill_matching E re ctx sig next (wrap_int32 (killed_count + 1)) k.2
      else
        kill_matching E re ctx sig next killed_count k.2
    else
      kill_matching E re ctx sig next killed_count s

/-- The loop of `CrunDelete` over the container list; `deleted_count` is a C `int`. -/
def delete_matching (E : Env W R) (re : R) (ctx : libcrun_context_t) (force : Bool) :
    List CStr → Int → Sys W → Int × Sys W
  | [], deleted_count, s => (deleted_count, s)
  | name :: next, deleted_count, s =>
    if E.regexec re name = 0 then
      let d := libcrun_container_delete E ctx name force s
      if 0 ≤ d.1.ret then
        delete_matching E re ctx force next (wrap_int32 (deleted_count + 1)) d.2
      else
        delete_matching E re ctx force next deleted_count d.2
    else
      delete_matching E re ctx force next deleted_count s

/-- Embedding of `CrunKill`. -/
def CrunKill (E : Env W R) (args : List NapiValue) (s : Sys W) : NapiValue × Sys W :=
  if args.length < 1 then
    (napi_create_error_obj (-1) (utf8 "please specify a ID for the container"), s)
  else
    match napi_get_string (cb_arg args 0) with
    | none => (napi_create_error_obj (-1) (utf8 "Invalid container id"), s)
    | some id =>
      let sig_str_buf := kill_sig_str_buf args
      let opts := options_arg args 2
      let kill_all := option_bool E.indet opts "all"
      let use_regex := option_bool E.indet opts "regex"
      let crun_context := make_context E.indet id opts
      if use_regex then
        match E.regcomp id with
        | none => (napi_create_error_obj (-1) (utf8 "invalid regular expression"), s)
        | some re =>
          let l := libcrun_get_containers_list E (list_root opts) s
          if l.1.1.ret < 0 then
            (create_error_from_crun "cannot read containers list" l.1.1.err, l.2)
          else
            let k := kill_matching E re crun_context sig_str_buf l.1.2 0 l.2
            (napi_object_of
              [("pattern", .string id), ("signal", .string sig_str_buf),
               ("killedCount", .number (.int k.1)), ("success", .boolean true),
               ("error", .boolean false)], k.2)
      else
        let r :=
          if kill_all then libcrun_container_killall E crun_context id sig_str_buf s
          else libcrun_container_kill E crun_context id sig_str_buf s
        if r.1.ret < 0 then
          (create_error_from_crun "Failed to kill container" r.1.err, r.2)
        else
          (napi_object_of
            [("id", .string id), ("signal", .string sig_str_buf),
             ("all", .boolean kill_all), ("success", .boolean true),
             ("error", .boolean false)], r.2)

/-- Embedding of `CrunDelete`. -/
def CrunDelete (E : Env W R) (args : List NapiValue) (s : Sys W) : NapiValue × Sys W :=
  if args.length < 1 then
    (napi_create_error_obj (-1) (utf8 "please specify a ID for the container"), s)
  else
    match napi_get_string (cb_arg args 0) with
    | none => (napi_create_error_obj (-1) (utf8 "Invalid container id"), s)
    | some id =>
      let opts := options_arg args 1
      let force := option_bool E.indet opts "force"
      let use_regex := option_bool E.indet opts "regex"
      let crun_context := make_context E.indet id opts
      if use_regex then
        match E.regcomp id with
        | none => (napi_create_error_obj (-1) (utf8 "invalid regular expression"), s)
        | some re =>
          let l := libcrun_get_containers_list E (list_root opts) s
          if l.1.1.ret < 0 then
            (create_error_from_crun "cannot read containers list" l.1.1.err, l.2)
          else
            let d := delete_matching E re crun_context force l.1.2 0 l.2
            (napi_object_of
              [("pattern", .string id), ("deletedCount", .number (.int d.1)),
               ("force", .boolean force), ("deleted", .boolean true),
               ("error", .boolean false)], d.2)
      else
        let r := libcrun_container_delete E crun_context id force s
        if r.1.ret < 0 then
          (create_error_from_crun "Failed to delete container" r.1.err, r.2)
        else
          (napi_object_of
            [("id", .string id), ("force", .boolean force), ("deleted", .boolean true),
             ("error", .boolean false)], r.2)

/-! ## `CrunUpdate` -/

/-- A row of the table `update_mappings`. -/
structure update_mapping where
  js_prop : String
  «section» : String
  name : String
  numeric : Int
  deriving DecidableEq

/-- The table `update_mappings`, without its terminating `NULL` row. -/
def update_mappings : List update_mapping :=
  [ ⟨"blkioWeight", "blockIO", "weight", 1⟩,
    ⟨"cpuPeriod", "cpu", "period", 1⟩,
    ⟨"cpuQuota", "cpu", "quota", 1⟩,
    ⟨"cpuShares", "cpu", "shares", 1⟩,
    ⟨"cpuRtPeriod", "cpu", "realtimePeriod", 1⟩,
    ⟨"cpuRtRuntime", "cpu", "realtimeRuntime", 1⟩,
    ⟨"cpusetCpus", "cpu", "cpus", 0⟩,
    ⟨"cpusetMems", "cpu", "mems", 0⟩,
    ⟨"kernelMemory", "memory", "kernel", 1⟩,
    ⟨"kernelMemoryTcp", "memory", "kernelTCP", 1⟩,
    ⟨"memory", "memory", "limit", 1⟩,
    ⟨"memoryReservation", "memory", "reservation", 1⟩,
    ⟨"memorySwap", "memory", "swap", 1⟩,
    ⟨"pidsLimit", "pids", "limit", 1⟩ ]

/-- What `napi_get_value_int64` stores in `num`; it is called on numbers only. -/
def value_int64 (prop_val : NapiValue) : Int :=
  match prop_val with
  | .number d => napi_get_value_int64 d
  | _ => 0

/-- The string branches of the loop of `CrunUpdate`: the copy of the string into
`value_bufs[buf_idx]`, made only while `buf_idx < 16`. Returns `value_str` and `buf_idx`. -/
def copy_string_value (prop_val : NapiValue) (buf_idx : Nat) : Option CStr × Nat :=
  match napi_get_string prop_val with
  | some tmp => if buf_idx < 16 then (some (strncpy_buf 64 tmp), buf_idx + 1) else (none, buf_idx)
  | none => (none, buf_idx)

/-- The part of the loop body of `CrunUpdate` that computes `value_str` (and the new
`buf_idx`) for a property that is present. `long` is 64 bits wide. -/
def update_value_str (m : update_mapping) (prop_val : NapiValue) (buf_idx : Nat) :
    Option CStr × Nat :=
  if m.numeric ≠ 0 ∧ napi_typeof prop_val = .napi_number then
    (some (snprintf_int 64 (value_int64 prop_val)), buf_idx + 1)
  else if m.numeric = 0 ∧ napi_typeof prop_val = .napi_string then
    copy_string_value prop_val buf_idx
  else if napi_typeof prop_val = .napi_string then
    copy_string_value prop_val buf_idx
  else (none, buf_idx)

/-- One iteration of the loop of `CrunUpdate` over `update_mappings`; the state is
`buf_idx` and the array `values`. -/
def update_step (resources : NapiValue) (st : Nat × List libcrun_update_value_s)
    (m : update_mapping) : Nat × List libcrun_update_value_s :=
  match napi_named_property resources m.js_prop with
  | none => st
  | some prop_val =>
    match update_value_str m prop_val st.1 with
    | (some value_str, buf_idx) =>
      (buf_idx, st.2 ++ [⟨m.«section», m.name, m.numeric, value_str⟩])
    | (none, buf_idx) => (buf_idx, st.2)

/-- The array `values` built by the loop of `CrunUpdate` from the resources object. -/
def update_values (resources : NapiValue) : List libcrun_update_value_s :=
  (update_mappings.foldl (update_step resources) (0, [])).2

/-- The object `CrunUpdate` returns on success. -/
def update_result (id : CStr) : NapiValue :=
  napi_object_of [("id", .string id), ("updated", .boolean true), ("error", .boolean false)]

/-- The generic update of `CrunUpdate`: `libcrun_container_update_from_values` is called
only for a non-empty array; the first component is the error object returned when it fails. -/
def update_generic (E : Env W R) (ctx : libcrun_context_t) (id : CStr)
    (values : List libcrun_update_value_s) (s : Sys W) : Option NapiValue × Sys W :=
  if 0 < values.length then
    let u := libcrun_container_update_from_values E ctx id values s
    if u.1.ret < 0 then
      (some (create_error_from_crun "Failed to update container" u.1.err), u.2)
    else (none, u.2)
  else (none, s)

/-- The Intel RDT part of `CrunUpdate`. -/
def update_rdt (E : Env W R) (ctx : libcrun_context_t) (id : CStr) (resources : NapiValue)
    (s : Sys W) : NapiValue × Sys W :=
  let l3_cache := get_string_property resources "l3CacheSchema"
  let mem_bw := get_string_property resources "memBwSchema"
  if l3_cache.isSome ∨ mem_bw.isSome then
    let r := libcrun_container_update_intel_rdt E ctx id l3_cache mem_bw s
    if r.1.ret < 0 then
      (create_error_from_crun "Failed to update Intel RDT" r.1.err, r.2)
    else (update_result id, r.2)
  else (update_result id, s)

/-- Embedding of `CrunUpdate`. -/
def CrunUpdate (E : Env W R) (args : List NapiValue) (s : Sys W) : NapiValue × Sys W :=
  if args.length < 2 then
    (napi_create_error_obj (-1)
      (utf8 "please specify a ID and resources for the container"), s)
  else
    match napi_get_string (cb_arg args 0) with
    | none => (napi_create_error_obj (-1) (utf8 "Invalid container id"), s)
    | some id =>
      let opts := options_arg args 2
      let crun_context := make_context E.indet id opts
      let resources := cb_arg args 1
      if napi_typeof resources = .napi_string then
        match napi_get_string resources with
        | none => (napi_create_error_obj (-1) (utf8 "Invalid resources path"), s)
        | some resources_path =>
          let r := libcrun_container_update_from_file E crun_context id resources_path s
          if r.1.ret < 0 then
            (create_error_from_crun "Failed to update container from file" r.1.err, r.2)
          else (update_result id, r.2)
      else if napi_typeof resources = .napi_object then
        let g := update_generic E crun_context id (update_values resources) s
        match g.1 with
        | some error => (error, g.2)
        | none => update_rdt E crun_context id resources g.2
      else
        (napi_create_error_obj (-1)
          (utf8 "resources must be a string (file path) or object"), s)

/-! ## Files and the C library scanners -/

/-- The bytes of a file or of a buffer; unlike a C string they may hold NUL. -/
abbrev Bytes := List UInt8

/-- `PATH_MAX` of `<limits.h>` on Linux. -/
def PATH_MAX : Nat := 4096

/-- The C string held in a buffer: the bytes before the first NUL. -/
def c_str (buf : Bytes) : CStr := buf.takeWhile (fun b => b != 0)

/-- The text `snprintf(buf, size, fmt, ...)` leaves in `buf`, given the whole formatted
text. -/
def snprintf_buf (size : Nat) (text : CStr) : CStr := text.take (size - 1)

/-- `isspace` in the C locale: space, `\t`, `\n`, `\v`, `\f`, `\r`. -/
def isspace (b : UInt8) : Bool := b.toNat = 32 || (9 ≤ b.toNat && b.toNat ≤ 13)

/-- `isdigit`. -/
def isdigit (b : UInt8) : Bool := 48 ≤ b.toNat && b.toNat ≤ 57

/-- The white space a conversion or a blank of a format skips. -/
def skip_space (input : Bytes) : Bytes := input.dropWhile isspace

/-- The number written by a run of decimal digits. -/
def digits_value (ds : Bytes) : Nat := ds.foldl (fun acc d => acc * 10 + (d.toNat - 48)) 0

/-- The subject of a decimal conversion (`strtol`, `strtoul`, `%d`, `%lu`) once white
space is skipped: an optional sign and at least one digit. Gives the mathematical value
and the input left. -/
def scan_decimal (input : Bytes) : Option (Int × Bytes) :=
  match input with
  | [] => none
  | b :: t =>
    if b.toNat = 45 then
      if t.takeWhile isdigit = [] then none
      else some (-(digits_value (t.takeWhile isdigit) : Int), t.dropWhile isdigit)
    else if b.toNat = 43 then
      if t.takeWhile isdigit = [] then none
      else some ((digits_value (t.takeWhile isdigit) : Int), t.dropWhile isdigit)
    else
      if (b :: t).takeWhile isdigit = [] then none
      else some ((digits_value ((b :: t).takeWhile isdigit) : Int), (b :: t).dropWhile isdigit)

/-- The `int` stored for a decimal value: glibc converts with `strtol`, which saturates
to the range of `long`, and keeps the low 32 bits. -/
def to_int (v : Int) : Int := wrap_int32 (clamp_int64 v)

/-- The `unsigned long` stored for a decimal value as `strtoul` converts it: the value
modulo `2^64` (a minus sign negates), `ULONG_MAX` when the magnitude does not fit. -/
def to_ulong (v : Int) : Nat :=
  if v ≥ 2 ^ 64 ∨ v ≤ -(2 : Int) ^ 64 then 2 ^ 64 - 1 else (v % 2 ^ 64).toNat

/-- `atoi`: the leading decimal integer of the string after white space, 0 without one. -/
def atoi (s : CStr) : Int :=
  match scan_decimal (skip_space s) with
  | some (v, _) => to_int v
  | none => 0

/-- The conversion `%d` of `scanf`: the `int` read and the input left. -/
def scan_d (input : Bytes) : Option (Int × Bytes) :=
  match scan_decimal (skip_space input) with
  | some (v, rest) => some (to_int v, rest)
  | none => none

/-- The conversion `%lu` of `scanf`. -/
def scan_lu (input : Bytes) : Option (Nat × Bytes) :=
  match scan_decimal (skip_space input) with
  | some (v, rest) => some (to_ulong v, rest)
  | none => none

/-- The conversion `%c` of `scanf`: the next byte, white space included. -/
def scan_c (input : Bytes) : Option (UInt8 × Bytes) :=
  match input with
  | [] => none
  | b :: t => some (b, t)

/-- An ordinary character of a `scanf` format: it must be the next byte. -/
def scan_lit (c : UInt8) (input : Bytes) : Option Bytes :=
  match input with
  | [] => none
  | b :: t => if b = c then some t else none

/-- The conversion `%255[^)]` (for `width = 255`): the longest run of at most `width`
bytes other than `)`, which must not be empty. -/
def scan_not_rparen (width : Nat) (input : Bytes) : Option (Bytes × Bytes) :=
  if (input.take width).takeWhile (fun b => b.toNat ≠ 41) = [] then none
  else some ((input.take width).takeWhile (fun b => b.toNat ≠ 41),
    input.drop ((input.take width).takeWhile (fun b => b.toNat ≠ 41)).length)

/-- At most `n` successive `%lu` conversions: the values read before the first failure. -/
def scan_lus : Nat → Bytes → List Nat
  | 0, _ => []
  | n + 1, input =>
    match scan_lu input with
    | none => []
    | some (u, rest) => u :: scan_lus n rest

/-- The bytes one `fgets` with room for `n` bytes stores: up to and including the first
newline, at most `n`. -/
def take_line : Nat → Bytes → Bytes
  | 0, _ => []
  | _ + 1, [] => []
  | n + 1, b :: t => if b.toNat = 10 then [b] else b :: take_line n t

/-- `fgets(line, size, f)` on a stream positioned before `stream`: NULL at end of file,
else the line stored and the stream left. -/
def fgets (size : Nat) (stream : Bytes) : Option (Bytes × Bytes) :=
  if stream = [] then none
  else some (take_line (size - 1) stream, stream.drop (take_line (size - 1) stream).length)

/-- The loop `while (fgets(line, size, f))` run for at most `fuel` iterations. -/
def fgets_loop (size : Nat) : Nat → Bytes → List Bytes
  | 0, _ => []
  | fuel + 1, stream =>
    match fgets size stream with
    | none => []
    | some (line, rest) => line :: fgets_loop size fuel rest

/-- The successive lines `while (fgets(line, size, f))` stores; every iteration consumes
a byte, so the length of the stream is enough fuel. -/
def fgets_lines (size : Nat) (stream : Bytes) : List Bytes :=
  fgets_loop size stream.length stream

/-- The loop `while (fscanf(f, "%d", &x) == 1)` run for at most `fuel` iterations. -/
def scan_ints_loop : Nat → Bytes → List Int
  | 0, _ => []
  | fuel + 1, input =>
    match scan_d input with
    | none => []
    | some (v, rest) => v :: scan_ints_loop fuel rest

/-- The integers `while (fscanf(f, "%d", &x) == 1)` reads; every iteration consumes a
byte, so the length of the stream is enough fuel. -/
def scan_ints (input : Bytes) : List Int := scan_ints_loop input.length input

/-! ## The status interface of libcrun and the kernel files -/

/-- The locals of `read_ps_info` that the two scans assign. -/
structure ps_locals where
  comm : CStr
  state : UInt8
  ppid : Int
  pgrp : Int
  session : Int
  tty_nr : Int
  utime : Nat
  stime : Nat
  deriving DecidableEq

/-- The status interface of libcrun and the kernel interfaces the binding reads, over a
world of type `W`. -/
structure Host (W : Type) where
  /-- `libcrun_read_container_status(&status, root, id, &err)` and the status it fills. -/
  read_container_status : CStr → CStr → W → (Ret × libcrun_container_status_t) × W
  /-- `libcrun_is_container_running(&status, &err)`. -/
  is_container_running : libcrun_container_status_t → W → Ret × W
  /-- `libcrun_get_container_state_string(id, &status, root, &container_status, &running,
  &err)` with the `container_status` and `running` it stores. -/
  get_container_state_string :
    CStr → libcrun_container_status_t → CStr → W → (Ret × Option CStr × Int) × W
  /-- `fopen(path, "r")`: the content of the file when it opens. -/
  fopen : CStr → W → Option Bytes × W
  /-- `sysconf(_SC_CLK_TCK)`. -/
  clk_tck : Int
  /-- The indeterminate initial values of the locals of `read_ps_info(env, pid)`. -/
  uninit : Int → ps_locals
  /-- The indeterminate initial value of `uid` in `read_ps_info(env, pid)`. -/
  uninit_uid : Int → Int

def libcrun_read_container_status (H : Host W) (root id : CStr) (s : Sys W) :
    (Ret × libcrun_container_status_t) × Sys W :=
  let r := H.read_container_status root id s.world
  (r.1, { world := r.2,
          trace := s.trace ++ [⟨.read_container_status root id, r.1.1.ret⟩] })

def libcrun_is_container_running (H : Host W) (status : libcrun_container_status_t)
    (s : Sys W) : Ret × Sys W :=
  s.record (.is_container_running status) (H.is_container_running status s.world)

def libcrun_get_container_state_string (H : Host W) (id : CStr)
    (status : libcrun_container_status_t) (root : CStr) (s : Sys W) :
    (Ret × Option CStr × Int) × Sys W :=
  let r := H.get_container_state_string id status root s.world
  (r.1, { world := r.2,
          trace := s.trace ++ [⟨.get_container_state_string id status root, r.1.1.ret⟩] })

/-- An `fopen(path, "r")` by the binding: the content of the file, NULL as `none`. -/
def fopen (H : Host W) (path : CStr) (s : Sys W) : Option Bytes × Sys W :=
  let r := H.fopen path s.world
  (r.1, { world := r.2,
          trace := s.trace ++ [⟨.fopen path, if r.1.isSome then 1 else 0⟩] })

/-! ## Arrays -/

/-- The elements of an array as a list. -/
def NapiItems.toList : NapiItems → List NapiValue
  | .nil => []
  | .cons v rest => v :: rest.toList

/-- The array elements holding the given list. -/
def NapiItems.ofList : List NapiValue → NapiItems
  | [] => .nil
  | v :: rest => .cons v (NapiItems.ofList rest)

/-- N-API `napi_set_element` on the elements of an array: an index past the end leaves
holes, which read as `undefined`. -/
def napi_set_element (items : List NapiValue) (index : Nat) (value : NapiValue) :
    List NapiValue :=
  if index < items.length then items.set index value
  else items ++ List.replicate (index - items.length) NapiValue.undefined ++ [value]

/-! ## `read_ps_info` and `CrunPs` -/

/-- The four `%d` conversions that follow `%c` in both scans of the stat line: the number
of conversions made, the locals after them and the input left. -/
def scan_four (input : Bytes) (v : ps_locals) : Nat × ps_locals × Bytes :=
  match scan_d input with
  | none => (0, v, input)
  | some (ppid, r1) =>
    match scan_d r1 with
    | none => (1, { v with ppid := ppid }, r1)
    | some (pgrp, r2) =>
      match scan_d r2 with
      | none => (2, { v with ppid := ppid, pgrp := pgrp }, r2)
      | some (session, r3) =>
        match scan_d r3 with
        | none => (3, { v with ppid := ppid, pgrp := pgrp, session := session }, r3)
        | some (tty_nr, r4) =>
          (4, { v with ppid := ppid, pgrp := pgrp, session := session, tty_nr := tty_nr },
            r4)

/-- The `fscanf(f, "%d (%255[^)]) %c %d %d %d %d", ...)` of `read_ps_info`: the number
of conversions made (its return value, where the model gives 0 also for `EOF`) and the
locals after it. -/
def fscanf_stat (input : Bytes) (v : ps_locals) : Nat × ps_locals :=
  match scan_d input with
  | none => (0, v)
  | some (_, r1) =>
    match scan_lit 40 (skip_space r1) with
    | none => (1, v)
    | some r2 =>
      match scan_not_rparen 255 r2 with
      | none => (1, v)
      | some (comm, r3) =>
        match scan_lit 41 r3 with
        | none => (2, { v with comm := c_str comm })
        | some r4 =>
          match scan_c (skip_space r4) with
          | none => (2, { v with comm := c_str comm })
          | some (state, r5) =>
            (3 + (scan_four r5 { v with comm := c_str comm, state := state }).1,
              (scan_four r5 { v with comm := c_str comm, state := state }).2.1)

/-- The `sscanf(after_comm, "%c %d %d %d %d %lu %lu %lu %lu %lu %lu %lu %lu", ...)` of
`read_ps_info`: six values go to `dummy`, the next two to `utime` and `stime`. -/
def sscanf_after_comm (after_comm : Bytes) (v : ps_locals) : ps_locals :=
  match scan_c after_comm with
  | none => v
  | some (state, r) =>
    if (scan_four r { v with state := state }).1 < 4 then
      (scan_four r { v with state := state }).2.1
    else
      { (scan_four r { v with state := state }).2.1 with
        utime := (scan_lus 8 (scan_four r { v with state := state }).2.2).getD 6
          (scan_four r { v with state := state }).2.1.utime
        stime := (scan_lus 8 (scan_four r { v with state := state }).2.2).getD 7
          (scan_four r { v with state := state }).2.1.stime }

/-- `strchr(s, c)` as the index of the first `c`, NULL as `none`. -/
def strchr (s : CStr) (c : UInt8) : Option Nat :=
  if c ∈ s then some (s.indexOf c) else none

/-- The second scan of `read_ps_info`: `rewind`, `fgets` of the first line into
`stat_line[4096]`, `strchr` for `)` and the `sscanf` two bytes after it. -/
def rescan_stat (content : Bytes) (v : ps_locals) : ps_locals :=
  match fgets 4096 content with
  | none => v
  | some (stat_line, _) =>
    match strchr (c_str stat_line) 41 with
    | none => v
    | some i => sscanf_after_comm ((c_str stat_line).drop (i + 2)) v

/-- The loop of `read_ps_info` over the lines of the status file: the content of
`uid_str` after it. -/
def status_uid_str (uninit_uid : Int) : List Bytes → CStr
  | [] => utf8 "0"
  | line :: rest =>
    if (utf8 "Uid:").isPrefixOf (c_str line) = true then
      match scan_d ((c_str line).drop 4) with
      | some (uid, _) => snprintf_int 32 uid
      | none => snprintf_int 32 uninit_uid
    else status_uid_str uninit_uid rest

/-- The clock-tick rate `read_ps_info` divides by. -/
def ps_hz (clk_tck : Int) : Int := if clk_tck ≤ 0 then 100 else clk_tck

/-- The content of `time_str`: `(utime + stime) / hz` in `unsigned long` arithmetic. -/
def ps_time_str (clk_tck : Int) (utime stime : Nat) : CStr :=
  snprintf_int 32 ((((utime + stime) % 2 ^ 64 : Nat) : Int) / ps_hz clk_tck)

/-- The six properties `read_ps_info` sets to "0" when it has no stat line. -/
def ps_zero_fields : List (String × NapiValue) :=
  [("PPID", .string (utf8 "0")), ("UID", .string (utf8 "0")), ("STIME", .string (utf8 "0")),
   ("TTY", .string (utf8 "0")), ("TIME", .string (utf8 "0")), ("C", .string (utf8 "0"))]

/-- The path `/proc/<pid>/<file>` as formatted into `path[PATH_MAX]`. -/
def proc_path (pid : Int) (file : String) : CStr :=
  snprintf_buf PATH_MAX (utf8 "/proc/" ++ utf8 (toString pid) ++ utf8 file)

/-- Embedding of `read_ps_info`. -/
def read_ps_info (H : Host W) (pid : Int) (s : Sys W) : NapiValue × Sys W :=
  let f := fopen H (proc_path pid "/stat") s
  match f.1 with
  | none =>
    (napi_object_of ([("PID", .string (snprintf_int 32 pid))] ++ ps_zero_fields
      ++ [("CMD", .string (utf8 "unknown"))]), f.2)
  | some content =>
    let scan := fscanf_stat content (H.uninit pid)
    if scan.1 < 7 then
      (napi_object_of ([("PID", .string (snprintf_int 32 pid))] ++ ps_zero_fields
        ++ [("CMD", .string (snprintf_buf 260 (utf8 "(" ++ scan.2.comm ++ utf8 ")")))]),
        f.2)
    else
      let v := rescan_stat content scan.2
      let st := fopen H (proc_path pid "/status") f.2
      let uid_str :=
        match st.1 with
        | none => utf8 "0"
        | some status => status_uid_str (H.uninit_uid pid) (fgets_lines 1024 status)
      (napi_object_of
        [("PID", .string (snprintf_int 32 pid)),
         ("PPID", .string (snprintf_int 32 v.ppid)),
         ("CMD", .string (snprintf_buf 260 (utf8 "(" ++ v.comm ++ utf8 ")"))),
         ("UID", .string uid_str),
         ("STIME", .string (snprintf_int 32 v.session)),
         ("TTY", .string (snprintf_int 32 v.session)),
         ("TIME", .string (ps_time_str H.clk_tck v.utime v.stime)),
         ("C", .string (utf8 "0"))], st.2)

/-- The PIDs the loop of `CrunPs` over the lines of `cgroup.procs` appends: `atoi` of
every line, kept when positive. -/
def cgroup_procs_pids (lines : List Bytes) : List Int :=
  (lines.map (fun line => atoi (c_str line))).filter (fun p => 0 < p)

/-- The first discovery step of `CrunPs`: the PIDs listed in `cgroup.procs` of the cgroup
of the container, none when the path is NULL or the file does not open. -/
def ps_cgroup_pids (H : Host W) (status : libcrun_container_status_t) (s : Sys W) :
    List Int × Sys W :=
  match status.cgroup_path with
  | none => ([], s)
  | some cgroup_path =>
    let f := fopen H
      (snprintf_buf PATH_MAX (utf8 "/sys/fs/cgroup/" ++ cgroup_path ++ utf8 "/cgroup.procs")) s
    match f.1 with
    | none => ([], f.2)
    | some content => (cgroup_procs_pids (fgets_lines 64 content), f.2)

/-- The path of the children file of the main PID as formatted into
`children_path[PATH_MAX]`. -/
def children_path (pid : Int) : CStr :=
  snprintf_buf PATH_MAX
    (utf8 "/proc/" ++ utf8 (toString pid) ++ utf8 "/task/" ++ utf8 (toString pid)
      ++ utf8 "/children")

/-- The discovery of `CrunPs`: the array `pids` after both steps. -/
def ps_discover (H : Host W) (status : libcrun_container_status_t) (s : Sys W) :
    List Int × Sys W :=
  let c := ps_cgroup_pids H status s
  if c.1 = [] then
    let f := fopen H (children_path status.pid) c.2
    match f.1 with
    | none => ([status.pid], f.2)
    | some content => (status.pid :: scan_ints content, f.2)
  else c

/-- The loop of `CrunPs` over `pids`: `i` is the index, cast to `uint32_t` for
`napi_set_element`; `result` holds the elements set so far. -/
def ps_loop (H : Host W) : List Int → Nat → List NapiValue → Sys W → List NapiValue × Sys W
  | [], _, result, s => (result, s)
  | pid :: rest, i, result, s =>
    let proc_info := read_ps_info H pid s
    ps_loop H rest (i + 1) (napi_set_element result (i % 2 ^ 32) proc_info.1) proc_info.2

/-- The part of `CrunPs` that follows the running check: discovery of the PIDs, then one
`read_ps_info` per PID into the result array. -/
def ps_sample (H : Host W) (status : libcrun_container_status_t) (s : Sys W) :
    NapiValue × Sys W :=
  let pids := ps_discover H status s
  let result := ps_loop H pids.1 0 [] pids.2
  (.array (NapiItems.ofList result.1), result.2)

/-- Embedding of `CrunPs`. -/
def CrunPs (H : Host W) (args : List NapiValue) (s : Sys W) : NapiValue × Sys W :=
  if args.length < 1 then
    (napi_create_error_obj (-1) (utf8 "please specify a ID for the container"), s)
  else
    match napi_get_string (cb_arg args 0) with
    | none => (napi_create_error_obj (-1) (utf8 "Invalid container id"), s)
    | some id =>
      let root := list_root (options_arg args 1)
      let rs := libcrun_read_container_status H root id s
      if rs.1.1.ret < 0 then
        (create_error_from_crun "Failed to read container status" rs.1.1.err, rs.2)
      else
        let running := libcrun_is_container_running H rs.1.2 rs.2
        if running.1.ret ≤ 0 then
          (napi_create_error_obj (-1) (utf8 "container is not running"), running.2)
        else
          ps_sample H rs.1.2 running.2

/-! ## `CrunResourceUsage` -/

/-- Embedding of `read_cgroup_file_content`: the buffer returned, whose C string is the
content; NULL as `none`. At most 8191 bytes are read. -/
def read_cgroup_file_content (H : Host W) (path : CStr) (s : Sys W) : Option Bytes × Sys W :=
  let f := fopen H path s
  match f.1 with
  | none => (none, f.2)
  | some data =>
    if 0 < (data.take 8191).length ∧ (data.take 8191).getLast? = some 10 then
      (some (data.take 8191).dropLast, f.2)
    else (some (data.take 8191), f.2)

/-- Embedding of `add_cgroup_stat`; `obj` is given by its properties. -/
def add_cgroup_stat (H : Host W) (obj : List (String × NapiValue)) (cgroup_path : CStr)
    (file key : String) (s : Sys W) : List (String × NapiValue) × Sys W :=
  let content := read_cgroup_file_content H
    (snprintf_buf PATH_MAX (cgroup_path ++ utf8 file)) s
  match content.1 with
  | some buf => (obj ++ [(key, .string (c_str buf))], content.2)
  | none => (obj ++ [(key, .string (utf8 ""))], content.2)

/-- A run of `add_cgroup_stat` calls, one per (file, key) pair, in order. -/
def add_cgroup_stats (H : Host W) (cgroup_path : CStr) :
    List (String × String) → List (String × NapiValue) → Sys W →
    List (String × NapiValue) × Sys W
  | [], obj, s => (obj, s)
  | (file, key) :: rest, obj, s =>
    let r := add_cgroup_stat H obj cgroup_path file key s
    add_cgroup_stats H cgroup_path rest r.1 r.2

/-- The (file, key) arguments of the calls of `collect_memory_stats`, in order. -/
def memory_stat_files : List (String × String) :=
  [("/memory.current", "Memory Current"), ("/memory.max", "Memory Max"),
   ("/memory.high", "Memory High"), ("/memory.swap.max", "Memory Swap Max"),
   ("/memory.swap.high", "Memory Swap High"), ("/memory.swap.current", "Memory Swap Current"),
   ("/memory.low", "Memory Low"), ("/memory.min", "Memory Min")]

/-- The (file, key) arguments of the calls of `collect_cpu_stats`, in order. -/
def cpu_stat_files : List (String × String) :=
  [("/cpu.stat", "CPU Usage"), ("/cpu.pressure", "CPU Pressure"), ("/cpu.max", "CPU Max"),
   ("/cpu.weight", "CPU Weight"), ("/cpu.weight.nice", "CPU Weight Nice"),
   ("/cpu.uclamp.min", "CPU Uclamp Min"), ("/cpu.uclamp.max", "CPU Uclamp Max"),
   ("/cpuset.cpus.effective", "Effective CPUs"), ("/cpuset.cpus.exclusive", "Exclusive CPUs"),
   ("/cpuset.cpus.partition", "Partition CPUs")]

/-- The (file, key) arguments of the calls of `collect_io_stats`, in order. -/
def io_stat_files : List (String × String) :=
  [("/io.max", "IO Max"), ("/io.pressure", "IO Pressure"),
   ("/io.prio.class", "IO Priority Class"), ("/io.stat", "IO Stat"),
   ("/io.weight", "IO Weight")]

/-- Embedding of `collect_memory_stats`. -/
def collect_memory_stats (H : Host W) (cgroup_path : CStr) (s : Sys W) : NapiValue × Sys W :=
  let r := add_cgroup_stats H cgroup_path memory_stat_files [] s
  (napi_object_of r.1, r.2)

/-- Embedding of `collect_cpu_stats`. -/
def collect_cpu_stats (H : Host W) (cgroup_path : CStr) (s : Sys W) : NapiValue × Sys W :=
  let r := add_cgroup_stats H cgroup_path cpu_stat_files [] s
  (napi_object_of r.1, r.2)

/-- Embedding of `collect_io_stats`. -/
def collect_io_stats (H : Host W) (cgroup_path : CStr) (s : Sys W) : NapiValue × Sys W :=
  let r := add_cgroup_stats H cgroup_path io_stat_files [] s
  (napi_object_of r.1, r.2)

/-- The loop of `CrunResourceUsage` over the lines of `/proc/<pid>/cgroup`: the content of
`cgroup_path` after it, empty when no line starts with `0::`. -/
def cgroup_path_from_lines : List Bytes → CStr
  | [] => []
  | line :: rest =>
    if (utf8 "0::").isPrefixOf (c_str line) = true then
      if ((c_str line).drop 3).getLast? = some 10 then
        snprintf_buf PATH_MAX (utf8 "/sys/fs/cgroup" ++ ((c_str line).drop 3).dropLast)
      else snprintf_buf PATH_MAX (utf8 "/sys/fs/cgroup" ++ (c_str line).drop 3)
    else cgroup_path_from_lines rest

/-- The content of `cgroup_path` in `CrunResourceUsage` before it is tested: built from
the status, or else from `/proc/<pid>/cgroup`; empty when neither gives a path. -/
def usage_cgroup_path (H : Host W) (status : libcrun_container_status_t) (s : Sys W) :
    CStr × Sys W :=
  match status.cgroup_path with
  | some cgroup_path => (snprintf_buf PATH_MAX (utf8 "/sys/fs/cgroup/" ++ cgroup_path), s)
  | none =>
    let f := fopen H (proc_path status.pid "/cgroup") s
    match f.1 with
    | none => ([], f.2)
    | some content => (cgroup_path_from_lines (fgets_lines 1024 content), f.2)

/-- The part of `CrunResourceUsage` that follows the running check: the cgroup path, then
the three collectors. -/
def usage_collect (H : Host W) (status : libcrun_container_status_t) (s : Sys W) :
    NapiValue × Sys W :=
  let cgroup_path := usage_cgroup_path H status s
  if cgroup_path.1 = [] then
    (napi_create_error_obj (-1) (utf8 "Cannot find cgroup path"), cgroup_path.2)
  else
    let memory_stats := collect_memory_stats H cgroup_path.1 cgroup_path.2
    let cpu_stats := collect_cpu_stats H cgroup_path.1 memory_stats.2
    let io_stats := collect_io_stats H cgroup_path.1 cpu_stats.2
    (napi_object_of
      [("memoryStats", memory_stats.1), ("cpuStats", cpu_stats.1),
       ("ioStats", io_stats.1)], io_stats.2)

/-- Embedding of `CrunResourceUsage`. -/
def CrunResourceUsage (H : Host W) (args : List NapiValue) (s : Sys W) : NapiValue × Sys W :=
  if args.length < 1 then
    (napi_create_error_obj (-1) (utf8 "please specify a ID for the container"), s)
  else
    match napi_get_string (cb_arg args 0) with
    | none => (napi_create_error_obj (-1) (utf8 "Invalid container id"), s)
    | some id =>
      let root := list_root (options_arg args 1)
      let rs := libcrun_read_container_status H root id s
      if rs.1.1.ret < 0 then
        (create_error_from_crun "Failed to read container status" rs.1.1.err, rs.2)
      else
        let running := libcrun_is_container_running H rs.1.2 rs.2
        if running.1.ret ≤ 0 then
          (napi_create_error_obj (-1) (utf8 "container is not running"), running.2)
        else
          usage_collect H rs.1.2 running.2

/-! ## `CrunList` -/

/-- The properties after `id` that `CrunList` sets for an entry whose status and state
string were read. -/
def list_status_fields (status : libcrun_container_status_t)
    (container_status : Option CStr) (running : Int) : List (String × NapiValue) :=
  [("pid", .number (.int (if running ≠ 0 then status.pid else 0)))]
  ++ (match container_status with
      | some text => [("status", .string text)]
      | none => [])
  ++ (match status.bundle with
      | some text => [("bundle", .string text)]
      | none => [])
  ++ (match status.created with
      | some text => [("created", .string text)]
      | none => [])
  ++ (match status.owner with
      | some text => [("owner", .string text)]
      | none => [])

/-- The body of the loop of `CrunList` up to `napi_set_element`: the object `obj` built
for the entry `name`. -/
def list_entry (H : Host W) (root name : CStr) (quiet : Bool) (s : Sys W) :
    NapiValue × Sys W :=
  if quiet then (napi_object_of [("id", .string name)], s)
  else
    let rs := libcrun_read_container_status H root name s
    if rs.1.1.ret < 0 then (napi_object_of [("id", .string name)], rs.2)
    else
      let st := libcrun_get_container_state_string H name rs.1.2 root rs.2
      if st.1.1.ret < 0 then (napi_object_of [("id", .string name)], st.2)
      else
        (napi_object_of
          ([("id", .string name)] ++ list_status_fields rs.1.2 st.1.2.1 st.1.2.2), st.2)

/-- The loop of `CrunList` over the container list; `index` is a `uint32_t`. -/
def list_loop (H : Host W) (root : CStr) (quiet : Bool) :
    List CStr → Nat → List NapiValue → Sys W → List NapiValue × Sys W
  | [], _, result, s => (result, s)
  | name :: next, index, result, s =>
    let obj := list_entry H root name quiet s
    list_loop H root quiet next ((index + 1) % 2 ^ 32)
      (napi_set_element result index obj.1) obj.2

/-- Embedding of `CrunList`. -/
def CrunList (E : Env W R) (H : Host W) (args : List NapiValue) (s : Sys W) :
    NapiValue × Sys W :=
  let opts := options_arg args 0
  let quiet := option_bool E.indet opts "quiet"
  let root := list_root opts
  let l := libcrun_get_containers_list E root s
  if l.1.1.ret < 0 then
    (create_error_from_crun "Failed to list containers" l.1.1.err, l.2)
  else
    let result := list_loop H root quiet l.1.2 0 [] l.2
    (.array (NapiItems.ofList result.1), result.2)

/-! ## Vocabulary of the batch claims -/

/-- The entries of the container list whose name the compiled pattern matches,
in list order. -/
def matching (E : Env W R) (re : R) (S : List CStr) : List CStr :=
  S.filter (fun name => E.regexec re name = 0)

/-- The delegated calls of an event list that reported success (a return value `>= 0`). -/
def succeeded (evs : List Event) : List Event := evs.filter (fun e => 0 ≤ e.ret)

/-- The per-member outcomes recorded in an event list: for every delegated kill or delete,
the container it was applied to and whether it reported success. -/
def member_outcomes : List Event → List (CStr × Bool)
  | [] => []
  | ⟨.container_kill _ name _, ret⟩ :: rest =>
    (name, decide (0 ≤ ret)) :: member_outcomes rest
  | ⟨.container_delete _ name _, ret⟩ :: rest =>
    (name, decide (0 ≤ ret)) :: member_outcomes rest
  | _ :: rest => member_outcomes rest

/-! ## A concrete collaborator for evaluation

The world is the list of container names under the state root. A pattern is a literal
prefix, and `[` alone does not compile. The container `web-stuck` can be neither killed
nor deleted; deleting any other existing container removes it. -/

/-- A concrete collaborator over the world of container names. -/
def demoEnv : Env (List CStr) CStr where
  regcomp := fun pat => if pat = utf8 "[" then none else some pat
  regexec := fun re name => if re.isPrefixOf name then 0 else 1
  indet := fun _ => false
  list := fun root w =>
    if root = utf8 "/nonexistent" then
      (({ ret := -1, err := some (utf8 "No such file or directory") }, []), w)
    else (({ ret := 0, err := none }, w), w)
  kill := fun _ name _ w =>
    if name ∈ w ∧ name ≠ utf8 "web-stuck" then ({ ret := 0, err := none }, w)
    else ({ ret := -1, err := some (utf8 "cannot kill") }, w)
  killall := fun _ name _ w =>
    if name ∈ w ∧ name ≠ utf8 "web-stuck" then ({ ret := 0, err := none }, w)
    else ({ ret := -1, err := some (utf8 "cannot kill") }, w)
  delete := fun _ name _ w =>
    if name ∈ w ∧ name ≠ utf8 "web-stuck" then ({ ret := 0, err := none }, w.erase name)
    else ({ ret := -1, err := some (utf8 "cannot delete") }, w)
  update_from_values := fun _ _ _ w => ({ ret := 0, err := none }, w)
  update_from_file := fun _ _ _ w => ({ ret := 0, err := none }, w)
  update_intel_rdt := fun _ _ _ _ w => ({ ret := 0, err := none }, w)

/-- A fleet of three containers, the first of which cannot be killed or deleted. -/
def demoFleet : List CStr := [utf8 "web-stuck", utf8 "db-1", utf8 "web-2"]

/-- The initial state over `demoFleet`, with no delegated call made yet. -/
def demoSys : Sys (List CStr) := { world := demoFleet, trace := [] }

/-- The options object with only `regex: true`. -/
def regexOpts : NapiProps := .cons "regex" (.boolean true) .nil

/-- The options object with `regex: true` and a state root that cannot be read. -/
def badRootOpts : NapiProps :=
  .cons "stateRoot" (.string (utf8 "/nonexistent")) (.cons "regex" (.boolean true) .nil)

/-- The initial state over a fleet holding only `web-2`. -/
def soloSys : Sys (List CStr) := { world := [utf8 "web-2"], trace := [] }

/-! ## Vocabulary of the update claims -/

/-- The entry a row of the table contributes for a resources object, if any: the loop
body of `CrunUpdate` run with an empty `values` array and a free buffer. -/
def row_entry (resources : NapiValue) (m : update_mapping) : Option libcrun_update_value_s :=
  match napi_named_property resources m.js_prop with
  | none => none
  | some prop_val =>
    match (update_value_str m prop_val 0).1 with
    | some value_str => some ⟨m.«section», m.name, m.numeric, value_str⟩
    | none => none

/-- Whether a delegated call is the Intel RDT update. -/
def is_rdt_update : Call → Bool
  | .container_update_intel_rdt _ _ _ _ => true
  | _ => false

/-- The Intel RDT updates among the delegated calls of an event list. -/
def rdt_updates (evs : List Event) : List Event := evs.filter (fun e => is_rdt_update e.call)

/-- A request naming `memory` before `cpusetCpus`. -/
def memoryFirst : NapiProps :=
  .cons "memory" (.number (.int 1048576)) (.cons "cpusetCpus" (.string (utf8 "0-3")) .nil)

/-- The same request naming `cpusetCpus` before `memory`. -/
def cpusetFirst : NapiProps :=
  .cons "cpusetCpus" (.string (utf8 "0-3")) (.cons "memory" (.number (.int 1048576)) .nil)

/-- The row of the table for `pidsLimit`. -/
def pidsLimitRow : update_mapping := ⟨"pidsLimit", "pids", "limit", 1⟩

/-! ## Vocabulary of the telemetry and process claims -/

/-- The value `add_cgroup_stat` stores under its key, given what its `fopen` returned:
empty without a file, else the C string of the first 8191 bytes less one final newline. -/
def cgroup_stat_value (opened : Option Bytes) : CStr :=
  match opened with
  | none => utf8 ""
  | some data =>
    if 0 < (data.take 8191).length ∧ (data.take 8191).getLast? = some 10 then
      c_str (data.take 8191).dropLast
    else c_str (data.take 8191)

/-- The path `add_cgroup_stat` opens for a file of a cgroup. -/
def cgroup_file_path (cgroup_path : CStr) (file : String) : CStr :=
  snprintf_buf PATH_MAX (cgroup_path ++ utf8 file)

/-! ## Concrete hosts for evaluation -/

/-- A host in which every file opens with the same content, and a container is running. -/
def constHost (data : Bytes) : Host Unit where
  read_container_status := fun _ _ w =>
    (({ ret := 0, err := none }, ⟨1, some (utf8 "x"), none, none, none⟩), w)
  is_container_running := fun _ w => ({ ret := 1, err := none }, w)
  get_container_state_string := fun _ _ _ w =>
    (({ ret := 0, err := none }, some (utf8 "running"), 1), w)
  fopen := fun _ w => (some data, w)
  clk_tck := 100
  uninit := fun _ => ⟨[], 0, 0, 0, 0, 0, 0, 0⟩
  uninit_uid := fun _ => 0

/-- A world of the host: the files that open, what the running check returns, and the
status of the container `web-2`. -/
structure ProcWorld where
  files : List (CStr × Bytes)
  running : Int
  status : libcrun_container_status_t
  deriving DecidableEq

/-- A host over `ProcWorld`: only `web-2` has a status, and a file opens when it is
listed. -/
def procHost : Host ProcWorld where
  read_container_status := fun _ id w =>
    if id = utf8 "web-2" then (({ ret := 0, err := none }, w.status), w)
    else (({ ret := -1, err := some (utf8 "No such file or directory") },
      ⟨0, none, none, none, none⟩), w)
  is_container_running := fun _ w => ({ ret := w.running, err := none }, w)
  get_container_state_string := fun _ _ _ w =>
    (({ ret := 0, err := none }, some (utf8 "running"), w.running), w)
  fopen := fun path w => (List.lookup path w.files, w)
  clk_tck := 100
  uninit := fun _ => ⟨[], 0, 0, 0, 0, 0, 0, 0⟩
  uninit_uid := fun _ => 0

/-- The keys of an object, in insertion order. -/
def object_keys (value : NapiValue) : List String :=
  match value with
  | .object props => props.toList.map Prod.fst
  | _ => []

/-- The status of `web-2` in the evaluation worlds: main PID 7 in the cgroup
`crun/web-2`. -/
def webStatus : libcrun_container_status_t :=
  ⟨7, some (utf8 "crun/web-2"), some (utf8 "/bundles/web"), some (utf8 "2024-01-01"),
    some (utf8 "root")⟩

/-- A world in which `web-2` is stopped and no file opens. -/
def stoppedWorld : ProcWorld := ⟨[], 0, webStatus⟩

/-- A world in which `web-2` runs the processes 7 and 9; process 9 has gone since the
cgroup listed it, so that none of its files opens. -/
def runningWorld : ProcWorld :=
  ⟨[(utf8 "/sys/fs/cgroup/crun/web-2/cgroup.procs", utf8 "7\n9\n"),
    (utf8 "/proc/7/stat",
      utf8 "7 (my prog) S 1 7 5 0 -1 4194560 100 0 0 0 500 300 0 0 20 0 1 0 100 10 20\n"),
    (utf8 "/proc/7/status", utf8 "Name:\tmy prog\nUid:\t1000\t1000\t1000\t1000\nGid:\t100\n"),
    (utf8 "/sys/fs/cgroup/crun/web-2/memory.current", utf8 "4096\n")],
   1, webStatus⟩

/-- Whether the input cannot continue a run of digits: it is empty or begins with a byte
that is not a digit. -/
def ends_number (rest : Bytes) : Bool :=
  match rest with
  | [] => true
  | b :: _ => !isdigit b

/-- The text of a file that lists integers one per line. -/
def lines_of_ints (ps : List Int) : Bytes :=
  ps.flatMap (fun p => utf8 (toString p) ++ [10])

/-- The text of a file that lists integers each followed by a blank. -/
def blank_separated (ps : List Int) : Bytes :=
  ps.flatMap (fun p => utf8 (toString p) ++ [32])

/-- One `read_ps_info` per PID, in order, each run in the state the previous one left. -/
def ps_snapshots (H : Host W) : List Int → Sys W → List NapiValue × Sys W
  | [], s => ([], s)
  | pid :: rest, s =>
    ((read_ps_info H pid s).1 :: (ps_snapshots H rest (read_ps_info H pid s).2).1,
      (ps_snapshots H rest (read_ps_info H pid s).2).2)

/-- The initial state over `runningWorld`, with no delegated call made yet. -/
def runningSys : Sys ProcWorld := { world := runningWorld, trace := [] }

/-- The first fifteen fields of the stat line of a process, as proc(5) documents them. -/
structure stat_fields where
  pid : Int
  comm : CStr
  state : UInt8
  ppid : Int
  pgrp : Int
  session : Int
  tty_nr : Int
  tpgid : Int
  flags : Nat
  minflt : Nat
  cminflt : Nat
  majflt : Nat
  cmajflt : Nat
  utime : Nat
  stime : Nat
  deriving DecidableEq

/-- The text of a stat line after `(comm) `: the state and the fields 4 to 15, separated
by single blanks, followed by `tail`. -/
def stat_after_comm (r : stat_fields) (tail : Bytes) : Bytes :=
  r.state :: 32 :: (utf8 (toString r.ppid) ++ 32 :: (utf8 (toString r.pgrp)
    ++ 32 :: (utf8 (toString r.session) ++ 32 :: (utf8 (toString r.tty_nr)
    ++ 32 :: (utf8 (toString r.tpgid) ++ 32 :: (utf8 (toString (r.flags : Int))
    ++ 32 :: (utf8 (toString (r.minflt : Int)) ++ 32 :: (utf8 (toString (r.cminflt : Int))
    ++ 32 :: (utf8 (toString (r.majflt : Int)) ++ 32 :: (utf8 (toString (r.cmajflt : Int))
    ++ 32 :: (utf8 (toString (r.utime : Int)) ++ 32 :: (utf8 (toString (r.stime : Int))
    ++ tail))))))))))))

/-- The text of a stat line `pid (comm) state ppid pgrp session tty_nr ...` up to its
fifteenth field, followed by `tail`. -/
def stat_text (r : stat_fields) (tail : Bytes) : Bytes :=
  utf8 (toString r.pid) ++ 32 :: 40 :: (r.comm ++ 41 :: 32 :: stat_after_comm r tail)

/-- A stat line is one line of text that the kernel can print: the command name is
1 to 255 bytes without NUL or newline, the state is a visible character, the `int` fields
are in the range of `int` and the counters in the range of `unsigned long`. -/
def stat_fields.wf (r : stat_fields) : Prop :=
  r.comm ≠ [] ∧ r.comm.length ≤ 255
  ∧ (∀ b ∈ r.comm, b.toNat ≠ 0 ∧ b.toNat ≠ 10)
  ∧ isspace r.state = false ∧ r.state.toNat ≠ 0
  ∧ (-(2 : Int) ^ 31 ≤ r.pid ∧ r.pid < 2 ^ 31)
  ∧ (-(2 : Int) ^ 31 ≤ r.ppid ∧ r.ppid < 2 ^ 31)
  ∧ (-(2 : Int) ^ 31 ≤ r.pgrp ∧ r.pgrp < 2 ^ 31)
  ∧ (-(2 : Int) ^ 31 ≤ r.session ∧ r.session < 2 ^ 31)
  ∧ (-(2 : Int) ^ 31 ≤ r.tty_nr ∧ r.tty_nr < 2 ^ 31)
  ∧ (-(2 : Int) ^ 31 ≤ r.tpgid ∧ r.tpgid < 2 ^ 31)
  ∧ r.flags < 2 ^ 64 ∧ r.minflt < 2 ^ 64 ∧ r.cminflt < 2 ^ 64 ∧ r.majflt < 2 ^ 64
  ∧ r.cmajflt < 2 ^ 64 ∧ r.utime < 2 ^ 64 ∧ r.stime < 2 ^ 64

instance (r : stat_fields) : Decidable r.wf :=
  inferInstanceAs (Decidable (_ ∧ _))

/-- A world in which the process 7 of `web-2` is named `a)b`; the kernel prints the name
as it is between the first `(` and the last `)` of the stat line. -/
def parenWorld : ProcWorld :=
  ⟨[(utf8 "/sys/fs/cgroup/crun/web-2/cgroup.procs", utf8 "7\n"),
    (utf8 "/proc/7/stat",
      utf8 "7 (a)b) S 1 7 5 0 -1 4194560 100 0 0 0 500 300 0 0 20 0 1 0 100 10 20\n"),
    (utf8 "/proc/7/status", utf8 "Name:\ta)b\nUid:\t1000\t1000\t1000\t1000\nGid:\t100\n")],
   1, webStatus⟩

/-- The clock-tick rate the spec divides by: the host-reported rate when it is positive,
100 otherwise. -/
def clock_ticks (clk_tck : Int) : Nat := if 0 < clk_tck then clk_tck.toNat else 100

/-- The fields of the stat line of process 7 in `runningWorld`. -/
def progFields : stat_fields :=
  ⟨7, utf8 "my prog", 83, 1, 7, 5, 0, -1, 4194560, 100, 0, 0, 0, 500, 300⟩

/-- The rest of the stat line of process 7 in `runningWorld` after its fifteenth field. -/
def progTail : Bytes := utf8 " 0 0 20 0 1 0 100 10 20\n"

/-- The text of a file made of the given lines, each ended by a newline. -/
def text_of_lines (lines : List Bytes) : Bytes := lines.flatMap (fun l => l ++ [10])

/-- A line of text that fits a 1024-byte line buffer together with its newline: at most
1022 bytes, none of them NUL or newline. -/
def text_line (l : Bytes) : Prop :=
  l.length ≤ 1022 ∧ ∀ b ∈ l, b.toNat ≠ 0 ∧ b.toNat ≠ 10

instance (l : Bytes) : Decidable (text_line l) :=
  inferInstanceAs (Decidable (_ ∧ _))

/-- The world `runningWorld` with the owner of process 7 changed to the UID 4294967294,
which `uid_t` holds and `int` does not. -/
def bigUidWorld : ProcWorld :=
  ⟨[(utf8 "/sys/fs/cgroup/crun/web-2/cgroup.procs", utf8 "7\n"),
    (utf8 "/proc/7/stat",
      utf8 "7 (my prog) S 1 7 5 0 -1 4194560 100 0 0 0 500 300 0 0 20 0 1 0 100 10 20\n"),
    (utf8 "/proc/7/status",
      utf8 "Name:\tmy prog\nUid:\t4294967294\t4294967294\t4294967294\t4294967294\n")],
   1, webStatus⟩

/-- A host over the world of container names: the status of `web-stuck` cannot be read,
the state string of `db-1` cannot be computed, every other container is running. -/
def fleetHost : Host (List CStr) where
  read_container_status := fun _ id w =>
    if id = utf8 "web-stuck" then
      (({ ret := -1, err := some (utf8 "cannot read status") }, ⟨0, none, none, none, none⟩), w)
    else
      (({ ret := 0, err := none },
        ⟨12, some (utf8 "crun/c"), some (utf8 "/bundles/c"), some (utf8 "2024-01-01"),
          some (utf8 "root")⟩), w)
  is_container_running := fun _ w => ({ ret := 1, err := none }, w)
  get_container_state_string := fun id _ _ w =>
    if id = utf8 "db-1" then (({ ret := -1, err := some (utf8 "no state") }, none, 0), w)
    else (({ ret := 0, err := none }, some (utf8 "running"), 1), w)
  fopen := fun _ w => (none, w)
  clk_tck := 100
  uninit := fun _ => ⟨[], 0, 0, 0, 0, 0, 0, 0⟩
  uninit_uid := fun _ => 0

/-- The options object with only `quiet: true`. -/
def quietOpts : NapiProps := .cons "quiet" (.boolean true) .nil

/-- Embedding of `napi_create_error_obj` for a `msg` that may be NULL: the message is
then "Unknown error". -/
def napi_create_error_obj_nullable (code : Int) (msg : Option CStr) : NapiValue :=
  napi_create_error_obj code
    (match msg with
     | some text => text
     | none => utf8 "Unknown error")

/-- A request whose only property is not a field of the update table. -/
def unknownOnly : NapiProps := .cons "colour" (.string (utf8 "red")) .nil

/-- One iteration of the loop of `CrunUpdate` over `update_mappings`, keeping with every
element of `values` the index of the scratch buffer its `value` points to: `value_str` is
`value_bufs[buf_idx]` for the `buf_idx` the iteration began with. -/
def update_step_bufs (resources : NapiValue) (st : Nat × List (Nat × libcrun_update_value_s))
    (m : update_mapping) : Nat × List (Nat × libcrun_update_value_s) :=
  match napi_named_property resources m.js_prop with
  | none => st
  | some prop_val =>
    match update_value_str m prop_val st.1 with
    | (some value_str, buf_idx) =>
      (buf_idx, st.2 ++ [(st.1, ⟨m.«section», m.name, m.numeric, value_str⟩)])
    | (none, buf_idx) => (buf_idx, st.2)

/-- The array `values` built by the loop of `CrunUpdate`, every element with the index of
the buffer of `value_bufs` that holds its value. -/
def update_bufs (resources : NapiValue) : List (Nat × libcrun_update_value_s) :=
  (update_mappings.foldl (update_step_bufs resources) (0, [])).2

/-- The signal argument of a delegated kill. -/
def kill_signal_of : Call → Option CStr
  | .container_kill _ _ sig => some sig
  | .container_killall _ _ sig => some sig
  | _ => none

/-- The signals handed to the delegated kills of an event list, oldest first. -/
def kill_signals (evs : List Event) : List CStr := evs.filterMap (fun e => kill_signal_of e.call)

/-- The row of the table for `cpusetCpus`. -/
def cpusetCpusRow : update_mapping := ⟨"cpusetCpus", "cpu", "cpus", 0⟩

/-- The signal numbers of `<signal.h>` that `signal_from_name` returns. -/
structure signal_numbers where
  SIGTERM : Int
  SIGKILL : Int
  SIGINT : Int
  SIGHUP : Int
  SIGSTOP : Int
  SIGCONT : Int
  SIGUSR1 : Int
  SIGUSR2 : Int
  deriving DecidableEq

/-- `tolower` in the C locale. -/
def tolower (b : UInt8) : UInt8 := if 65 ≤ b.toNat ∧ b.toNat ≤ 90 then b + 32 else b

/-- `strcasecmp` on C strings: zero when the strings agree byte for byte after `tolower`,
else the difference of the first two bytes that differ (the terminating NUL counts as 0). -/
def strcasecmp : CStr → CStr → Int
  | [], [] => 0
  | [], b :: _ => -((tolower b).toNat : Int)
  | a :: _, [] => ((tolower a).toNat : Int)
  | a :: s, b :: t =>
    if tolower a = tolower b then strcasecmp s t
    else ((tolower a).toNat : Int) - ((tolower b).toNat : Int)

/-- Embedding of `signal_from_name`; NULL is `none`. -/
def signal_from_name (sg : signal_numbers) (name : Option CStr) : Int :=
  match name with
  | none => sg.SIGTERM
  | some name =>
    if strcasecmp name (utf8 "SIGTERM") = 0 ∨ strcasecmp name (utf8 "TERM") = 0 then
      sg.SIGTERM
    else if strcasecmp name (utf8 "SIGKILL") = 0 ∨ strcasecmp name (utf8 "KILL") = 0 then
      sg.SIGKILL
    else if strcasecmp name (utf8 "SIGINT") = 0 ∨ strcasecmp name (utf8 "INT") = 0 then
      sg.SIGINT
    else if strcasecmp name (utf8 "SIGHUP") = 0 ∨ strcasecmp name (utf8 "HUP") = 0 then
      sg.SIGHUP
    else if strcasecmp name (utf8 "SIGSTOP") = 0 ∨ strcasecmp name (utf8 "STOP") = 0 then
      sg.SIGSTOP
    else if strcasecmp name (utf8 "SIGCONT") = 0 ∨ strcasecmp name (utf8 "CONT") = 0 then
      sg.SIGCONT
    else if strcasecmp name (utf8 "SIGUSR1") = 0 ∨ strcasecmp name (utf8 "USR1") = 0 then
      sg.SIGUSR1
    else if strcasecmp name (utf8 "SIGUSR2") = 0 ∨ strcasecmp name (utf8 "USR2") = 0 then
      sg.SIGUSR2
    else sg.SIGTERM

/-- A string with its upper-case letters turned to lower case. -/
def lower (name : CStr) : CStr := name.map tolower

/-- The eight signal names of the spec, in lower case, each with its number. -/
def signal_names (sg : signal_numbers) : List (CStr × Int) :=
  [(utf8 "term", sg.SIGTERM), (utf8 "kill", sg.SIGKILL), (utf8 "int", sg.SIGINT),
   (utf8 "hup", sg.SIGHUP), (utf8 "stop", sg.SIGSTOP), (utf8 "cont", sg.SIGCONT),
   (utf8 "usr1", sg.SIGUSR1), (utf8 "usr2", sg.SIGUSR2)]

/-- The signal the spec gives a name: the number of the first of the eight names that the
name spells, in any case and with or without a leading `SIG`; SIGTERM when there is none. -/
def signal_of_name (sg : signal_numbers) (name : CStr) : Int :=
  match (signal_names sg).find?
      (fun p => lower name == p.1 || lower name == utf8 "sig" ++ p.1) with
  | some p => p.2
  | none => sg.SIGTERM

/-- The signal numbers of Linux on x86 and ARM. -/
def linux_signals : signal_numbers := ⟨15, 9, 2, 1, 19, 18, 10, 12⟩

/-- One `list_entry` per name, in order, each run in the state the previous one left. -/
def list_entries (H : Host W) (root : CStr) (quiet : Bool) :
    List CStr → Sys W → List NapiValue × Sys W
  | [], s => ([], s)
  | name :: rest, s =>
    ((list_entry H root name quiet s).1
        :: (list_entries H root quiet rest (list_entry H root name quiet s).2).1,
      (list_entries H root quiet rest (list_entry H root name quiet s).2).2)

/-! ## `create_context` -/

/-- The fields `create_context` assigns in the `libcrun_context_t` it allocates with
`calloc`; the allocations are taken to succeed. -/
structure created_context_t where
  id : Option CStr
  state_root : Option CStr
  systemd_cgroup : Int
  force_no_cgroup : Int
  notify_socket : Option CStr
  handler : Option CStr
  fifo_exec_wait_fd : Int
  preserve_fds : Int
  detach : Int
  no_new_keyring : Int
  deriving DecidableEq

/-- Embedding of `create_context`; NULL arguments are `none`. -/
def create_context (id state_root : Option CStr) : created_context_t :=
  { id := id
    state_root :=
      match state_root with
      | some root => some root
      | none => some (utf8 "/run/crun")
    systemd_cgroup := 0
    force_no_cgroup := 0
    notify_socket := none
    handler := none
    fifo_exec_wait_fd := -1
    preserve_fds := 0
    detach := 1
    no_new_keyring := 0 }

/-! ## `CrunExec` -/

/-- The collaborators of `CrunExec`, over a world of type `W`. -/
structure Runner (W : Type) where
  /-- The value of the uninitialised `result` of `get_bool_property` for a property that
  is not a boolean. -/
  indet : String → Bool
  /-- `getenv("LISTEN_FDS")`. -/
  listen_fds : Option CStr
  /-- `libcrun_container_exec_with_options(&crun_context, id, &exec_opts, &err)`. -/
  exec_with_options :
    libcrun_context_t → CStr → libcrun_container_exec_options_s → W → Ret × W

def libcrun_container_exec_with_options (X : Runner W) (ctx : libcrun_context_t) (id : CStr)
    (opts : libcrun_container_exec_options_s) (s : Sys W) : Ret × Sys W :=
  s.record (.container_exec_with_options ctx id opts) (X.exec_with_options ctx id opts s.world)

/-- The loop `for (i < len) out[i] = napi_get_string(env, elem)` over a JS array: NULL
for an element that is not a string. -/
def string_elements (items : NapiItems) : List (Option CStr) :=
  items.toList.map napi_get_string

/-- The options `env` and `cap` of `CrunExec`: NULL unless the property is present and is
an array. -/
def option_string_array (opts : Option NapiValue) (key : String) :
    Option (List (Option CStr)) :=
  match opts with
  | none => none
  | some o =>
    match napi_named_property o key with
    | some (.array items) => some (string_elements items)
    | _ => none

/-- The option `preserveFds` of `CrunExec`: `preserve_fds` stays 0 unless the property is
a number. -/
def option_int32 (opts : Option NapiValue) (key : String) : Int :=
  match opts with
  | none => 0
  | some o =>
    match napi_named_property o key with
    | some (.number d) => napi_get_value_int32 d
    | _ => 0

/-- `strtol(s, &endptr, 10)` and `strtoll` with 64-bit `long`: the value and the rest at
`endptr`; without digits the value is 0 and `endptr` is `s`. -/
def strtol (s : CStr) : Int × CStr :=
  match scan_decimal (skip_space s) with
  | some (v, rest) => (clamp_int64 v, rest)
  | none => (0, s)

/-- The `user` that `CrunExec` builds from the option `user`, of the form `UID[:GID]`;
`uid_t` and `gid_t` are 32 bits wide. -/
def exec_user (user : CStr) : runtime_spec_schema_config_schema_process_user :=
  { uid := ((strtol user).1 % 2 ^ 32).toNat
    gid :=
      if (strtol user).2.head? = some 58 then
        ((strtol (strtol user).2.tail).1 % 2 ^ 32).toNat
      else 0 }

/-- The process description `CrunExec` builds when no process file is given. The
statement `if (apparmor)` has no body of its own, so that the `if (no_new_privs)` after it
is its body. -/
def exec_process (indet : String → Bool) (cmd_args : List (Option CStr))
    (opts : Option NapiValue) : runtime_spec_schema_config_schema_process :=
  { args := cmd_args
    terminal := option_bool indet opts "tty"
    cwd := option_string opts "cwd"
    env :=
      match option_string_array opts "env" with
      | some extra_env => extra_env
      | none => []
    user :=
      match option_string opts "user" with
      | some user => some (exec_user user)
      | none => none
    selinux_label := option_string opts "processLabel"
    no_new_privileges :=
      if (option_string opts "apparmor").isSome then
        if option_bool indet opts "noNewPrivs" then true else false
      else false
    capabilities :=
      match option_string_array opts "cap" with
      | some extra_cap =>
        if 0 < extra_cap.length then some ⟨extra_cap, [], extra_cap, extra_cap, extra_cap⟩
        else none
      | none => none }

/-- The context `CrunExec` fills in; `listen_fds` and `preserve_fds` are C `int`s. -/
def exec_context (X : Runner W) (id : CStr) (opts : Option NapiValue) : libcrun_context_t :=
  { id := id
    state_root := option_string opts "stateRoot"
    systemd_cgroup := if option_bool X.indet opts "systemdCgroup" then 1 else 0
    fifo_exec_wait_fd := -1
    detach := if option_bool X.indet opts "detach" then 1 else 0
    preserve_fds :=
      match X.listen_fds with
      | some text =>
        wrap_int32 (option_int32 opts "preserveFds" + wrap_int32 (strtol text).1)
      | none => option_int32 opts "preserveFds"
    listen_fds :=
      match X.listen_fds with
      | some text => wrap_int32 (strtol text).1
      | none => 0
    console_socket := option_string opts "consoleSocket"
    pid_file := option_string opts "pidFile" }

/-- The array `cmd_args` of `CrunExec`: the strings of an array, or the one string;
`none` when the command is neither. -/
def exec_cmd_args (command : NapiValue) : Option (List (Option CStr)) :=
  match command with
  | .array items => some (string_elements items)
  | .string text => some [some text]
  | _ => none

/-- The options `CrunExec` hands to the delegated exec: the process file when one is
given, else the process description it builds. -/
def exec_options (indet : String → Bool) (cmd_args : List (Option CStr))
    (opts : Option NapiValue) : libcrun_container_exec_options_s :=
  { path := option_string opts "process"
    process :=
      match option_string opts "process" with
      | some _ => none
      | none => some (exec_process indet cmd_args opts)
    cgroup := option_string opts "cgroup" }

/-- Embedding of `CrunExec`; the allocations are taken to succeed. -/
def CrunExec (X : Runner W) (args : List NapiValue) (s : Sys W) : NapiValue × Sys W :=
  if args.length < 2 then
    (napi_create_error_obj (-1)
      (utf8 "please specify a ID and command for the container"), s)
  else
    match napi_get_string (cb_arg args 0) with
    | none => (napi_create_error_obj (-1) (utf8 "Invalid container id"), s)
    | some id =>
      match exec_cmd_args (cb_arg args 1) with
      | none =>
        (napi_create_error_obj (-1)
          (utf8 "command must be a string or array of strings"), s)
      | some cmd_args =>
        let opts := options_arg args 2
        let r := libcrun_container_exec_with_options X (exec_context X id opts) id
          (exec_options X.indet cmd_args opts) s
        if r.1.ret < 0 then
          (create_error_from_crun "Failed to exec in container" r.1.err, r.2)
        else
          (napi_object_of
            [("id", .string id), ("exitCode", .number (.int r.1.ret)),
             ("error", .boolean false)], r.2)

/-! ## Vocabulary of the state-root and exec claims -/

/-- The first delegated call an operation added to the trace it started with. -/
def first_new_call (before after : List Event) : Option Call :=
  (after.drop before.length).head?.map Event.call

/-- The process description handed to the delegated exec, when the call is an exec with
a process description. -/
def exec_process_of : Call → Option runtime_spec_schema_config_schema_process
  | .container_exec_with_options _ _ opts => opts.process
  | _ => none

/-- A runner over the trivial world: `LISTEN_FDS` is unset and every exec returns 0. -/
def demoRunner : Runner Unit where
  indet := fun _ => false
  listen_fds := none
  exec_with_options := fun _ _ _ w => ({ ret := 0, err := none }, w)

/-- The options object with only `noNewPrivs: true`. -/
def noNewPrivsOpts : NapiProps := .cons "noNewPrivs" (.boolean true) .nil

/-- The options object with `noNewPrivs: true` and an AppArmor profile. -/
def apparmorOpts : NapiProps :=
  .cons "noNewPrivs" (.boolean true) (.cons "apparmor" (.string (utf8 "docker-default")) .nil)

/-- The options object with only a state root. -/
def rootOpts : NapiProps := .cons "stateRoot" (.string (utf8 "/tmp/state")) .nil

/-- The state root of the context handed to a delegated call that takes a context. -/
def call_state_root : Call → Option (Option CStr)
  | .container_kill ctx _ _ => some ctx.state_root
  | .container_killall ctx _ _ => some ctx.state_root
  | .container_delete ctx _ _ => some ctx.state_root
  | .container_update_from_values ctx _ _ => some ctx.state_root
  | .container_update_from_file ctx _ _ => some ctx.state_root
  | .container_update_intel_rdt ctx _ _ _ => some ctx.state_root
  | .container_exec_with_options ctx _ _ => some ctx.state_root
  | _ => none

/-- A world in which the process 7 of `web-2` is named `a`, newline, `b`; the kernel
prints the name as it is, so that the text of its stat file has two lines. -/
def newlineWorld : ProcWorld :=
  ⟨[(utf8 "/sys/fs/cgroup/crun/web-2/cgroup.procs", utf8 "7\n"),
    (utf8 "/proc/7/stat",
      utf8 "7 (a\nb) S 1 7 5 0 -1 4194560 100 0 0 0 500 300 0 0 20 0 1 0 100 10 20\n"),
    (utf8 "/proc/7/status", utf8 "Name:\ta\\nb\nUid:\t1000\t1000\t1000\t1000\nGid:\t100\n")],
   1, webStatus⟩

/-- The host `procHost` with another content of the stack where `read_ps_info` has its
locals: `utime` starts as 123400. -/
def staleHost : Host ProcWorld :=
  { procHost with uninit := fun _ => ⟨[], 0, 0, 0, 0, 0, 123400, 0⟩ }

/-! ## Lemmas on the two loops -/

theorem wrap_int32_of_range (x : Int) (h0 : 0 ≤ x) (h1 : x < 2 ^ 31) : wrap_int32 x = x := by
  unfold wrap_int32
  omega

theorem succeeded_length_le (evs : List Event) : (succeeded evs).length ≤ evs.length :=
  List.length_filter_le _ _

theorem kill_matching_spec (E : Env W R) (re : R) (ctx : libcrun_context_t) (sig : CStr)
    (S : List CStr) : ∀ (c : Int) (s : Sys W),
    ∃ evs : List Event,
      (kill_matching E re ctx sig S c s).2.trace = s.trace ++ evs
      ∧ evs.map Event.call
          = (matching E re S).map (fun name => Call.container_kill ctx name sig)
      ∧ (0 ≤ c → c + S.length < 2 ^ 31 →
          (kill_matching E re ctx sig S c s).1 = c + ((succeeded evs).length : Int)) := by
  induction S with
  | nil =>
    intro c s
    exact ⟨[], by simp [kill_matching], by simp [matching], by simp [kill_matching, succeeded]⟩
  | cons name next ih =>
    intro c s
    by_cases hm : E.regexec re name = 0
    · by_cases hk : 0 ≤ (libcrun_container_kill E ctx name sig s).1.ret
      · obtain ⟨evs, ht, hc, hn⟩ :=
          ih (wrap_int32 (c + 1)) (libcrun_container_kill E ctx name sig s).2
        refine ⟨⟨.container_kill ctx name sig, (E.kill ctx name sig s.world).1.ret⟩ :: evs,
          ?_, ?_, ?_⟩
        · simp only [kill_matching, hm, hk, if_true]
          rw [ht]
          simp [libcrun_container_kill, Sys.record]
        · simp [matching, hm] at hc ⊢
          exact hc
        · intro h0 h1
          have hk2 : 0 ≤ (E.kill ctx name sig s.world).1.ret := by
            simpa [libcrun_container_kill, Sys.record] using hk
          have hlen : ((name :: next).length : Int) = (next.length : Int) + 1 := by simp
          have hw : wrap_int32 (c + 1) = c + 1 := wrap_int32_of_range _ (by omega) (by omega)
          simp only [kill_matching, hm, hk, if_true]
          rw [hn (by rw [hw]; omega) (by rw [hw]; omega), hw]
          simp [succeeded, hk2]
          omega
      · obtain ⟨evs, ht, hc, hn⟩ := ih c (libcrun_container_kill E ctx name sig s).2
        refine ⟨⟨.container_kill ctx name sig, (E.kill ctx name sig s.world).1.ret⟩ :: evs,
          ?_, ?_, ?_⟩
        · simp only [kill_matching, hm, hk, if_true, if_false]
          rw [ht]
          simp [libcrun_container_kill, Sys.record]
        · simp [matching, hm] at hc ⊢
          exact hc
        · intro h0 h1
          have hk2 : ¬ 0 ≤ (E.kill ctx name sig s.world).1.ret := by
            simpa [libcrun_container_kill, Sys.record] using hk
          have hlen : ((name :: next).length : Int) = (next.length : Int) + 1 := by simp
          simp only [kill_matching, hm, hk, if_true, if_false]
          rw [hn h0 (by omega)]
          simp [succeeded, hk2]
    · obtain ⟨evs, ht, hc, hn⟩ := ih c s
      refine ⟨evs, ?_, ?_, ?_⟩
      · simp only [kill_matching, hm, if_false]
        exact ht
      · simp [matching, hm] at hc ⊢
        exact hc
      · intro h0 h1
        have hlen : ((name :: next).length : Int) = (next.length : Int) + 1 := by simp
        simp only [kill_matching, hm, if_false]
        exact hn h0 (by omega)

theorem delete_matching_spec (E : Env W R) (re : R) (ctx : libcrun_context_t) (force : Bool)
    (S : List CStr) : ∀ (c : Int) (s : Sys W),
    ∃ evs : List Event,
      (delete_matching E re ctx force S c s).2.trace = s.trace ++ evs
      ∧ evs.map Event.call
          = (matching E re S).map (fun name => Call.container_delete ctx name force)
      ∧ (0 ≤ c → c + S.length < 2 ^ 31 →
          (delete_matching E re ctx force S c s).1 = c + ((succeeded evs).length : Int)) := by
  induction S with
  | nil =>
    intro c s
    exact ⟨[], by simp [delete_matching], by simp [matching],
      by simp [delete_matching, succeeded]⟩
  | cons name next ih =>
    intro c s
    by_cases hm : E.regexec re name = 0
    · by_cases hk : 0 ≤ (libcrun_container_delete E ctx name force s).1.ret
      · obtain ⟨evs, ht, hc, hn⟩ :=
          ih (wrap_int32 (c + 1)) (libcrun_container_delete E ctx name force s).2
        refine ⟨⟨.container_delete ctx name force,
          (E.delete ctx name force s.world).1.ret⟩ :: evs, ?_, ?_, ?_⟩
        · simp only [delete_matching, hm, hk, if_true]
          rw [ht]
          simp [libcrun_container_delete, Sys.record]
        · simp [matching, hm] at hc ⊢
          exact hc
        · intro h0 h1
          have hk2 : 0 ≤ (E.delete ctx name force s.world).1.ret := by
            simpa [libcrun_container_delete, Sys.record] using hk
          have hlen : ((name :: next).length : Int) = (next.length : Int) + 1 := by simp
          have hw : wrap_int32 (c + 1) = c + 1 := wrap_int32_of_range _ (by omega) (by omega)
          simp only [delete_matching, hm, hk, if_true]
          rw [hn (by rw [hw]; omega) (by rw [hw]; omega), hw]
          simp [succeeded, hk2]
          omega
      · obtain ⟨evs, ht, hc, hn⟩ := ih c (libcrun_container_delete E ctx name force s).2
        refine ⟨⟨.container_delete ctx name force,
          (E.delete ctx name force s.world).1.ret⟩ :: evs, ?_, ?_, ?_⟩
        · simp only [delete_matching, hm, hk, if_true, if_false]
          rw [ht]
          simp [libcrun_container_delete, Sys.record]
        · simp [matching, hm] at hc ⊢
          exact hc
        · intro h0 h1
          have hk2 : ¬ 0 ≤ (E.delete ctx name force s.world).1.ret := by
            simpa [libcrun_container_delete, Sys.record] using hk
          have hlen : ((name :: next).length : Int) = (next.length : Int) + 1 := by simp
          simp only [delete_matching, hm, hk, if_true, if_false]
          rw [hn h0 (by omega)]
          simp [succeeded, hk2]
    · obtain ⟨evs, ht, hc, hn⟩ := ih c s
      refine ⟨evs, ?_, ?_, ?_⟩
      · simp only [delete_matching, hm, if_false]
        exact ht
      · simp [matching, hm] at hc ⊢
        exact hc
      · intro h0 h1
        have hlen : ((name :: next).length : Int) = (next.length : Int) + 1 := by simp
        simp only [delete_matching, hm, if_false]
        exact hn h0 (by omega)

/-! ## Reduction of the entry points in regex mode -/

theorem option_bool_regex (indet : String → Bool) (opts : NapiProps)
    (hregex : opts.find "regex" = some (.boolean true)) :
    option_bool indet (some (.object opts)) "regex" = true := by
  simp [option_bool, get_bool_property, napi_named_property, hregex]

theorem CrunKill_regex_mode (E : Env W R) (s : Sys W) (pat : CStr) (sigv : NapiValue)
    (opts : NapiProps) (extra : List NapiValue)
    (hregex : opts.find "regex" = some (.boolean true)) :
    CrunKill E (.string pat :: sigv :: .object opts :: extra) s =
      match E.regcomp pat with
      | none => (napi_create_error_obj (-1) (utf8 "invalid regular expression"), s)
      | some re =>
        if (libcrun_get_containers_list E (list_root (some (.object opts))) s).1.1.ret < 0 then
          (create_error_from_crun "cannot read containers list"
            (libcrun_get_containers_list E (list_root (some (.object opts))) s).1.1.err,
           (libcrun_get_containers_list E (list_root (some (.object opts))) s).2)
        else
          (napi_object_of
            [("pattern", .string pat),
             ("signal", .string (kill_sig_str_buf (.string pat :: sigv :: .object opts :: extra))),
             ("killedCount", .number (.int
               (kill_matching E re (make_context E.indet pat (some (.object opts)))
                 (kill_sig_str_buf (.string pat :: sigv :: .object opts :: extra))
                 (libcrun_get_containers_list E (list_root (some (.object opts))) s).1.2 0
                 (libcrun_get_containers_list E (list_root (some (.object opts))) s).2).1)),
             ("success", .boolean true), ("error", .boolean false)],
           (kill_matching E re (make_context E.indet pat (some (.object opts)))
             (kill_sig_str_buf (.string pat :: sigv :: .object opts :: extra))
             (libcrun_get_containers_list E (list_root (some (.object opts))) s).1.2 0
             (libcrun_get_containers_list E (list_root (some (.object opts))) s).2).2) := by
  have hopts : options_arg (.string pat :: sigv :: .object opts :: extra) 2
      = some (.object opts) := by
    simp [options_arg, cb_arg, napi_typeof]
  have hid : napi_get_string (cb_arg (.string pat :: sigv :: .object opts :: extra) 0)
      = some pat := by
    simp [cb_arg, napi_get_string]
  simp only [CrunKill, hopts, hid, option_bool_regex E.indet opts hregex]
  simp

theorem CrunDelete_regex_mode (E : Env W R) (s : Sys W) (pat : CStr)
    (opts : NapiProps) (extra : List NapiValue)
    (hregex : opts.find "regex" = some (.boolean true)) :
    CrunDelete E (.string pat :: .object opts :: extra) s =
      match E.regcomp pat with
      | none => (napi_create_error_obj (-1) (utf8 "invalid regular expression"), s)
      | some re =>
        if (libcrun_get_containers_list E (list_root (some (.object opts))) s).1.1.ret < 0 then
          (create_error_from_crun "cannot read containers list"
            (libcrun_get_containers_list E (list_root (some (.object opts))) s).1.1.err,
           (libcrun_get_containers_list E (list_root (some (.object opts))) s).2)
        else
          (napi_object_of
            [("pattern", .string pat),
             ("deletedCount", .number (.int
               (delete_matching E re (make_context E.indet pat (some (.object opts)))
                 (option_bool E.indet (some (.object opts)) "force")
                 (libcrun_get_containers_list E (list_root (some (.object opts))) s).1.2 0
                 (libcrun_get_containers_list E (list_root (some (.object opts))) s).2).1)),
             ("force", .boolean (option_bool E.indet (some (.object opts)) "force")),
             ("deleted", .boolean true), ("error", .boolean false)],
           (delete_matching E re (make_context E.indet pat (some (.object opts)))
             (option_bool E.indet (some (.object opts)) "force")
             (libcrun_get_containers_list E (list_root (some (.object opts))) s).1.2 0
             (libcrun_get_containers_list E (list_root (some (.object opts))) s).2).2) := by
  have hopts : options_arg (.string pat :: .object opts :: extra) 1
      = some (.object opts) := by
    simp [options_arg, cb_arg, napi_typeof]
  have hid : napi_get_string (cb_arg (.string pat :: .object opts :: extra) 0)
      = some pat := by
    simp [cb_arg, napi_get_string]
  simp only [CrunDelete, hopts, hid, option_bool_regex E.indet opts hregex]
  simp

theorem kill_matching_no_match (E : Env W R) (re : R) (ctx : libcrun_context_t) (sig : CStr)
    (S : List CStr) (hno : ∀ name ∈ S, E.regexec re name ≠ 0) (c : Int) (s : Sys W) :
    kill_matching E re ctx sig S c s = (c, s) := by
  induction S with
  | nil => rfl
  | cons name next ih =>
    have hm : E.regexec re name ≠ 0 := hno name (List.mem_cons_self _ _)
    simp only [kill_matching, hm, if_false]
    exact ih (fun n hn => hno n (List.mem_cons_of_mem _ hn))

theorem delete_matching_no_match (E : Env W R) (re : R) (ctx : libcrun_context_t)
    (force : Bool) (S : List CStr) (hno : ∀ name ∈ S, E.regexec re name ≠ 0) (c : Int)
    (s : Sys W) : delete_matching E re ctx force S c s = (c, s) := by
  induction S with
  | nil => rfl
  | cons name next ih =>
    have hm : E.regexec re name ≠ 0 := hno name (List.mem_cons_self _ _)
    simp only [delete_matching, hm, if_false]
    exact ih (fun n hn => hno n (List.mem_cons_of_mem _ hn))

theorem list_eq (E : Env W R) (root : CStr) (s : Sys W) (lr : Ret) (S : List CStr) (w : W)
    (hlist : E.list root s.world = ((lr, S), w)) :
    libcrun_get_containers_list E root s
      = ((lr, S),
         { world := w, trace := s.trace ++ [⟨.get_containers_list root, lr.ret⟩] }) := by
  simp [libcrun_get_containers_list, hlist]

theorem member_outcomes_kill (ctx : libcrun_context_t) (sig : CStr) :
    ∀ (evs : List Event) (names : List CStr),
      evs.map Event.call = names.map (fun name => Call.container_kill ctx name sig) →
      (member_outcomes evs).map Prod.fst = names
      ∧ ((member_outcomes evs).filter (fun o => o.2)).length = (succeeded evs).length := by
  intro evs
  induction evs with
  | nil =>
    intro names h
    cases names with
    | nil => simp [member_outcomes, succeeded]
    | cons n ns => simp at h
  | cons e rest ih =>
    intro names h
    cases names with
    | nil => simp at h
    | cons n ns =>
      obtain ⟨c, r⟩ := e
      simp only [List.map_cons, List.cons.injEq] at h
      obtain ⟨hc, hrest⟩ := h
      subst hc
      obtain ⟨h1, h2⟩ := ih ns hrest
      by_cases hr : 0 ≤ r
      · simp [member_outcomes, succeeded, hr, h1] at h2 ⊢
        exact h2
      · simp [member_outcomes, succeeded, hr, h1] at h2 ⊢
        exact h2

theorem member_outcomes_delete (ctx : libcrun_context_t) (force : Bool) :
    ∀ (evs : List Event) (names : List CStr),
      evs.map Event.call = names.map (fun name => Call.container_delete ctx name force) →
      (member_outcomes evs).map Prod.fst = names
      ∧ ((member_outcomes evs).filter (fun o => o.2)).length = (succeeded evs).length := by
  intro evs
  induction evs with
  | nil =>
    intro names h
    cases names with
    | nil => simp [member_outcomes, succeeded]
    | cons n ns => simp at h
  | cons e rest ih =>
    intro names h
    cases names with
    | nil => simp at h
    | cons n ns =>
      obtain ⟨c, r⟩ := e
      simp only [List.map_cons, List.cons.injEq] at h
      obtain ⟨hc, hrest⟩ := h
      subst hc
      obtain ⟨h1, h2⟩ := ih ns hrest
      by_cases hr : 0 ≤ r
      · simp [member_outcomes, succeeded, hr, h1] at h2 ⊢
        exact h2
      · simp [member_outcomes, succeeded, hr, h1] at h2 ⊢
        exact h2

/-! ## Batch kill and batch delete -/

/-- C1: in regex mode, for a pattern that compiles and a container list `S` that was read
successfully, `killedCount` (for kill) and `deletedCount` (for delete) equal the number of
delegated calls that returned a non-negative value, these calls being exactly one per entry
of `S` whose name matches; so the count never exceeds the number of matching entries.
The counter is a C `int`, hence the bound on the length of `S`. -/
theorem batch_count_eq_successful_matches (E : Env W R) (s : Sys W) (pat : CStr) (re : R)
    (sigv : NapiValue) (opts : NapiProps) (extra : List NapiValue)
    (lr : Ret) (S : List CStr) (w : W)
    (hregex : opts.find "regex" = some (.boolean true))
    (hre : E.regcomp pat = some re)
    (hlist : E.list (list_root (some (.object opts))) s.world = ((lr, S), w))
    (hok : 0 ≤ lr.ret) (hlen : S.length < 2 ^ 31) :
    (∃ evs : List Event,
      (CrunKill E (.string pat :: sigv :: .object opts :: extra) s).2.trace
        = s.trace ++ ⟨.get_containers_list (list_root (some (.object opts))), lr.ret⟩ :: evs
      ∧ evs.map Event.call
          = (matching E re S).map (fun name =>
              Call.container_kill (make_context E.indet pat (some (.object opts))) name
                (kill_sig_str_buf (.string pat :: sigv :: .object opts :: extra)))
      ∧ napi_named_property (CrunKill E (.string pat :: sigv :: .object opts :: extra) s).1
          "killedCount" = some (.number (.int (succeeded evs).length))
      ∧ (succeeded evs).length ≤ (matching E re S).length)
    ∧ (∃ evs : List Event,
      (CrunDelete E (.string pat :: .object opts :: extra) s).2.trace
        = s.trace ++ ⟨.get_containers_list (list_root (some (.object opts))), lr.ret⟩ :: evs
      ∧ evs.map Event.call
          = (matching E re S).map (fun name =>
              Call.container_delete (make_context E.indet pat (some (.object opts))) name
                (option_bool E.indet (some (.object opts)) "force"))
      ∧ napi_named_property (CrunDelete E (.string pat :: .object opts :: extra) s).1
          "deletedCount" = some (.number (.int (succeeded evs).length))
      ∧ (succeeded evs).length ≤ (matching E re S).length) := by
  have hl := list_eq E _ s lr S w hlist
  have hnot : ¬ lr.ret < 0 := by omega
  have hb : (0 : Int) + (S.length : Int) < 2 ^ 31 := by
    have : ((S.length : Nat) : Int) < ((2 ^ 31 : Nat) : Int) := Int.ofNat_lt.mpr hlen
    simpa using this
  constructor
  · obtain ⟨evs, ht, hc, hn⟩ :=
      kill_matching_spec E re (make_context E.indet pat (some (.object opts)))
        (kill_sig_str_buf (.string pat :: sigv :: .object opts :: extra)) S 0
        { world := w, trace := s.trace ++
            [⟨.get_containers_list (list_root (some (.object opts))), lr.ret⟩] }
    refine ⟨evs, ?_, hc, ?_, ?_⟩
    · rw [CrunKill_regex_mode E s pat sigv opts extra hregex, hre]
      simp only [hl, hnot, if_false]
      rw [ht]
      simp
    · rw [CrunKill_regex_mode E s pat sigv opts extra hregex, hre]
      simp only [hl, hnot, if_false]
      rw [hn (le_refl 0) hb]
      simp [napi_named_property, napi_object_of, NapiProps.ofList, NapiProps.find]
    · have := succeeded_length_le evs
      have h2 : evs.length = (matching E re S).length := by
        have := congrArg List.length hc
        simpa using this
      omega
  · obtain ⟨evs, ht, hc, hn⟩ :=
      delete_matching_spec E re (make_context E.indet pat (some (.object opts)))
        (option_bool E.indet (some (.object opts)) "force") S 0
        { world := w, trace := s.trace ++
            [⟨.get_containers_list (list_root (some (.object opts))), lr.ret⟩] }
    refine ⟨evs, ?_, hc, ?_, ?_⟩
    · rw [CrunDelete_regex_mode E s pat opts extra hregex, hre]
      simp only [hl, hnot, if_false]
      rw [ht]
      simp
    · rw [CrunDelete_regex_mode E s pat opts extra hregex, hre]
      simp only [hl, hnot, if_false]
      rw [hn (le_refl 0) hb]
      simp [napi_named_property, napi_object_of, NapiProps.ofList, NapiProps.find]
    · have := succeeded_length_le evs
      have h2 : evs.length = (matching E re S).length := by
        have := congrArg List.length hc
        simpa using this
      omega

theorem batch_count_eq_successful_matches_witness :
    regexOpts.find "regex" = some (.boolean true)
    ∧ demoEnv.regcomp (utf8 "web") = some (utf8 "web")
    ∧ demoEnv.list (list_root (some (.object regexOpts))) demoSys.world
        = ((⟨0, none⟩, demoFleet), demoFleet)
    ∧ (0 : Int) ≤ (⟨0, none⟩ : Ret).ret
    ∧ demoFleet.length < 2 ^ 31
    ∧ ((∃ evs : List Event,
        (CrunKill demoEnv [.string (utf8 "web"), .undefined, .object regexOpts] demoSys).2.trace
          = demoSys.trace
            ++ ⟨.get_containers_list (list_root (some (.object regexOpts))), 0⟩ :: evs
        ∧ evs.map Event.call
            = (matching demoEnv (utf8 "web") demoFleet).map (fun name =>
                Call.container_kill
                  (make_context demoEnv.indet (utf8 "web") (some (.object regexOpts))) name
                  (kill_sig_str_buf [.string (utf8 "web"), .undefined, .object regexOpts]))
        ∧ napi_named_property
            (CrunKill demoEnv [.string (utf8 "web"), .undefined, .object regexOpts] demoSys).1
            "killedCount" = some (.number (.int (succeeded evs).length))
        ∧ (succeeded evs).length ≤ (matching demoEnv (utf8 "web") demoFleet).length)
      ∧ (∃ evs : List Event,
        (CrunDelete demoEnv [.string (utf8 "web"), .object regexOpts] demoSys).2.trace
          = demoSys.trace
            ++ ⟨.get_containers_list (list_root (some (.object regexOpts))), 0⟩ :: evs
        ∧ evs.map Event.call
            = (matching demoEnv (utf8 "web") demoFleet).map (fun name =>
                Call.container_delete
                  (make_context demoEnv.indet (utf8 "web") (some (.object regexOpts))) name
                  (option_bool demoEnv.indet (some (.object regexOpts)) "force"))
        ∧ napi_named_property
            (CrunDelete demoEnv [.string (utf8 "web"), .object regexOpts] demoSys).1
            "deletedCount" = some (.number (.int (succeeded evs).length))
        ∧ (succeeded evs).length ≤ (matching demoEnv (utf8 "web") demoFleet).length)) :=
  ⟨by decide, by decide, by decide, by decide, by decide,
    batch_count_eq_successful_matches demoEnv demoSys (utf8 "web") (utf8 "web") .undefined
      regexOpts [] ⟨0, none⟩ demoFleet demoFleet (by decide) (by decide) (by decide)
      (by decide) (by decide)⟩

/-- C2: in regex mode, for a pattern that compiles and a container list `S` that was read
successfully, the delegated calls made are the list read followed by exactly one kill
(delete) per entry of `S` whose name matches, in list order, and nothing else. This holds
for every collaborator `E`, hence whatever the earlier delegated calls returned. -/
theorem batch_attempts_every_match_in_order (E : Env W R) (s : Sys W) (pat : CStr) (re : R)
    (sigv : NapiValue) (opts : NapiProps) (extra : List NapiValue)
    (lr : Ret) (S : List CStr) (w : W)
    (hregex : opts.find "regex" = some (.boolean true))
    (hre : E.regcomp pat = some re)
    (hlist : E.list (list_root (some (.object opts))) s.world = ((lr, S), w))
    (hok : 0 ≤ lr.ret) :
    ((CrunKill E (.string pat :: sigv :: .object opts :: extra) s).2.trace.map Event.call
        = s.trace.map Event.call
          ++ Call.get_containers_list (list_root (some (.object opts)))
            :: (matching E re S).map (fun name =>
                Call.container_kill (make_context E.indet pat (some (.object opts))) name
                  (kill_sig_str_buf (.string pat :: sigv :: .object opts :: extra))))
    ∧ ((CrunDelete E (.string pat :: .object opts :: extra) s).2.trace.map Event.call
        = s.trace.map Event.call
          ++ Call.get_containers_list (list_root (some (.object opts)))
            :: (matching E re S).map (fun name =>
                Call.container_delete (make_context E.indet pat (some (.object opts))) name
                  (option_bool E.indet (some (.object opts)) "force"))) := by
  have hl := list_eq E _ s lr S w hlist
  have hnot : ¬ lr.ret < 0 := by omega
  constructor
  · obtain ⟨evs, ht, hc, -⟩ :=
      kill_matching_spec E re (make_context E.indet pat (some (.object opts)))
        (kill_sig_str_buf (.string pat :: sigv :: .object opts :: extra)) S 0
        { world := w, trace := s.trace ++
            [⟨.get_containers_list (list_root (some (.object opts))), lr.ret⟩] }
    rw [CrunKill_regex_mode E s pat sigv opts extra hregex, hre]
    simp only [hl, hnot, if_false]
    rw [ht]
    simp [hc]
  · obtain ⟨evs, ht, hc, -⟩ :=
      delete_matching_spec E re (make_context E.indet pat (some (.object opts)))
        (option_bool E.indet (some (.object opts)) "force") S 0
        { world := w, trace := s.trace ++
            [⟨.get_containers_list (list_root (some (.object opts))), lr.ret⟩] }
    rw [CrunDelete_regex_mode E s pat opts extra hregex, hre]
    simp only [hl, hnot, if_false]
    rw [ht]
    simp [hc]

theorem batch_attempts_every_match_in_order_witness :
    regexOpts.find "regex" = some (.boolean true)
    ∧ demoEnv.regcomp (utf8 "web") = some (utf8 "web")
    ∧ demoEnv.list (list_root (some (.object regexOpts))) demoSys.world
        = ((⟨0, none⟩, demoFleet), demoFleet)
    ∧ (0 : Int) ≤ (⟨0, none⟩ : Ret).ret
    ∧ (((CrunKill demoEnv [.string (utf8 "web"), .undefined, .object regexOpts]
          demoSys).2.trace.map Event.call
        = demoSys.trace.map Event.call
          ++ Call.get_containers_list (list_root (some (.object regexOpts)))
            :: (matching demoEnv (utf8 "web") demoFleet).map (fun name =>
                Call.container_kill
                  (make_context demoEnv.indet (utf8 "web") (some (.object regexOpts))) name
                  (kill_sig_str_buf [.string (utf8 "web"), .undefined, .object regexOpts])))
      ∧ ((CrunDelete demoEnv [.string (utf8 "web"), .object regexOpts]
          demoSys).2.trace.map Event.call
        = demoSys.trace.map Event.call
          ++ Call.get_containers_list (list_root (some (.object regexOpts)))
            :: (matching demoEnv (utf8 "web") demoFleet).map (fun name =>
                Call.container_delete
                  (make_context demoEnv.indet (utf8 "web") (some (.object regexOpts))) name
                  (option_bool demoEnv.indet (some (.object regexOpts)) "force")))) :=
  ⟨by decide, by decide, by decide, by decide,
    batch_attempts_every_match_in_order demoEnv demoSys (utf8 "web") (utf8 "web") .undefined
      regexOpts [] ⟨0, none⟩ demoFleet demoFleet (by decide) (by decide) (by decide)
      (by decide)⟩

/-- C3: in regex mode, when the pattern does not compile, kill and delete return the error
object with message "invalid regular expression" and `error = true`, and leave the state
untouched: the container list is not read and no kill or delete is delegated. -/
theorem invalid_pattern_touches_nothing (E : Env W R) (s : Sys W) (pat : CStr)
    (sigv : NapiValue) (opts : NapiProps) (extra : List NapiValue)
    (hregex : opts.find "regex" = some (.boolean true))
    (hre : E.regcomp pat = none) :
    CrunKill E (.string pat :: sigv :: .object opts :: extra) s
      = (napi_object_of [("code", .number (.int (-1))),
          ("message", .string (utf8 "invalid regular expression")),
          ("error", .boolean true)], s)
    ∧ CrunDelete E (.string pat :: .object opts :: extra) s
      = (napi_object_of [("code", .number (.int (-1))),
          ("message", .string (utf8 "invalid regular expression")),
          ("error", .boolean true)], s) := by
  constructor
  · rw [CrunKill_regex_mode E s pat sigv opts extra hregex, hre]
    rfl
  · rw [CrunDelete_regex_mode E s pat opts extra hregex, hre]
    rfl

theorem invalid_pattern_touches_nothing_witness :
    regexOpts.find "regex" = some (.boolean true)
    ∧ demoEnv.regcomp (utf8 "[") = none
    ∧ (CrunKill demoEnv [.string (utf8 "["), .string (utf8 "KILL"), .object regexOpts] demoSys
        = (napi_object_of [("code", .number (.int (-1))),
            ("message", .string (utf8 "invalid regular expression")),
            ("error", .boolean true)], demoSys)
      ∧ CrunDelete demoEnv [.string (utf8 "["), .object regexOpts] demoSys
        = (napi_object_of [("code", .number (.int (-1))),
            ("message", .string (utf8 "invalid regular expression")),
            ("error", .boolean true)], demoSys)) :=
  ⟨by decide, by decide,
    invalid_pattern_touches_nothing demoEnv demoSys (utf8 "[") (.string (utf8 "KILL"))
      regexOpts [] (by decide) (by decide)⟩

/-- C4: in regex mode, for a pattern that compiles and a container list (empty or not) that
was read successfully and in which no name matches, kill returns the non-error object with
`killedCount = 0` and `success = true`, delete the non-error object with `deletedCount = 0`
and its success flag `deleted = true`, and the only delegated call is the list read. -/
theorem zero_matches_is_success (E : Env W R) (s : Sys W) (pat : CStr) (re : R)
    (sigv : NapiValue) (opts : NapiProps) (extra : List NapiValue)
    (lr : Ret) (S : List CStr) (w : W)
    (hregex : opts.find "regex" = some (.boolean true))
    (hre : E.regcomp pat = some re)
    (hlist : E.list (list_root (some (.object opts))) s.world = ((lr, S), w))
    (hok : 0 ≤ lr.ret)
    (hno : ∀ name ∈ S, E.regexec re name ≠ 0) :
    CrunKill E (.string pat :: sigv :: .object opts :: extra) s
      = (napi_object_of
          [("pattern", .string pat),
           ("signal", .string (kill_sig_str_buf (.string pat :: sigv :: .object opts :: extra))),
           ("killedCount", .number (.int 0)), ("success", .boolean true),
           ("error", .boolean false)],
         { world := w, trace := s.trace ++
            [⟨.get_containers_list (list_root (some (.object opts))), lr.ret⟩] })
    ∧ CrunDelete E (.string pat :: .object opts :: extra) s
      = (napi_object_of
          [("pattern", .string pat), ("deletedCount", .number (.int 0)),
           ("force", .boolean (option_bool E.indet (some (.object opts)) "force")),
           ("deleted", .boolean true), ("error", .boolean false)],
         { world := w, trace := s.trace ++
            [⟨.get_containers_list (list_root (some (.object opts))), lr.ret⟩] }) := by
  have hl := list_eq E _ s lr S w hlist
  have hnot : ¬ lr.ret < 0 := by omega
  constructor
  · rw [CrunKill_regex_mode E s pat sigv opts extra hregex, hre]
    simp only [hl, hnot, if_false, kill_matching_no_match E re _ _ S hno]
  · rw [CrunDelete_regex_mode E s pat opts extra hregex, hre]
    simp only [hl, hnot, if_false, delete_matching_no_match E re _ _ S hno]

theorem zero_matches_is_success_witness :
    regexOpts.find "regex" = some (.boolean true)
    ∧ demoEnv.regcomp (utf8 "cache") = some (utf8 "cache")
    ∧ demoEnv.list (list_root (some (.object regexOpts))) demoSys.world
        = ((⟨0, none⟩, demoFleet), demoFleet)
    ∧ (0 : Int) ≤ (⟨0, none⟩ : Ret).ret
    ∧ (∀ name ∈ demoFleet, demoEnv.regexec (utf8 "cache") name ≠ 0)
    ∧ (CrunKill demoEnv [.string (utf8 "cache"), .number (.int 9), .object regexOpts] demoSys
        = (napi_object_of
            [("pattern", .string (utf8 "cache")),
             ("signal", .string (kill_sig_str_buf
                [.string (utf8 "cache"), .number (.int 9), .object regexOpts])),
             ("killedCount", .number (.int 0)), ("success", .boolean true),
             ("error", .boolean false)],
           { world := demoFleet, trace := demoSys.trace ++
              [⟨.get_containers_list (list_root (some (.object regexOpts))), 0⟩] })
      ∧ CrunDelete demoEnv [.string (utf8 "cache"), .object regexOpts] demoSys
        = (napi_object_of
            [("pattern", .string (utf8 "cache")), ("deletedCount", .number (.int 0)),
             ("force", .boolean (option_bool demoEnv.indet (some (.object regexOpts)) "force")),
             ("deleted", .boolean true), ("error", .boolean false)],
           { world := demoFleet, trace := demoSys.trace ++
              [⟨.get_containers_list (list_root (some (.object regexOpts))), 0⟩] })) :=
  ⟨by decide, by decide, by decide, by decide, by decide,
    zero_matches_is_success demoEnv demoSys (utf8 "cache") (utf8 "cache") (.number (.int 9))
      regexOpts [] ⟨0, none⟩ demoFleet demoFleet (by decide) (by decide) (by decide)
      (by decide) (by decide)⟩

/-- C5: in regex mode, when the pattern compiles but the container-list read returns a
negative value, kill and delete return the call-level error object built from
"cannot read containers list" (with `error = true`), and the list read is the only
delegated call: no kill and no delete is invoked. -/
theorem enumeration_failure_aborts (E : Env W R) (s : Sys W) (pat : CStr) (re : R)
    (sigv : NapiValue) (opts : NapiProps) (extra : List NapiValue)
    (lr : Ret) (S : List CStr) (w : W)
    (hregex : opts.find "regex" = some (.boolean true))
    (hre : E.regcomp pat = some re)
    (hlist : E.list (list_root (some (.object opts))) s.world = ((lr, S), w))
    (hfail : lr.ret < 0) :
    (CrunKill E (.string pat :: sigv :: .object opts :: extra) s
        = (create_error_from_crun "cannot read containers list" lr.err,
           { world := w, trace := s.trace ++
              [⟨.get_containers_list (list_root (some (.object opts))), lr.ret⟩] })
      ∧ CrunDelete E (.string pat :: .object opts :: extra) s
        = (create_error_from_crun "cannot read containers list" lr.err,
           { world := w, trace := s.trace ++
              [⟨.get_containers_list (list_root (some (.object opts))), lr.ret⟩] }))
    ∧ napi_named_property (create_error_from_crun "cannot read containers list" lr.err)
        "error" = some (.boolean true) := by
  have hl := list_eq E _ s lr S w hlist
  refine ⟨⟨?_, ?_⟩, ?_⟩
  · rw [CrunKill_regex_mode E s pat sigv opts extra hregex, hre]
    simp only [hl, hfail, if_true]
  · rw [CrunDelete_regex_mode E s pat opts extra hregex, hre]
    simp only [hl, hfail, if_true]
  · cases lr.err <;> rfl

theorem enumeration_failure_aborts_witness :
    badRootOpts.find "regex" = some (.boolean true)
    ∧ demoEnv.regcomp (utf8 "web") = some (utf8 "web")
    ∧ demoEnv.list (list_root (some (.object badRootOpts))) demoSys.world
        = ((⟨-1, some (utf8 "No such file or directory")⟩, []), demoFleet)
    ∧ (⟨-1, some (utf8 "No such file or directory")⟩ : Ret).ret < 0
    ∧ ((CrunKill demoEnv [.string (utf8 "web"), .undefined, .object badRootOpts] demoSys
          = (create_error_from_crun "cannot read containers list"
              (⟨-1, some (utf8 "No such file or directory")⟩ : Ret).err,
             { world := demoFleet, trace := demoSys.trace ++
                [⟨.get_containers_list (list_root (some (.object badRootOpts))), -1⟩] })
        ∧ CrunDelete demoEnv [.string (utf8 "web"), .object badRootOpts] demoSys
          = (create_error_from_crun "cannot read containers list"
              (⟨-1, some (utf8 "No such file or directory")⟩ : Ret).err,
             { world := demoFleet, trace := demoSys.trace ++
                [⟨.get_containers_list (list_root (some (.object badRootOpts))), -1⟩] }))
      ∧ napi_named_property (create_error_from_crun "cannot read containers list"
          (⟨-1, some (utf8 "No such file or directory")⟩ : Ret).err)
          "error" = some (.boolean true)) :=
  ⟨by decide, by decide, by decide, by decide,
    enumeration_failure_aborts demoEnv demoSys (utf8 "web") (utf8 "web") .undefined
      badRootOpts [] ⟨-1, some (utf8 "No such file or directory")⟩ [] demoFleet
      (by decide) (by decide) (by decide) (by decide)⟩

/-- C6, as stated, fails: the result of a batch kill or delete has five scalar properties
and no per-member outcome list. Over the fleet `web-stuck, db-1, web-2` the pattern `web`
gives the outcomes (web-stuck, failure), (web-2, success); over the fleet `web-2` alone it
gives (web-2, success); the two results are equal, so no function of the result recovers
the per-member outcomes. -/
theorem batch_result_carries_no_member_list :
    (CrunKill demoEnv [.string (utf8 "web"), .undefined, .object regexOpts] demoSys).1
      = napi_object_of
          [("pattern", .string (utf8 "web")), ("signal", .string (utf8 "SIGTERM")),
           ("killedCount", .number (.int 1)), ("success", .boolean true),
           ("error", .boolean false)]
    ∧ (CrunDelete demoEnv [.string (utf8 "web"), .object regexOpts] demoSys).1
      = napi_object_of
          [("pattern", .string (utf8 "web")), ("deletedCount", .number (.int 1)),
           ("force", .boolean false), ("deleted", .boolean true), ("error", .boolean false)]
    ∧ member_outcomes
        (CrunKill demoEnv [.string (utf8 "web"), .undefined, .object regexOpts] demoSys).2.trace
      = [(utf8 "web-stuck", false), (utf8 "web-2", true)]
    ∧ member_outcomes
        (CrunKill demoEnv [.string (utf8 "web"), .undefined, .object regexOpts] soloSys).2.trace
      = [(utf8 "web-2", true)]
    ∧ (CrunKill demoEnv [.string (utf8 "web"), .undefined, .object regexOpts] soloSys).1
      = (CrunKill demoEnv [.string (utf8 "web"), .undefined, .object regexOpts] demoSys).1
    ∧ ¬ ∃ decode : NapiValue → List (CStr × Bool), ∀ s : Sys (List CStr),
        decode (CrunKill demoEnv [.string (utf8 "web"), .undefined, .object regexOpts] s).1
          = member_outcomes
              ((CrunKill demoEnv [.string (utf8 "web"), .undefined, .object regexOpts]
                s).2.trace.drop s.trace.length) := by
  refine ⟨by decide, by decide, by decide, by decide, by decide, ?_⟩
  rintro ⟨decode, h⟩
  have hA := h demoSys
  have hB := h soloSys
  have hres : (CrunKill demoEnv [.string (utf8 "web"), .undefined, .object regexOpts]
      soloSys).1
      = (CrunKill demoEnv [.string (utf8 "web"), .undefined, .object regexOpts] demoSys).1 := by
    decide
  rw [hres, hA] at hB
  revert hB
  decide

/-- C6, amended: the result of a batch kill or delete carries only the aggregate count
(besides pattern, signal or force, the success flag and `error = false`) and no
per-member outcome list. The per-member outcomes are those of the delegated calls made:
every entry of the list whose name matches is attempted exactly once, in order, and the
aggregate count equals the number of success entries among these outcomes. -/
theorem batch_count_eq_successes_among_attempts (E : Env W R) (s : Sys W) (pat : CStr)
    (re : R) (sigv : NapiValue) (opts : NapiProps) (extra : List NapiValue)
    (lr : Ret) (S : List CStr) (w : W)
    (hregex : opts.find "regex" = some (.boolean true))
    (hre : E.regcomp pat = some re)
    (hlist : E.list (list_root (some (.object opts))) s.world = ((lr, S), w))
    (hok : 0 ≤ lr.ret) (hlen : S.length < 2 ^ 31) :
    (∃ evs : List Event,
      (CrunKill E (.string pat :: sigv :: .object opts :: extra) s).2.trace
        = s.trace ++ ⟨.get_containers_list (list_root (some (.object opts))), lr.ret⟩ :: evs
      ∧ (member_outcomes evs).map Prod.fst = matching E re S
      ∧ (CrunKill E (.string pat :: sigv :: .object opts :: extra) s).1
        = napi_object_of
            [("pattern", .string pat),
             ("signal",
               .string (kill_sig_str_buf (.string pat :: sigv :: .object opts :: extra))),
             ("killedCount",
               .number (.int ((member_outcomes evs).filter (fun o => o.2)).length)),
             ("success", .boolean true), ("error", .boolean false)])
    ∧ (∃ evs : List Event,
      (CrunDelete E (.string pat :: .object opts :: extra) s).2.trace
        = s.trace ++ ⟨.get_containers_list (list_root (some (.object opts))), lr.ret⟩ :: evs
      ∧ (member_outcomes evs).map Prod.fst = matching E re S
      ∧ (CrunDelete E (.string pat :: .object opts :: extra) s).1
        = napi_object_of
            [("pattern", .string pat),
             ("deletedCount",
               .number (.int ((member_outcomes evs).filter (fun o => o.2)).length)),
             ("force", .boolean (option_bool E.indet (some (.object opts)) "force")),
             ("deleted", .boolean true), ("error", .boolean false)]) := by
  have hl := list_eq E _ s lr S w hlist
  have hnot : ¬ lr.ret < 0 := by omega
  have hb : (0 : Int) + (S.length : Int) < 2 ^ 31 := by
    have : ((S.length : Nat) : Int) < ((2 ^ 31 : Nat) : Int) := Int.ofNat_lt.mpr hlen
    simpa using this
  constructor
  · obtain ⟨evs, ht, hc, hn⟩ :=
      kill_matching_spec E re (make_context E.indet pat (some (.object opts)))
        (kill_sig_str_buf (.string pat :: sigv :: .object opts :: extra)) S 0
        { world := w, trace := s.trace ++
            [⟨.get_containers_list (list_root (some (.object opts))), lr.ret⟩] }
    obtain ⟨hnames, hcount⟩ := member_outcomes_kill _ _ evs _ hc
    refine ⟨evs, ?_, hnames, ?_⟩
    · rw [CrunKill_regex_mode E s pat sigv opts extra hregex, hre]
      simp only [hl, hnot, if_false]
      rw [ht]
      simp
    · rw [CrunKill_regex_mode E s pat sigv opts extra hregex, hre]
      simp only [hl, hnot, if_false]
      rw [hn (le_refl 0) hb, hcount]
      simp
  · obtain ⟨evs, ht, hc, hn⟩ :=
      delete_matching_spec E re (make_context E.indet pat (some (.object opts)))
        (option_bool E.indet (some (.object opts)) "force") S 0
        { world := w, trace := s.trace ++
            [⟨.get_containers_list (list_root (some (.object opts))), lr.ret⟩] }
    obtain ⟨hnames, hcount⟩ := member_outcomes_delete _ _ evs _ hc
    refine ⟨evs, ?_, hnames, ?_⟩
    · rw [CrunDelete_regex_mode E s pat opts extra hregex, hre]
      simp only [hl, hnot, if_false]
      rw [ht]
      simp
    · rw [CrunDelete_regex_mode E s pat opts extra hregex, hre]
      simp only [hl, hnot, if_false]
      rw [hn (le_refl 0) hb, hcount]
      simp

theorem batch_count_eq_successes_among_attempts_witness :
    regexOpts.find "regex" = some (.boolean true)
    ∧ demoEnv.regcomp (utf8 "web") = some (utf8 "web")
    ∧ demoEnv.list (list_root (some (.object regexOpts))) demoSys.world
        = ((⟨0, none⟩, demoFleet), demoFleet)
    ∧ (0 : Int) ≤ (⟨0, none⟩ : Ret).ret
    ∧ demoFleet.length < 2 ^ 31
    ∧ ((∃ evs : List Event,
        (CrunKill demoEnv [.string (utf8 "web"), .string (utf8 "KILL"), .object regexOpts]
            demoSys).2.trace
          = demoSys.trace
            ++ ⟨.get_containers_list (list_root (some (.object regexOpts))), 0⟩ :: evs
        ∧ (member_outcomes evs).map Prod.fst = matching demoEnv (utf8 "web") demoFleet
        ∧ (CrunKill demoEnv [.string (utf8 "web"), .string (utf8 "KILL"), .object regexOpts]
            demoSys).1
          = napi_object_of
              [("pattern", .string (utf8 "web")),
               ("signal", .string (kill_sig_str_buf
                  [.string (utf8 "web"), .string (utf8 "KILL"), .object regexOpts])),
               ("killedCount",
                 .number (.int ((member_outcomes evs).filter (fun o => o.2)).length)),
               ("success", .boolean true), ("error", .boolean false)])
      ∧ (∃ evs : List Event,
        (CrunDelete demoEnv [.string (utf8 "web"), .object regexOpts] demoSys).2.trace
          = demoSys.trace
            ++ ⟨.get_containers_list (list_root (some (.object regexOpts))), 0⟩ :: evs
        ∧ (member_outcomes evs).map Prod.fst = matching demoEnv (utf8 "web") demoFleet
        ∧ (CrunDelete demoEnv [.string (utf8 "web"), .object regexOpts] demoSys).1
          = napi_object_of
              [("pattern", .string (utf8 "web")),
               ("deletedCount",
                 .number (.int ((member_outcomes evs).filter (fun o => o.2)).length)),
               ("force",
                 .boolean (option_bool demoEnv.indet (some (.object regexOpts)) "force")),
               ("deleted", .boolean true), ("error", .boolean false)])) :=
  ⟨by decide, by decide, by decide, by decide, by decide,
    batch_count_eq_successes_among_attempts demoEnv demoSys (utf8 "web") (utf8 "web")
      (.string (utf8 "KILL")) regexOpts [] ⟨0, none⟩ demoFleet demoFleet (by decide)
      (by decide) (by decide) (by decide) (by decide)⟩

/-! ## Lemmas on the update translator -/

theorem digitChar_ascii (d : Nat) (h : d < 10) : (Nat.digitChar d).val ≤ 127 := by
  interval_cases d <;> decide

theorem toDigitsCore_ascii (f : Nat) : ∀ (n : Nat) (ds : List Char),
    (∀ c ∈ ds, c.val ≤ 127) → ∀ c ∈ Nat.toDigitsCore 10 f n ds, c.val ≤ 127 := by
  induction f with
  | zero => intro n ds h; simpa [Nat.toDigitsCore] using h
  | succ f ih =>
    intro n ds h
    have hcons : ∀ c ∈ Nat.digitChar (n % 10) :: ds, c.val ≤ 127 := by
      intro c hc
      rcases List.mem_cons.mp hc with rfl | hc
      · exact digitChar_ascii _ (Nat.mod_lt _ (by decide))
      · exact h c hc
    simp only [Nat.toDigitsCore]
    split_ifs
    · exact hcons
    · exact ih _ _ hcons

theorem utf8_length_of_ascii (cs : List Char) (h : ∀ c ∈ cs, c.val ≤ 127) :
    (cs.flatMap String.utf8EncodeChar).length = cs.length := by
  induction cs with
  | nil => rfl
  | cons c cs ih =>
    have hc : c.val ≤ 127 := h c (List.mem_cons_self _ _)
    have ih2 := ih (fun d hd => h d (List.mem_cons_of_mem _ hd))
    simp [List.flatMap_cons, String.utf8EncodeChar, hc, ih2]

theorem utf8_nat_length (m e : Nat) (he : 0 < e) (hm : m < 10 ^ e) :
    (utf8 (toString m)).length ≤ e := by
  have h1 : ∀ c ∈ (Nat.repr m).data, c.val ≤ 127 := by
    simp only [Nat.repr, List.asString]
    exact toDigitsCore_ascii _ _ _ (by simp)
  have h2 := Nat.repr_length m e he hm
  show ((Nat.repr m).data.flatMap String.utf8EncodeChar).length ≤ e
  rw [utf8_length_of_ascii _ h1]
  exact h2

theorem utf8_int_length (n : Int) (h0 : -(2 : Int) ^ 63 ≤ n) (h1 : n < 2 ^ 63) :
    (utf8 (toString n)).length ≤ 20 := by
  cases n with
  | ofNat m =>
    have hm : m < 10 ^ 19 := by
      have : (m : Int) < 2 ^ 63 := h1
      omega
    have := utf8_nat_length m 19 (by decide) hm
    show (utf8 (toString m)).length ≤ 20
    omega
  | negSucc m =>
    have hm : m + 1 < 10 ^ 19 := by
      have h2 : -(2 : Int) ^ 63 ≤ Int.negSucc m := h0
      rw [Int.negSucc_eq] at h2
      omega
    have := utf8_nat_length (m + 1) 19 (by decide) hm
    show (utf8 ("-" ++ toString (m + 1))).length ≤ 20
    have happ : utf8 ("-" ++ toString (m + 1)) = utf8 "-" ++ utf8 (toString (m + 1)) := by
      simp [utf8, String.data_append]
    rw [happ, List.length_append]
    have : (utf8 "-").length = 1 := by decide
    omega

theorem snprintf_int64 (n : Int) (h0 : -(2 : Int) ^ 63 ≤ n) (h1 : n < 2 ^ 63) :
    snprintf_int 64 n = utf8 (toString n) := by
  unfold snprintf_int
  exact List.take_of_length_le (by have := utf8_int_length n h0 h1; omega)

theorem copy_string_value_fst (prop_val : NapiValue) (i : Nat) (hi : i < 16) :
    (copy_string_value prop_val i).1 = (copy_string_value prop_val 0).1
    ∧ (copy_string_value prop_val i).2 ≤ i + 1 := by
  unfold copy_string_value
  cases napi_get_string prop_val with
  | none => simp
  | some tmp => simp [hi]

theorem update_value_str_fst (m : update_mapping) (prop_val : NapiValue) (i : Nat)
    (hi : i < 16) :
    (update_value_str m prop_val i).1 = (update_value_str m prop_val 0).1
    ∧ (update_value_str m prop_val i).2 ≤ i + 1 := by
  have hc := copy_string_value_fst prop_val i hi
  unfold update_value_str
  split_ifs <;> simp [hc.1, hc.2]

theorem update_step_spec (resources : NapiValue) (st : Nat × List libcrun_update_value_s)
    (m : update_mapping) (hi : st.1 < 16) :
    (update_step resources st m).2 = st.2 ++ (row_entry resources m).toList
    ∧ (update_step resources st m).1 ≤ st.1 + 1 := by
  unfold update_step row_entry
  cases hp : napi_named_property resources m.js_prop with
  | none => simp
  | some prop_val =>
    obtain ⟨h1, h2⟩ := update_value_str_fst m prop_val st.1 hi
    simp only
    rw [← h1]
    rcases hv : update_value_str m prop_val st.1 with ⟨v, j⟩
    rw [hv] at h2
    cases v with
    | none => simpa using h2
    | some value_str => simpa using h2

theorem update_foldl_spec (resources : NapiValue) (rows : List update_mapping) :
    ∀ st : Nat × List libcrun_update_value_s, st.1 + rows.length ≤ 16 →
      (rows.foldl (update_step resources) st).2
        = st.2 ++ rows.filterMap (row_entry resources) := by
  induction rows with
  | nil => intro st _; simp
  | cons m rows ih =>
    intro st h
    have hlen : (m :: rows).length = rows.length + 1 := rfl
    obtain ⟨h1, h2⟩ := update_step_spec resources st m (by omega)
    rw [List.foldl_cons, ih _ (by omega), h1]
    cases hr : row_entry resources m <;> simp [List.filterMap_cons, hr]

theorem update_values_eq (resources : NapiValue) :
    update_values resources = update_mappings.filterMap (row_entry resources) := by
  unfold update_values
  rw [update_foldl_spec resources update_mappings (0, []) (by decide)]
  simp

theorem clamp_int64_of_range (n : Int) (h0 : -(2 : Int) ^ 63 ≤ n) (h1 : n < 2 ^ 63) :
    clamp_int64 n = n := by
  unfold clamp_int64
  split_ifs <;> omega

theorem table_keys_not_rdt : ∀ m ∈ update_mappings,
    m.js_prop ≠ "l3CacheSchema" ∧ m.js_prop ≠ "memBwSchema" := by
  decide

theorem update_generic_trace (E : Env W R) (ctx : libcrun_context_t) (id : CStr)
    (values : List libcrun_update_value_s) (s : Sys W) :
    (update_generic E ctx id values s).2.trace
      = s.trace ++ (if values = [] then [] else
          [⟨.container_update_from_values ctx id values,
            (E.update_from_values ctx id values s.world).1.ret⟩]) := by
  unfold update_generic
  cases values with
  | nil => simp
  | cons v vs =>
    simp only [List.length_cons, Nat.zero_lt_succ, if_true]
    rw [if_neg (List.cons_ne_nil _ _)]
    split_ifs <;> simp [libcrun_container_update_from_values, Sys.record]

theorem update_generic_ok (E : Env W R) (ctx : libcrun_context_t) (id : CStr)
    (values : List libcrun_update_value_s) (s : Sys W) :
    (update_generic E ctx id values s).1 = none
      ↔ (values = [] ∨ 0 ≤ (E.update_from_values ctx id values s.world).1.ret) := by
  unfold update_generic
  cases values with
  | nil => simp
  | cons v vs =>
    simp only [List.length_cons, Nat.zero_lt_succ, if_true]
    by_cases h : (E.update_from_values ctx id (v :: vs) s.world).1.ret < 0
    · have h2 : ¬ 0 ≤ (E.update_from_values ctx id (v :: vs) s.world).1.ret := by omega
      simp [libcrun_container_update_from_values, Sys.record, h, h2]
    · have h2 : 0 ≤ (E.update_from_values ctx id (v :: vs) s.world).1.ret := by omega
      simp [libcrun_container_update_from_values, Sys.record, h, h2]

theorem update_rdt_trace (E : Env W R) (ctx : libcrun_context_t) (id : CStr)
    (resources : NapiValue) (s : Sys W) :
    (update_rdt E ctx id resources s).2.trace
      = s.trace ++
        (if (get_string_property resources "l3CacheSchema").isSome
            ∨ (get_string_property resources "memBwSchema").isSome then
          [⟨.container_update_intel_rdt ctx id
              (get_string_property resources "l3CacheSchema")
              (get_string_property resources "memBwSchema"),
            (E.update_intel_rdt ctx id (get_string_property resources "l3CacheSchema")
              (get_string_property resources "memBwSchema") s.world).1.ret⟩]
        else []) := by
  unfold update_rdt
  by_cases h : (get_string_property resources "l3CacheSchema").isSome
      ∨ (get_string_property resources "memBwSchema").isSome
  · simp only [h, if_true]
    split_ifs <;> simp [libcrun_container_update_intel_rdt, Sys.record]
  · simp only [h, if_false]
    simp

theorem CrunUpdate_object (E : Env W R) (s : Sys W) (id : CStr) (props : NapiProps)
    (extra : List NapiValue) :
    CrunUpdate E (.string id :: .object props :: extra) s =
      match (update_generic E
          (make_context E.indet id (options_arg (.string id :: .object props :: extra) 2))
          id (update_values (.object props)) s).1 with
      | some error => (error, (update_generic E
          (make_context E.indet id (options_arg (.string id :: .object props :: extra) 2))
          id (update_values (.object props)) s).2)
      | none => update_rdt E
          (make_context E.indet id (options_arg (.string id :: .object props :: extra) 2))
          id (.object props) (update_generic E
            (make_context E.indet id (options_arg (.string id :: .object props :: extra) 2))
            id (update_values (.object props)) s).2 := by
  simp [CrunUpdate, cb_arg, napi_get_string, napi_typeof]

theorem CrunUpdate_object_trace (E : Env W R) (s : Sys W) (id : CStr) (props : NapiProps)
    (extra : List NapiValue) :
    (CrunUpdate E (.string id :: .object props :: extra) s).2.trace
      = (update_generic E
          (make_context E.indet id (options_arg (.string id :: .object props :: extra) 2))
          id (update_values (.object props)) s).2.trace
        ++ (if (update_generic E
              (make_context E.indet id (options_arg (.string id :: .object props :: extra) 2))
              id (update_values (.object props)) s).1 = none
            ∧ ((get_string_property (.object props) "l3CacheSchema").isSome
              ∨ (get_string_property (.object props) "memBwSchema").isSome) then
          [⟨.container_update_intel_rdt
              (make_context E.indet id (options_arg (.string id :: .object props :: extra) 2))
              id (get_string_property (.object props) "l3CacheSchema")
              (get_string_property (.object props) "memBwSchema"),
            (E.update_intel_rdt
              (make_context E.indet id (options_arg (.string id :: .object props :: extra) 2))
              id (get_string_property (.object props) "l3CacheSchema")
              (get_string_property (.object props) "memBwSchema")
              (update_generic E
                (make_context E.indet id
                  (options_arg (.string id :: .object props :: extra) 2))
                id (update_values (.object props)) s).2.world).1.ret⟩]
        else []) := by
  rw [CrunUpdate_object]
  cases hg : (update_generic E
      (make_context E.indet id (options_arg (.string id :: .object props :: extra) 2))
      id (update_values (.object props)) s).1 with
  | some error => simp
  | none =>
    simp only [update_rdt_trace, true_and]

theorem update_single (m : update_mapping) (hm : m ∈ update_mappings) (hnum : m.numeric ≠ 0)
    (n : Int) (h0 : -(2 : Int) ^ 63 ≤ n) (h1 : n < 2 ^ 63) :
    update_values (.object (.cons m.js_prop (.number (.int n)) .nil))
        = [⟨m.«section», m.name, 1, utf8 (toString n)⟩] := by
  rw [update_values_eq]
  simp only [update_mappings, List.mem_cons, List.mem_singleton, List.not_mem_nil,
    or_false] at hm
  rcases hm with rfl | rfl | rfl | rfl | rfl | rfl | rfl | rfl | rfl | rfl | rfl | rfl | rfl
    | rfl
  all_goals first
    | exact absurd rfl hnum
    | simp [update_mappings, row_entry, napi_named_property, NapiProps.find, update_value_str,
        napi_typeof, value_int64, napi_get_value_int64, clamp_int64_of_range n h0 h1,
        snprintf_int64 n h0 h1]

theorem find_eq_some_iff (key : String) (v : NapiValue) :
    ∀ props : NapiProps, (props.toList.map Prod.fst).Nodup →
      (props.find key = some v ↔ (key, v) ∈ props.toList)
  | .nil, _ => by simp [NapiProps.find, NapiProps.toList]
  | .cons k x rest, hnd => by
    simp only [NapiProps.toList, List.map_cons, List.nodup_cons] at hnd
    obtain ⟨hk, hrest⟩ := hnd
    have ih := find_eq_some_iff key v rest hrest
    by_cases hkk : k = key
    · subst hkk
      have hnot : ∀ y, (k, y) ∉ rest.toList := by
        intro y hy
        exact hk (List.mem_map.mpr ⟨(k, y), hy, rfl⟩)
      simp [NapiProps.find, NapiProps.toList, hnot]
      exact eq_comm
    · have hne : ¬ (key = k) := fun h => hkk h.symm
      simp [NapiProps.find, NapiProps.toList, hkk, hne, ih]

theorem find_perm (props props' : NapiProps) (hperm : props.toList.Perm props'.toList)
    (hnodup : (props.toList.map Prod.fst).Nodup) (key : String) :
    props.find key = props'.find key := by
  have hnodup' : (props'.toList.map Prod.fst).Nodup :=
    (List.Perm.nodup_iff (List.Perm.map Prod.fst hperm)).mp hnodup
  apply Option.ext
  intro v
  rw [Option.mem_def, Option.mem_def, find_eq_some_iff key v props hnodup,
    find_eq_some_iff key v props' hnodup']
  exact hperm.mem_iff

theorem update_values_congr (resources resources' : NapiValue)
    (h : ∀ m ∈ update_mappings,
      napi_named_property resources m.js_prop = napi_named_property resources' m.js_prop) :
    update_values resources = update_values resources' := by
  rw [update_values_eq, update_values_eq]
  apply List.filterMap_congr
  intro m hm
  simp only [row_entry, h m hm]

theorem row_entry_keys (resources : NapiValue) (m : update_mapping)
    (e : libcrun_update_value_s) (h : row_entry resources m = some e) :
    e.«section» = m.«section» ∧ e.name = m.name ∧ e.numeric = m.numeric := by
  unfold row_entry at h
  cases hp : napi_named_property resources m.js_prop with
  | none => simp [hp] at h
  | some v =>
    simp only [hp] at h
    cases hv : (update_value_str m v 0).1 with
    | none => simp [hv] at h
    | some value_str =>
      simp only [hv, Option.some.injEq] at h
      subst h
      exact ⟨rfl, rfl, rfl⟩

theorem filterMap_keys_sublist (resources : NapiValue) (rows : List update_mapping) :
    ((rows.filterMap (row_entry resources)).map (fun e => (e.«section», e.name))).Sublist
      (rows.map (fun m => (m.«section», m.name))) := by
  induction rows with
  | nil => simp
  | cons m rows ih =>
    cases hr : row_entry resources m with
    | none =>
      simp only [List.filterMap_cons, hr, List.map_cons]
      exact List.Sublist.cons _ ih
    | some e =>
      obtain ⟨h1, h2, -⟩ := row_entry_keys resources m e hr
      simp only [List.filterMap_cons, hr, List.map_cons, h1, h2]
      exact List.Sublist.cons₂ _ ih

theorem row_entry_of_string (props : NapiProps) (m : update_mapping) (str : CStr)
    (h : props.find m.js_prop = some (.string str)) :
    row_entry (.object props) m
      = some ⟨m.«section», m.name, m.numeric, strncpy_buf 64 str⟩ := by
  unfold row_entry
  by_cases hnum : m.numeric = 0
  · simp [napi_named_property, h, update_value_str, napi_typeof, hnum, copy_string_value,
      napi_get_string]
  · simp [napi_named_property, h, update_value_str, napi_typeof, hnum, copy_string_value,
      napi_get_string]

/-! ## The resource-update translator -/

/-- C7, as stated, fails for an integer outside the `int64_t` range: the number `2^63`
given for `memory` is read by `napi_get_value_int64` as `2^63 - 1`, so the entry carries
"9223372036854775807" and not the decimal text of `2^63`. -/
theorem update_integer_beyond_int64_is_clamped :
    update_values (.object (.cons "memory" (.number (.int (2 ^ 63))) .nil))
      = [⟨"memory", "limit", 1, utf8 "9223372036854775807"⟩]
    ∧ update_values (.object (.cons "memory" (.number (.int (2 ^ 63))) .nil))
      ≠ [⟨"memory", "limit", 1, utf8 (toString ((2 : Int) ^ 63))⟩] := by
  decide

/-- C7, amended: a request whose only property is `memory` with the number 1048576 gives
exactly the entry (memory, limit, numeric, "1048576"); more generally a request whose
only property is a numeric row of the table with an integer value `n` in the `int64_t`
range (negative included) gives exactly one entry with that row's section and name, the
numeric flag set and the decimal text of `n`, and that one-entry list is what
`libcrun_container_update_from_values` receives, in the only delegated call. -/
theorem update_single_numeric_field (E : Env W R) (s : Sys W) (id : CStr)
    (extra : List NapiValue) (m : update_mapping) (n : Int)
    (hm : m ∈ update_mappings) (hnum : m.numeric ≠ 0)
    (h0 : -(2 : Int) ^ 63 ≤ n) (h1 : n < 2 ^ 63) :
    update_values (.object (.cons m.js_prop (.number (.int n)) .nil))
      = [⟨m.«section», m.name, 1, utf8 (toString n)⟩]
    ∧ (CrunUpdate E
        (.string id :: .object (.cons m.js_prop (.number (.int n)) .nil) :: extra)
        s).2.trace.map Event.call
      = s.trace.map Event.call
        ++ [Call.container_update_from_values
            (make_context E.indet id (options_arg
              (.string id :: .object (.cons m.js_prop (.number (.int n)) .nil) :: extra) 2))
            id [⟨m.«section», m.name, 1, utf8 (toString n)⟩]]
    ∧ update_values (.object (.cons "memory" (.number (.int 1048576)) .nil))
      = [⟨"memory", "limit", 1, utf8 "1048576"⟩] := by
  have hv := update_single m hm hnum n h0 h1
  refine ⟨hv, ?_, by decide⟩
  obtain ⟨hk1, hk2⟩ := table_keys_not_rdt m hm
  have hl3 : get_string_property (.object (.cons m.js_prop (.number (.int n)) .nil))
      "l3CacheSchema" = none := by
    simp [get_string_property, napi_named_property, NapiProps.find, hk1]
  have hbw : get_string_property (.object (.cons m.js_prop (.number (.int n)) .nil))
      "memBwSchema" = none := by
    simp [get_string_property, napi_named_property, NapiProps.find, hk2]
  rw [CrunUpdate_object_trace, update_generic_trace, hv, hl3, hbw]
  simp

theorem update_single_numeric_field_witness :
    pidsLimitRow ∈ update_mappings
    ∧ pidsLimitRow.numeric ≠ 0
    ∧ -(2 : Int) ^ 63 ≤ -1
    ∧ (-1 : Int) < 2 ^ 63
    ∧ (update_values (.object (.cons pidsLimitRow.js_prop (.number (.int (-1))) .nil))
        = [⟨pidsLimitRow.«section», pidsLimitRow.name, 1, utf8 (toString (-1 : Int))⟩]
      ∧ (CrunUpdate demoEnv
          [.string (utf8 "web-2"),
           .object (.cons pidsLimitRow.js_prop (.number (.int (-1))) .nil)]
          demoSys).2.trace.map Event.call
        = demoSys.trace.map Event.call
          ++ [Call.container_update_from_values
              (make_context demoEnv.indet (utf8 "web-2") (options_arg
                [.string (utf8 "web-2"),
                 .object (.cons pidsLimitRow.js_prop (.number (.int (-1))) .nil)] 2))
              (utf8 "web-2")
              [⟨pidsLimitRow.«section», pidsLimitRow.name, 1, utf8 (toString (-1 : Int))⟩]]
      ∧ update_values (.object (.cons "memory" (.number (.int 1048576)) .nil))
        = [⟨"memory", "limit", 1, utf8 "1048576"⟩]) :=
  ⟨by decide, by decide, by decide, by decide,
    update_single_numeric_field demoEnv demoSys (utf8 "web-2") [] pidsLimitRow (-1)
      (by decide) (by decide) (by decide) (by decide)⟩

/-- C8: the entries built from a resources object are the contributions of the rows of
`update_mappings` taken in table order (blkioWeight, cpuPeriod, cpuQuota, cpuShares,
cpuRtPeriod, cpuRtRuntime, cpusetCpus, cpusetMems, kernelMemory, kernelMemoryTcp, memory,
memoryReservation, memorySwap, pidsLimit), so two requests holding the same properties
with the same values in a different order give identical entry lists. -/
theorem update_entries_follow_table_order (props props' : NapiProps)
    (hperm : props.toList.Perm props'.toList)
    (hnodup : (props.toList.map Prod.fst).Nodup) :
    update_values (.object props) = update_values (.object props')
    ∧ update_values (.object props) = update_mappings.filterMap (row_entry (.object props))
    ∧ ((update_values (.object props)).map (fun e => (e.«section», e.name))).Sublist
        (update_mappings.map (fun m => (m.«section», m.name)))
    ∧ update_mappings.map update_mapping.js_prop
        = ["blkioWeight", "cpuPeriod", "cpuQuota", "cpuShares", "cpuRtPeriod",
           "cpuRtRuntime", "cpusetCpus", "cpusetMems", "kernelMemory", "kernelMemoryTcp",
           "memory", "memoryReservation", "memorySwap", "pidsLimit"] := by
  refine ⟨?_, update_values_eq _, ?_, by decide⟩
  · apply update_values_congr
    intro m _
    exact find_perm props props' hperm hnodup m.js_prop
  · rw [update_values_eq]
    exact filterMap_keys_sublist _ _

theorem update_entries_follow_table_order_witness :
    memoryFirst.toList.Perm cpusetFirst.toList
    ∧ (memoryFirst.toList.map Prod.fst).Nodup
    ∧ (update_values (.object memoryFirst) = update_values (.object cpusetFirst)
      ∧ update_values (.object memoryFirst)
        = update_mappings.filterMap (row_entry (.object memoryFirst))
      ∧ ((update_values (.object memoryFirst)).map (fun e => (e.«section», e.name))).Sublist
          (update_mappings.map (fun m => (m.«section», m.name)))
      ∧ update_mappings.map update_mapping.js_prop
          = ["blkioWeight", "cpuPeriod", "cpuQuota", "cpuShares", "cpuRtPeriod",
             "cpuRtRuntime", "cpusetCpus", "cpusetMems", "kernelMemory", "kernelMemoryTcp",
             "memory", "memoryReservation", "memorySwap", "pidsLimit"]) :=
  ⟨List.Perm.swap _ _ _, by decide,
    update_entries_follow_table_order memoryFirst cpusetFirst (List.Perm.swap _ _ _)
      (by decide)⟩

/-- C10: for every resources object, (1) the generic update list does not depend on
`l3CacheSchema` and `memBwSchema`, and each of its entries comes from a row of the table,
none of which is keyed by these two names; (2) the Intel RDT update is delegated at most
once per call, and only when at least one of the two fields is present as a string;
(3) when the generic update did not fail (it was not needed or returned `>= 0`) and at
least one of the two is present, it is delegated exactly once; (4) it receives, for each
of the two fields, the string when present and NULL otherwise. -/
theorem rdt_fields_make_one_rdt_update (E : Env W R) (s : Sys W) (id : CStr)
    (props : NapiProps) (extra : List NapiValue) :
    (∀ props' : NapiProps,
        (∀ key : String, key ≠ "l3CacheSchema" → key ≠ "memBwSchema" →
          props'.find key = props.find key) →
        update_values (.object props') = update_values (.object props))
    ∧ (∀ e ∈ update_values (.object props), ∃ m ∈ update_mappings,
        e.«section» = m.«section» ∧ e.name = m.name
        ∧ m.js_prop ≠ "l3CacheSchema" ∧ m.js_prop ≠ "memBwSchema")
    ∧ (∀ key : String, get_string_property (.object props) key
        = match props.find key with
          | some (.string v) => some v
          | _ => none)
    ∧ ∃ evs : List Event,
        (CrunUpdate E (.string id :: .object props :: extra) s).2.trace = s.trace ++ evs
        ∧ (rdt_updates evs).length ≤ 1
        ∧ (∀ e ∈ rdt_updates evs,
            ((get_string_property (.object props) "l3CacheSchema").isSome
              ∨ (get_string_property (.object props) "memBwSchema").isSome)
            ∧ e.call = .container_update_intel_rdt
                (make_context E.indet id
                  (options_arg (.string id :: .object props :: extra) 2))
                id (get_string_property (.object props) "l3CacheSchema")
                (get_string_property (.object props) "memBwSchema"))
        ∧ ((update_values (.object props) = []
              ∨ 0 ≤ (E.update_from_values
                  (make_context E.indet id
                    (options_arg (.string id :: .object props :: extra) 2))
                  id (update_values (.object props)) s.world).1.ret) →
            ((get_string_property (.object props) "l3CacheSchema").isSome
              ∨ (get_string_property (.object props) "memBwSchema").isSome) →
            (rdt_updates evs).map Event.call
              = [.container_update_intel_rdt
                  (make_context E.indet id
                    (options_arg (.string id :: .object props :: extra) 2))
                  id (get_string_property (.object props) "l3CacheSchema")
                  (get_string_property (.object props) "memBwSchema")]) := by
  refine ⟨?_, ?_, ?_, ?_⟩
  · intro props' h
    apply update_values_congr
    intro m hm
    obtain ⟨h1, h2⟩ := table_keys_not_rdt m hm
    exact h m.js_prop h1 h2
  · intro e he
    rw [update_values_eq, List.mem_filterMap] at he
    obtain ⟨m, hm, hr⟩ := he
    obtain ⟨h1, h2, -⟩ := row_entry_keys _ _ _ hr
    exact ⟨m, hm, h1, h2, table_keys_not_rdt m hm⟩
  · intro key
    simp only [get_string_property, napi_named_property]
    cases hf : props.find key with
    | none => rfl
    | some v => cases v <;> rfl
  · rw [CrunUpdate_object_trace, update_generic_trace, List.append_assoc]
    refine ⟨_, rfl, ?_, ?_, ?_⟩
    · simp only [rdt_updates]
      split_ifs <;> simp [is_rdt_update]
    · intro e he
      simp only [rdt_updates] at he
      split_ifs at he with h1 h2 h3 <;> simp [is_rdt_update] at he
      · exact ⟨h2.2, by rw [he]⟩
      · exact ⟨h3.2, by rw [he]⟩
    · intro hok hany
      have hg := (update_generic_ok E
        (make_context E.indet id (options_arg (.string id :: .object props :: extra) 2))
        id (update_values (.object props)) s).mpr hok
      simp only [rdt_updates, hg, hany, true_and, if_true]
      split_ifs <;> simp [is_rdt_update]

/-! ## Update from a resources file -/

theorem error_obj_ne_update_result (pfx : String) (err : Option CStr) (id : CStr) :
    create_error_from_crun pfx err ≠ update_result id := by
  cases err <;>
    simp [create_error_from_crun, napi_create_error_obj, update_result, napi_object_of,
      NapiProps.ofList]

/-- C11: when the resources argument of update is a string, the only delegated call is
one `libcrun_container_update_from_file` with that string as the path (so neither the
update from values nor the Intel RDT update is invoked), and the result is the success
object with `id` and `updated = true` (and `error = false`) exactly when that call did
not return a negative value. -/
theorem update_from_file_only (E : Env W R) (s : Sys W) (id path : CStr)
    (extra : List NapiValue) :
    (CrunUpdate E (.string id :: .string path :: extra) s).2.trace
      = s.trace ++ [⟨.container_update_from_file
          (make_context E.indet id (options_arg (.string id :: .string path :: extra) 2))
          id path,
        (E.update_from_file
          (make_context E.indet id (options_arg (.string id :: .string path :: extra) 2))
          id path s.world).1.ret⟩]
    ∧ ((CrunUpdate E (.string id :: .string path :: extra) s).1
        = napi_object_of
            [("id", .string id), ("updated", .boolean true), ("error", .boolean false)]
      ↔ 0 ≤ (E.update_from_file
          (make_context E.indet id (options_arg (.string id :: .string path :: extra) 2))
          id path s.world).1.ret) := by
  have hred : CrunUpdate E (.string id :: .string path :: extra) s
      = if (libcrun_container_update_from_file E
            (make_context E.indet id (options_arg (.string id :: .string path :: extra) 2))
            id path s).1.ret < 0 then
          (create_error_from_crun "Failed to update container from file"
            (libcrun_container_update_from_file E
              (make_context E.indet id
                (options_arg (.string id :: .string path :: extra) 2))
              id path s).1.err,
           (libcrun_container_update_from_file E
              (make_context E.indet id
                (options_arg (.string id :: .string path :: extra) 2))
              id path s).2)
        else (update_result id,
           (libcrun_container_update_from_file E
              (make_context E.indet id
                (options_arg (.string id :: .string path :: extra) 2))
              id path s).2) := by
    simp [CrunUpdate, cb_arg, napi_get_string, napi_typeof]
  rw [hred]
  by_cases h : (E.update_from_file
      (make_context E.indet id (options_arg (.string id :: .string path :: extra) 2))
      id path s.world).1.ret < 0
  · have h2 : ¬ 0 ≤ (E.update_from_file
        (make_context E.indet id (options_arg (.string id :: .string path :: extra) 2))
        id path s.world).1.ret := by omega
    have hne := error_obj_ne_update_result "Failed to update container from file"
      (E.update_from_file
        (make_context E.indet id (options_arg (.string id :: .string path :: extra) 2))
        id path s.world).1.err id
    simp only [libcrun_container_update_from_file, Sys.record, h, if_true, h2, iff_false]
    exact ⟨trivial, hne⟩
  · have h2 : 0 ≤ (E.update_from_file
        (make_context E.indet id (options_arg (.string id :: .string path :: extra) 2))
        id path s.world).1.ret := by omega
    simp only [libcrun_container_update_from_file, Sys.record, h, if_false, h2, iff_true]
    exact ⟨trivial, rfl⟩

/-! ## Telemetry collection -/

theorem toList_ofList (l : List (String × NapiValue)) : (NapiProps.ofList l).toList = l := by
  induction l with
  | nil => rfl
  | cons kv rest ih =>
    obtain ⟨k, v⟩ := kv
    simp [NapiProps.ofList, NapiProps.toList, ih]

theorem add_cgroup_stat_eq (H : Host W) (obj : List (String × NapiValue)) (cgroup_path : CStr)
    (file key : String) (s : Sys W) :
    add_cgroup_stat H obj cgroup_path file key s
      = (obj ++ [(key, .string
            (cgroup_stat_value (H.fopen (cgroup_file_path cgroup_path file) s.world).1))],
         { world := (H.fopen (cgroup_file_path cgroup_path file) s.world).2,
           trace := s.trace ++ [⟨.fopen (cgroup_file_path cgroup_path file),
             if (H.fopen (cgroup_file_path cgroup_path file) s.world).1.isSome then 1
             else 0⟩] }) := by
  unfold add_cgroup_stat read_cgroup_file_content fopen cgroup_file_path cgroup_stat_value
  cases h : (H.fopen (snprintf_buf PATH_MAX (cgroup_path ++ utf8 file)) s.world).1 with
  | none => simp [h]
  | some data =>
    simp only [h]
    split_ifs <;> simp

theorem add_cgroup_stats_spec (H : Host W) (cgroup_path : CStr)
    (files : List (String × String)) :
    ∀ (obj : List (String × NapiValue)) (s : Sys W),
      ∃ opened : List (Option Bytes),
        opened.length = files.length
        ∧ (add_cgroup_stats H cgroup_path files obj s).1
            = obj ++ List.zipWith (fun fk o => (fk.2, NapiValue.string (cgroup_stat_value o)))
                files opened
        ∧ (add_cgroup_stats H cgroup_path files obj s).2.trace
            = s.trace ++ List.zipWith
                (fun fk o => (⟨.fopen (cgroup_file_path cgroup_path fk.1),
                  if o.isSome then 1 else 0⟩ : Event)) files opened := by
  induction files with
  | nil =>
    intro obj s
    exact ⟨[], rfl, by simp [add_cgroup_stats], by simp [add_cgroup_stats]⟩
  | cons fk rest ih =>
    intro obj s
    obtain ⟨file, key⟩ := fk
    obtain ⟨opened, hlen, hobj, htr⟩ := ih (add_cgroup_stat H obj cgroup_path file key s).1
      (add_cgroup_stat H obj cgroup_path file key s).2
    refine ⟨(H.fopen (cgroup_file_path cgroup_path file) s.world).1 :: opened, ?_, ?_, ?_⟩
    · simp [hlen]
    · simp only [add_cgroup_stats]
      rw [hobj, add_cgroup_stat_eq]
      simp
    · simp only [add_cgroup_stats]
      rw [htr, add_cgroup_stat_eq]
      simp
theorem zipWith_keys (files : List (String × String)) :
    ∀ opened : List (Option Bytes), opened.length = files.length →
      (List.zipWith (fun fk o => (fk.2, NapiValue.string (cgroup_stat_value o)))
        files opened).map Prod.fst = files.map Prod.snd := by
  induction files with
  | nil => intro opened _; simp
  | cons fk rest ih =>
    intro opened h
    cases opened with
    | nil => simp at h
    | cons o os =>
      simp only [List.length_cons, Nat.add_right_cancel_iff] at h
      simp [ih os h]

theorem collect_spec (H : Host W) (cgroup_path : CStr) (files : List (String × String))
    (s : Sys W) :
    ∃ opened : List (Option Bytes),
      opened.length = files.length
      ∧ napi_object_of (add_cgroup_stats H cgroup_path files [] s).1
          = napi_object_of
              (List.zipWith (fun fk o => (fk.2, NapiValue.string (cgroup_stat_value o)))
                files opened)
      ∧ (add_cgroup_stats H cgroup_path files [] s).2.trace
          = s.trace ++ List.zipWith
              (fun fk o => (⟨.fopen (cgroup_file_path cgroup_path fk.1),
                if o.isSome then 1 else 0⟩ : Event)) files opened
      ∧ object_keys (napi_object_of (add_cgroup_stats H cgroup_path files [] s).1)
          = files.map Prod.snd := by
  obtain ⟨opened, hlen, hobj, htr⟩ := add_cgroup_stats_spec H cgroup_path files [] s
  refine ⟨opened, hlen, ?_, htr, ?_⟩
  · rw [hobj]
    simp
  · rw [hobj]
    simp only [List.nil_append, object_keys, napi_object_of, toList_ofList]
    exact zipWith_keys files opened hlen

/-- C12: for every cgroup path and whatever files open, each collector returns an object
(never an error) holding all its keys in order: 8 for memory, 10 for CPU, 5 for IO, one
per counter file (memory.current, max, high, swap.max, swap.high, swap.current, low, min;
cpu.stat, pressure, max, weight, weight.nice, uclamp.min, uclamp.max,
cpuset.cpus.effective, exclusive, partition; io.max, pressure, prio.class, stat, weight).
Each file is opened once, in order, and the value of a key is decided by the outcome of
its own open alone; it is the empty string when the file did not open. -/
theorem collectors_always_return_all_keys (H : Host W) (cgroup_path : CStr) (s : Sys W) :
    (∃ opened : List (Option Bytes),
      opened.length = 8
      ∧ (collect_memory_stats H cgroup_path s).1
          = napi_object_of
              (List.zipWith (fun fk o => (fk.2, NapiValue.string (cgroup_stat_value o)))
                memory_stat_files opened)
      ∧ (collect_memory_stats H cgroup_path s).2.trace
          = s.trace ++ List.zipWith
              (fun fk o => (⟨.fopen (cgroup_file_path cgroup_path fk.1),
                if o.isSome then 1 else 0⟩ : Event)) memory_stat_files opened
      ∧ object_keys (collect_memory_stats H cgroup_path s).1
          = ["Memory Current", "Memory Max", "Memory High", "Memory Swap Max",
             "Memory Swap High", "Memory Swap Current", "Memory Low", "Memory Min"])
    ∧ (∃ opened : List (Option Bytes),
      opened.length = 10
      ∧ (collect_cpu_stats H cgroup_path s).1
          = napi_object_of
              (List.zipWith (fun fk o => (fk.2, NapiValue.string (cgroup_stat_value o)))
                cpu_stat_files opened)
      ∧ (collect_cpu_stats H cgroup_path s).2.trace
          = s.trace ++ List.zipWith
              (fun fk o => (⟨.fopen (cgroup_file_path cgroup_path fk.1),
                if o.isSome then 1 else 0⟩ : Event)) cpu_stat_files opened
      ∧ object_keys (collect_cpu_stats H cgroup_path s).1
          = ["CPU Usage", "CPU Pressure", "CPU Max", "CPU Weight", "CPU Weight Nice",
             "CPU Uclamp Min", "CPU Uclamp Max", "Effective CPUs", "Exclusive CPUs",
             "Partition CPUs"])
    ∧ (∃ opened : List (Option Bytes),
      opened.length = 5
      ∧ (collect_io_stats H cgroup_path s).1
          = napi_object_of
              (List.zipWith (fun fk o => (fk.2, NapiValue.string (cgroup_stat_value o)))
                io_stat_files opened)
      ∧ (collect_io_stats H cgroup_path s).2.trace
          = s.trace ++ List.zipWith
              (fun fk o => (⟨.fopen (cgroup_file_path cgroup_path fk.1),
                if o.isSome then 1 else 0⟩ : Event)) io_stat_files opened
      ∧ object_keys (collect_io_stats H cgroup_path s).1
          = ["IO Max", "IO Pressure", "IO Priority Class", "IO Stat", "IO Weight"])
    ∧ memory_stat_files.map Prod.fst
        = ["/memory.current", "/memory.max", "/memory.high", "/memory.swap.max",
           "/memory.swap.high", "/memory.swap.current", "/memory.low", "/memory.min"]
    ∧ cpu_stat_files.map Prod.fst
        = ["/cpu.stat", "/cpu.pressure", "/cpu.max", "/cpu.weight", "/cpu.weight.nice",
           "/cpu.uclamp.min", "/cpu.uclamp.max", "/cpuset.cpus.effective",
           "/cpuset.cpus.exclusive", "/cpuset.cpus.partition"]
    ∧ io_stat_files.map Prod.fst
        = ["/io.max", "/io.pressure", "/io.prio.class", "/io.stat", "/io.weight"]
    ∧ cgroup_stat_value none = utf8 "" := by
  refine ⟨?_, ?_, ?_, rfl, rfl, rfl, rfl⟩
  · obtain ⟨opened, hlen, hobj, htr, hkeys⟩ := collect_spec H cgroup_path memory_stat_files s
    exact ⟨opened, hlen, hobj, htr, hkeys⟩
  · obtain ⟨opened, hlen, hobj, htr, hkeys⟩ := collect_spec H cgroup_path cpu_stat_files s
    exact ⟨opened, hlen, hobj, htr, hkeys⟩
  · obtain ⟨opened, hlen, hobj, htr, hkeys⟩ := collect_spec H cgroup_path io_stat_files s
    exact ⟨opened, hlen, hobj, htr, hkeys⟩

theorem c_str_of_no_nul (data : Bytes) (h : ∀ b ∈ data, b ≠ 0) : c_str data = data := by
  unfold c_str
  rw [List.takeWhile_eq_self_iff]
  intro b hb
  simpa using h b hb

theorem getLast?_replicate_succ (a : UInt8) (n : Nat) :
    (List.replicate (n + 1) a).getLast? = some a := by
  induction n with
  | zero => rfl
  | succ n ih =>
    show (a :: a :: List.replicate n a).getLast? = some a
    rw [List.getLast?_cons_cons]
    exact ih

theorem strip_take_replicate (a : UInt8) (ha0 : a ≠ 0) (ha10 : a ≠ 10) (m k : Nat)
    (hm : 0 < m) (hk : m ≤ k) :
    (if 0 < ((List.replicate k a).take m).length
        ∧ ((List.replicate k a).take m).getLast? = some 10 then
      c_str ((List.replicate k a).take m).dropLast
    else c_str ((List.replicate k a).take m)) = List.replicate m a := by
  have h1 : (List.replicate k a).take m = List.replicate m a := by
    rw [List.take_replicate, Nat.min_eq_left hk]
  have h2 : (List.replicate m a).getLast? = some a := by
    obtain ⟨n, rfl⟩ : ∃ n, m = n + 1 := ⟨m - 1, by omega⟩
    exact getLast?_replicate_succ a n
  have h3 : c_str (List.replicate m a) = List.replicate m a := by
    apply c_str_of_no_nul
    intro b hb
    rw [List.eq_of_mem_replicate hb]
    exact ha0
  rw [h1, h2, h3, if_neg]
  rintro ⟨-, h⟩
  exact ha10 (Option.some.inj h)

/-- C13, as stated, fails in two ways: only the first 8191 bytes of a file are read, so a
file of 8192 bytes `a` gives a value of 8191 bytes; and the value is a C string, so the
content `a`, NUL, `b` gives the value `a`. -/
theorem cgroup_value_is_cut_at_8191_bytes_and_at_nul :
    (add_cgroup_stat (constHost (List.replicate 8192 97)) [] (utf8 "/sys/fs/cgroup/x")
        "/io.stat" "IO Stat" { world := (), trace := [] }).1
      = [("IO Stat", .string (List.replicate 8191 97))]
    ∧ (List.replicate 8191 97 : Bytes) ≠ List.replicate 8192 97
    ∧ (add_cgroup_stat (constHost [97, 0, 98]) [] (utf8 "/sys/fs/cgroup/x")
        "/io.stat" "IO Stat" { world := (), trace := [] }).1
      = [("IO Stat", .string [97])] := by
  refine ⟨?_, ?_, by decide⟩
  · rw [add_cgroup_stat_eq]
    have h := strip_take_replicate 97 (by decide) (by decide) 8191 8192 (by decide)
      (by decide)
    have hv : cgroup_stat_value (some (List.replicate 8192 97))
        = List.replicate 8191 97 := h
    show [] ++ [("IO Stat", NapiValue.string
      (cgroup_stat_value (some (List.replicate 8192 97))))] = _
    rw [hv]
    rfl
  · intro h
    have := congrArg List.length h
    rw [List.length_replicate, List.length_replicate] at this
    omega

/-- C13, amended: for every counter file that opens with content of at most 8191 bytes
holding no NUL byte, the value stored under its key is the whole content with exactly one
final newline removed when the content ends in a newline, and the content unchanged
otherwise. Of a longer file only the first 8191 bytes are read. -/
theorem cgroup_value_strips_one_newline (H : Host W) (obj : List (String × NapiValue))
    (cgroup_path : CStr) (file key : String) (s : Sys W) (data : Bytes)
    (hopen : (H.fopen (cgroup_file_path cgroup_path file) s.world).1 = some data)
    (hlen : data.length ≤ 8191)
    (hnul : ∀ b ∈ data, b ≠ 0) :
    (add_cgroup_stat H obj cgroup_path file key s).1
      = obj ++ [(key, .string (if data.getLast? = some 10 then data.dropLast else data))] := by
  rw [add_cgroup_stat_eq, hopen]
  have htake : data.take 8191 = data := List.take_of_length_le hlen
  have hdrop : ∀ b ∈ data.dropLast, b ≠ 0 :=
    fun b hb => hnul b (List.mem_of_mem_dropLast hb)
  simp only [cgroup_stat_value, htake]
  by_cases h : data.getLast? = some 10
  · have hpos : 0 < data.length := by
      cases data with
      | nil => simp at h
      | cons b t => simp
    simp [h, hpos, c_str_of_no_nul _ hdrop]
  · simp [h, c_str_of_no_nul _ hnul]

theorem cgroup_value_strips_one_newline_witness :
    ((constHost (utf8 "max\n\n")).fopen
        (cgroup_file_path (utf8 "/sys/fs/cgroup/x") "/memory.max") ()).1
      = some (utf8 "max\n\n")
    ∧ (utf8 "max\n\n").length ≤ 8191
    ∧ (∀ b ∈ utf8 "max\n\n", b ≠ 0)
    ∧ (add_cgroup_stat (constHost (utf8 "max\n\n")) [] (utf8 "/sys/fs/cgroup/x")
        "/memory.max" "Memory Max" { world := (), trace := [] }).1
      = [] ++ [("Memory Max", .string
          (if (utf8 "max\n\n").getLast? = some 10 then (utf8 "max\n\n").dropLast
           else utf8 "max\n\n"))] :=
  ⟨rfl, by decide, by decide,
    cgroup_value_strips_one_newline (constHost (utf8 "max\n\n")) []
      (utf8 "/sys/fs/cgroup/x") "/memory.max" "Memory Max" { world := (), trace := [] }
      (utf8 "max\n\n") rfl (by decide) (by decide)⟩

/-! ## The running check of `ps` and `resourceUsage` -/

theorem CrunPs_after_checks (H : Host W) (s : Sys W) (id : CStr) (rest : List NapiValue)
    (r run : Ret) (status : libcrun_container_status_t) (w1 w2 : W)
    (hst : H.read_container_status (list_root (options_arg (.string id :: rest) 1)) id
      s.world = ((r, status), w1))
    (hok : 0 ≤ r.ret)
    (hrun : H.is_container_running status w1 = (run, w2)) :
    CrunPs H (.string id :: rest) s
      = if run.ret ≤ 0 then
          (napi_create_error_obj (-1) (utf8 "container is not running"),
           { world := w2, trace := s.trace
              ++ [⟨.read_container_status (list_root (options_arg (.string id :: rest) 1)) id,
                    r.ret⟩, ⟨.is_container_running status, run.ret⟩] })
        else
          ps_sample H status { world := w2, trace := s.trace
            ++ [⟨.read_container_status (list_root (options_arg (.string id :: rest) 1)) id,
                  r.ret⟩, ⟨.is_container_running status, run.ret⟩] } := by
  have hnot : ¬ r.ret < 0 := by omega
  simp [CrunPs, cb_arg, napi_get_string, libcrun_read_container_status,
    libcrun_is_container_running, Sys.record, hst, hrun, hnot]

theorem CrunResourceUsage_after_checks (H : Host W) (s : Sys W) (id : CStr)
    (rest : List NapiValue) (r run : Ret) (status : libcrun_container_status_t) (w1 w2 : W)
    (hst : H.read_container_status (list_root (options_arg (.string id :: rest) 1)) id
      s.world = ((r, status), w1))
    (hok : 0 ≤ r.ret)
    (hrun : H.is_container_running status w1 = (run, w2)) :
    CrunResourceUsage H (.string id :: rest) s
      = if run.ret ≤ 0 then
          (napi_create_error_obj (-1) (utf8 "container is not running"),
           { world := w2, trace := s.trace
              ++ [⟨.read_container_status (list_root (options_arg (.string id :: rest) 1)) id,
                    r.ret⟩, ⟨.is_container_running status, run.ret⟩] })
        else
          usage_collect H status { world := w2, trace := s.trace
            ++ [⟨.read_container_status (list_root (options_arg (.string id :: rest) 1)) id,
                  r.ret⟩, ⟨.is_container_running status, run.ret⟩] } := by
  have hnot : ¬ r.ret < 0 := by omega
  simp [CrunResourceUsage, cb_arg, napi_get_string, libcrun_read_container_status,
    libcrun_is_container_running, Sys.record, hst, hrun, hnot]

theorem ps_sample_not_error (H : Host W) (status : libcrun_container_status_t) (s : Sys W) :
    (ps_sample H status s).1
      ≠ napi_create_error_obj (-1) (utf8 "container is not running") := by
  simp [ps_sample, napi_create_error_obj, napi_object_of]

theorem error_message_ne :
    napi_create_error_obj (-1) (utf8 "Cannot find cgroup path")
      ≠ napi_create_error_obj (-1) (utf8 "container is not running") := by
  decide

theorem usage_collect_not_error (H : Host W) (status : libcrun_container_status_t)
    (s : Sys W) :
    (usage_collect H status s).1
      ≠ napi_create_error_obj (-1) (utf8 "container is not running") := by
  by_cases h : (usage_cgroup_path H status s).1 = []
  · simp only [usage_collect, h, if_true]
    exact error_message_ne
  · simp only [usage_collect, h, if_false]
    simp [napi_create_error_obj, napi_object_of, NapiProps.ofList]

/-- C14: once the status of the container is read, `ps` and `resourceUsage` call the
running check; when it returns a value `<= 0` they return the error object with message
"container is not running", and the status read and the running check are the only
delegated calls: no file is opened and no snapshot is built. When it returns a value
`> 0` they do not return that error. -/
theorem not_running_is_refused (H : Host W) (s : Sys W) (id : CStr) (rest : List NapiValue)
    (r run : Ret) (status : libcrun_container_status_t) (w1 w2 : W)
    (hst : H.read_container_status (list_root (options_arg (.string id :: rest) 1)) id
      s.world = ((r, status), w1))
    (hok : 0 ≤ r.ret)
    (hrun : H.is_container_running status w1 = (run, w2)) :
    (run.ret ≤ 0 →
      CrunPs H (.string id :: rest) s
        = (napi_object_of [("code", .number (.int (-1))),
            ("message", .string (utf8 "container is not running")),
            ("error", .boolean true)],
           { world := w2, trace := s.trace
              ++ [⟨.read_container_status (list_root (options_arg (.string id :: rest) 1)) id,
                    r.ret⟩, ⟨.is_container_running status, run.ret⟩] })
      ∧ CrunResourceUsage H (.string id :: rest) s
        = (napi_object_of [("code", .number (.int (-1))),
            ("message", .string (utf8 "container is not running")),
            ("error", .boolean true)],
           { world := w2, trace := s.trace
              ++ [⟨.read_container_status (list_root (options_arg (.string id :: rest) 1)) id,
                    r.ret⟩, ⟨.is_container_running status, run.ret⟩] }))
    ∧ (0 < run.ret →
      (CrunPs H (.string id :: rest) s).1
        ≠ napi_object_of [("code", .number (.int (-1))),
            ("message", .string (utf8 "container is not running")),
            ("error", .boolean true)]
      ∧ (CrunResourceUsage H (.string id :: rest) s).1
        ≠ napi_object_of [("code", .number (.int (-1))),
            ("message", .string (utf8 "container is not running")),
            ("error", .boolean true)]) := by
  rw [CrunPs_after_checks H s id rest r run status w1 w2 hst hok hrun,
    CrunResourceUsage_after_checks H s id rest r run status w1 w2 hst hok hrun]
  constructor
  · intro h
    simp only [h, if_true]
    exact ⟨rfl, rfl⟩
  · intro h
    have hn : ¬ run.ret ≤ 0 := by omega
    simp only [hn, if_false]
    exact ⟨ps_sample_not_error H status _, usage_collect_not_error H status _⟩

theorem not_running_is_refused_witness :
    procHost.read_container_status
        (list_root (options_arg [.string (utf8 "web-2")] 1)) (utf8 "web-2")
        ({ world := stoppedWorld, trace := [] } : Sys ProcWorld).world
      = ((⟨0, none⟩, webStatus), stoppedWorld)
    ∧ (0 : Int) ≤ (⟨0, none⟩ : Ret).ret
    ∧ procHost.is_container_running webStatus stoppedWorld = (⟨0, none⟩, stoppedWorld)
    ∧ (((⟨0, none⟩ : Ret).ret ≤ 0 →
        CrunPs procHost [.string (utf8 "web-2")] { world := stoppedWorld, trace := [] }
          = (napi_object_of [("code", .number (.int (-1))),
              ("message", .string (utf8 "container is not running")),
              ("error", .boolean true)],
             { world := stoppedWorld,
               trace := ({ world := stoppedWorld, trace := [] } : Sys ProcWorld).trace
                ++ [⟨.read_container_status
                      (list_root (options_arg [.string (utf8 "web-2")] 1)) (utf8 "web-2"),
                      (⟨0, none⟩ : Ret).ret⟩,
                    ⟨.is_container_running webStatus, (⟨0, none⟩ : Ret).ret⟩] })
        ∧ CrunResourceUsage procHost [.string (utf8 "web-2")]
            { world := stoppedWorld, trace := [] }
          = (napi_object_of [("code", .number (.int (-1))),
              ("message", .string (utf8 "container is not running")),
              ("error", .boolean true)],
             { world := stoppedWorld,
               trace := ({ world := stoppedWorld, trace := [] } : Sys ProcWorld).trace
                ++ [⟨.read_container_status
                      (list_root (options_arg [.string (utf8 "web-2")] 1)) (utf8 "web-2"),
                      (⟨0, none⟩ : Ret).ret⟩,
                    ⟨.is_container_running webStatus, (⟨0, none⟩ : Ret).ret⟩] }))
      ∧ (0 < (⟨0, none⟩ : Ret).ret →
        (CrunPs procHost [.string (utf8 "web-2")]
            { world := stoppedWorld, trace := [] }).1
          ≠ napi_object_of [("code", .number (.int (-1))),
              ("message", .string (utf8 "container is not running")),
              ("error", .boolean true)]
        ∧ (CrunResourceUsage procHost [.string (utf8 "web-2")]
            { world := stoppedWorld, trace := [] }).1
          ≠ napi_object_of [("code", .number (.int (-1))),
              ("message", .string (utf8 "container is not running")),
              ("error", .boolean true)])) :=
  ⟨by decide, by decide, by decide,
    not_running_is_refused procHost { world := stoppedWorld, trace := [] } (utf8 "web-2") []
      ⟨0, none⟩ ⟨0, none⟩ webStatus stoppedWorld stoppedWorld (by decide) (by decide)
      (by decide)⟩

/-! ## Decimal text read back by the scanners -/

theorem toDigitsCore_append : ∀ (fuel n : Nat) (ds : List Char), n < fuel →
    Nat.toDigitsCore 10 fuel n ds = Nat.toDigitsCore 10 (n + 1) n [] ++ ds := by
  intro fuel
  induction fuel using Nat.strong_induction_on with
  | _ fuel ih =>
    intro n ds hn
    cases fuel with
    | zero => omega
    | succ fuel =>
      by_cases h0 : n / 10 = 0
      · simp [Nat.toDigitsCore, h0]
      · have hn10 : n / 10 < n := Nat.div_lt_self (by omega) (by decide)
        have h1 := ih fuel (by omega) (n / 10) (Nat.digitChar (n % 10) :: ds) (by omega)
        have h2 := ih n (by omega) (n / 10) [Nat.digitChar (n % 10)] hn10
        simp only [Nat.toDigitsCore, h0, if_false]
        rw [h1, h2]
        simp

theorem toDigits_small (n : Nat) (h : n < 10) : Nat.toDigits 10 n = [Nat.digitChar n] := by
  have h0 : n / 10 = 0 := Nat.div_eq_of_lt h
  have hm : n % 10 = n := Nat.mod_eq_of_lt h
  simp [Nat.toDigits, Nat.toDigitsCore, h0, hm]

theorem toDigits_large (n : Nat) (h : 10 ≤ n) :
    Nat.toDigits 10 n = Nat.toDigits 10 (n / 10) ++ [Nat.digitChar (n % 10)] := by
  have h0 : ¬ n / 10 = 0 := by
    intro h0
    omega
  have hn10 : n / 10 < n := Nat.div_lt_self (by omega) (by decide)
  have h2 := toDigitsCore_append n (n / 10) [Nat.digitChar (n % 10)] hn10
  simp only [Nat.toDigits, Nat.toDigitsCore, h0, if_false]
  exact h2

theorem utf8_digitChar (d : Nat) (h : d < 10) :
    ∃ b : UInt8, String.utf8EncodeChar (Nat.digitChar d) = [b] ∧ b.toNat = 48 + d := by
  interval_cases d <;> exact ⟨_, rfl, rfl⟩

theorem utf8_nat_small (n : Nat) (h : n < 10) :
    ∃ b : UInt8, utf8 (toString n) = [b] ∧ b.toNat = 48 + n := by
  obtain ⟨b, hb, hv⟩ := utf8_digitChar n h
  refine ⟨b, ?_, hv⟩
  show (Nat.repr n).data.flatMap String.utf8EncodeChar = [b]
  simp [Nat.repr, List.asString, toDigits_small n h, hb]

theorem utf8_nat_large (n : Nat) (h : 10 ≤ n) :
    ∃ b : UInt8, utf8 (toString n) = utf8 (toString (n / 10)) ++ [b]
      ∧ b.toNat = 48 + n % 10 := by
  obtain ⟨b, hb, hv⟩ := utf8_digitChar (n % 10) (Nat.mod_lt _ (by decide))
  refine ⟨b, ?_, hv⟩
  show (Nat.repr n).data.flatMap String.utf8EncodeChar
    = (Nat.repr (n / 10)).data.flatMap String.utf8EncodeChar ++ [b]
  simp [Nat.repr, List.asString, toDigits_large n h, hb]

theorem isdigit_of_toNat (b : UInt8) (d : Nat) (hd : d < 10) (hb : b.toNat = 48 + d) :
    isdigit b = true := by
  simp only [isdigit, hb, Bool.and_eq_true, decide_eq_true_eq]
  omega

/-- The decimal text of a natural number: only digits, not empty, and worth the number. -/
theorem utf8_nat_digits (n : Nat) :
    (∀ b ∈ utf8 (toString n), isdigit b = true)
    ∧ utf8 (toString n) ≠ []
    ∧ digits_value (utf8 (toString n)) = n := by
  induction n using Nat.strong_induction_on with
  | _ n ih =>
    by_cases h : n < 10
    · obtain ⟨b, hb, hv⟩ := utf8_nat_small n h
      rw [hb]
      refine ⟨?_, by simp, ?_⟩
      · intro c hc
        rw [List.mem_singleton.mp hc]
        exact isdigit_of_toNat b n h hv
      · simp [digits_value, hv]
    · obtain ⟨b, hb, hv⟩ := utf8_nat_large n (by omega)
      obtain ⟨h1, h2, h3⟩ := ih (n / 10) (Nat.div_lt_self (by omega) (by decide))
      rw [hb]
      refine ⟨?_, by simp, ?_⟩
      · intro c hc
        rcases List.mem_append.mp hc with hc | hc
        · exact h1 c hc
        · rw [List.mem_singleton.mp hc]
          exact isdigit_of_toNat b (n % 10) (Nat.mod_lt _ (by decide)) hv
      · unfold digits_value at h3 ⊢
        rw [List.foldl_append, h3]
        simp only [List.foldl_cons, List.foldl_nil, hv]
        omega

theorem takeWhile_digits (ds rest : Bytes) (hds : ∀ b ∈ ds, isdigit b = true)
    (hrest : ends_number rest = true) :
    (ds ++ rest).takeWhile isdigit = ds ∧ (ds ++ rest).dropWhile isdigit = rest := by
  induction ds with
  | nil =>
    cases rest with
    | nil => simp
    | cons b t =>
      have hb : isdigit b = false := by simpa [ends_number] using hrest
      simp [List.takeWhile, List.dropWhile, hb]
  | cons d ds ih =>
    have hd : isdigit d = true := hds d (List.mem_cons_self _ _)
    obtain ⟨h1, h2⟩ := ih (fun b hb => hds b (List.mem_cons_of_mem _ hb))
    simp [List.takeWhile, List.dropWhile, hd, h1, h2]

theorem isdigit_toNat (b : UInt8) (h : isdigit b = true) : 48 ≤ b.toNat ∧ b.toNat ≤ 57 := by
  simpa [isdigit] using h

theorem isspace_of_isdigit (b : UInt8) (h : isdigit b = true) : isspace b = false := by
  obtain ⟨h1, h2⟩ := isdigit_toNat b h
  simp only [isspace, Bool.or_eq_false_iff, Bool.and_eq_false_iff, decide_eq_false_iff_not]
  omega

theorem scan_decimal_digits (ds rest : Bytes) (hds : ∀ b ∈ ds, isdigit b = true)
    (hne : ds ≠ []) (hrest : ends_number rest = true) :
    scan_decimal (ds ++ rest) = some ((digits_value ds : Int), rest) := by
  obtain ⟨h1, h2⟩ := takeWhile_digits ds rest hds hrest
  cases ds with
  | nil => exact absurd rfl hne
  | cons d t =>
    obtain ⟨hd1, hd2⟩ := isdigit_toNat d (hds d (List.mem_cons_self _ _))
    have h45 : ¬ d.toNat = 45 := by omega
    have h43 : ¬ d.toNat = 43 := by omega
    simp only [List.cons_append] at h1 h2 ⊢
    simp only [scan_decimal, h45, h43, if_false, h1, h2]
    simp

theorem scan_decimal_minus (ds rest : Bytes) (hds : ∀ b ∈ ds, isdigit b = true)
    (hne : ds ≠ []) (hrest : ends_number rest = true) :
    scan_decimal (45 :: (ds ++ rest)) = some (-(digits_value ds : Int), rest) := by
  obtain ⟨h1, h2⟩ := takeWhile_digits ds rest hds hrest
  have h45 : (45 : UInt8).toNat = 45 := rfl
  simp only [scan_decimal, h45, if_true, h1, h2]
  simp [hne]

theorem utf8_int_neg (m : Nat) :
    utf8 (toString (Int.negSucc m)) = 45 :: utf8 (toString (m + 1)) := by
  show ("-" ++ toString (m + 1)).data.flatMap String.utf8EncodeChar
    = 45 :: (toString (m + 1)).data.flatMap String.utf8EncodeChar
  rw [String.data_append]
  rfl

/-- A decimal conversion reads the decimal text of an integer back, up to an input that
cannot continue the number. -/
theorem scan_decimal_int (z : Int) (rest : Bytes) (hrest : ends_number rest = true) :
    scan_decimal (utf8 (toString z) ++ rest) = some (z, rest) := by
  cases z with
  | ofNat m =>
    obtain ⟨h1, h2, h3⟩ := utf8_nat_digits m
    have := scan_decimal_digits (utf8 (toString m)) rest h1 h2 hrest
    rw [h3] at this
    exact this
  | negSucc m =>
    obtain ⟨h1, h2, h3⟩ := utf8_nat_digits (m + 1)
    have := scan_decimal_minus (utf8 (toString (m + 1))) rest h1 h2 hrest
    rw [h3] at this
    rw [utf8_int_neg, List.cons_append, this]
    rfl

theorem skip_space_int (z : Int) (rest : Bytes) :
    skip_space (utf8 (toString z) ++ rest) = utf8 (toString z) ++ rest := by
  cases z with
  | ofNat m =>
    obtain ⟨h1, h2, -⟩ := utf8_nat_digits m
    show skip_space (utf8 (toString m) ++ rest) = utf8 (toString m) ++ rest
    cases hm : utf8 (toString m) with
    | nil => exact absurd hm h2
    | cons b t =>
      have hb := isspace_of_isdigit b (h1 b (by rw [hm]; exact List.mem_cons_self _ _))
      simp [skip_space, List.dropWhile, hb]
  | negSucc m =>
    rw [utf8_int_neg]
    have : isspace 45 = false := by decide
    simp [skip_space, List.dropWhile, this]

theorem to_int_of_range (z : Int) (h0 : -(2 : Int) ^ 31 ≤ z) (h1 : z < 2 ^ 31) :
    to_int z = z := by
  unfold to_int
  rw [clamp_int64_of_range z (by omega) (by omega)]
  unfold wrap_int32
  omega

/-- `%d` reads the decimal text of an `int` back. -/
theorem scan_d_int (z : Int) (rest : Bytes) (hrest : ends_number rest = true)
    (h0 : -(2 : Int) ^ 31 ≤ z) (h1 : z < 2 ^ 31) :
    scan_d (utf8 (toString z) ++ rest) = some (z, rest) := by
  simp [scan_d, skip_space_int, scan_decimal_int z rest hrest, to_int_of_range z h0 h1]

theorem scan_d_space (b : UInt8) (input : Bytes) (hb : isspace b = true) :
    scan_d (b :: input) = scan_d input := by
  simp [scan_d, skip_space, List.dropWhile, hb]

theorem scan_lu_space (b : UInt8) (input : Bytes) (hb : isspace b = true) :
    scan_lu (b :: input) = scan_lu input := by
  simp [scan_lu, skip_space, List.dropWhile, hb]

/-- `%lu` reads the decimal text of an integer back as `strtoul` converts it. -/
theorem scan_lu_int (z : Int) (rest : Bytes) (hrest : ends_number rest = true) :
    scan_lu (utf8 (toString z) ++ rest) = some (to_ulong z, rest) := by
  simp [scan_lu, skip_space_int, scan_decimal_int z rest hrest]

theorem to_ulong_of_range (n : Nat) (h : n < 2 ^ 64) : to_ulong (n : Int) = n := by
  unfold to_ulong
  have h1 : ¬ ((n : Int) ≥ 2 ^ 64 ∨ (n : Int) ≤ -(2 : Int) ^ 64) := by omega
  rw [if_neg h1]
  omega

/-- `atoi` reads the decimal text of an `int` back. -/
theorem atoi_int (z : Int) (rest : Bytes) (hrest : ends_number rest = true)
    (h0 : -(2 : Int) ^ 31 ≤ z) (h1 : z < 2 ^ 31) :
    atoi (utf8 (toString z) ++ rest) = z := by
  simp [atoi, skip_space_int, scan_decimal_int z rest hrest, to_int_of_range z h0 h1]

/-! ## The line and integer loops end within their fuel -/

theorem take_line_rejoin : ∀ (n : Nat) (stream : Bytes),
    take_line n stream ++ stream.drop (take_line n stream).length = stream
  | 0, _ => by simp [take_line]
  | _ + 1, [] => by simp [take_line]
  | n + 1, b :: t => by
    by_cases hb : b.toNat = 10
    · simp [take_line, hb]
    · simp [take_line, hb, take_line_rejoin n t]

theorem take_line_pos (n : Nat) (stream : Bytes) (hn : 0 < n) (hs : stream ≠ []) :
    0 < (take_line n stream).length := by
  cases n with
  | zero => omega
  | succ n =>
    cases stream with
    | nil => exact absurd rfl hs
    | cons b t =>
      by_cases hb : b.toNat = 10 <;> simp [take_line, hb]

theorem fgets_some (size : Nat) (stream line rest : Bytes) (hsize : 2 ≤ size)
    (h : fgets size stream = some (line, rest)) :
    line ++ rest = stream ∧ 0 < line.length := by
  unfold fgets at h
  by_cases hs : stream = []
  · simp [hs] at h
  · simp only [hs, if_false, Option.some.injEq, Prod.mk.injEq] at h
    obtain ⟨h1, h2⟩ := h
    subst h1 h2
    exact ⟨take_line_rejoin _ _, take_line_pos _ _ (by omega) hs⟩

theorem fgets_loop_fuel (size : Nat) (hsize : 2 ≤ size) : ∀ (n : Nat) (stream : Bytes),
    stream.length ≤ n → ∀ fuel, stream.length ≤ fuel →
      fgets_loop size fuel stream = fgets_loop size stream.length stream := by
  intro n
  induction n with
  | zero =>
    intro stream hn fuel _
    have hs : stream = [] := List.length_eq_zero.mp (by omega)
    subst hs
    cases fuel <;> simp [fgets_loop, fgets]
  | succ n ih =>
    intro stream hn fuel hfuel
    cases hfg : fgets size stream with
    | none =>
      cases fuel <;> cases hl : stream.length <;> simp [fgets_loop, hfg]
    | some lr =>
      obtain ⟨line, rest⟩ := lr
      obtain ⟨hcat, hpos⟩ := fgets_some size stream line rest hsize hfg
      have hlen : stream.length = line.length + rest.length := by
        rw [← hcat, List.length_append]
      cases fuel with
      | zero => omega
      | succ fuel =>
        cases hl : stream.length with
        | zero => omega
        | succ k =>
          simp only [fgets_loop, hfg]
          rw [ih rest (by omega) fuel (by omega), ih rest (by omega) k (by omega)]

/-- The line loop reads a first line that fits the buffer whole, and goes on with the
rest of the stream. -/
theorem fgets_lines_cons (size : Nat) (text rest : Bytes) (hnl : ∀ b ∈ text, b.toNat ≠ 10)
    (hlen : text.length + 2 ≤ size) :
    fgets_lines size (text ++ 10 :: rest) = (text ++ [10]) :: fgets_lines size rest := by
  have htl : ∀ (n : Nat) (text : Bytes), (∀ b ∈ text, b.toNat ≠ 10) → text.length < n →
      take_line n (text ++ 10 :: rest) = text ++ [10] := by
    intro n
    induction n with
    | zero => intro text _ h; omega
    | succ n ih =>
      intro text hnl hlen
      cases text with
      | nil => simp [take_line]
      | cons b t =>
        have hb : b.toNat ≠ 10 := hnl b (List.mem_cons_self _ _)
        have := ih t (fun c hc => hnl c (List.mem_cons_of_mem _ hc))
          (by simp at hlen; omega)
        simp [take_line, hb, this]
  have h1 := htl (size - 1) text hnl (by omega)
  have hfg : fgets size (text ++ 10 :: rest) = some (text ++ [10], rest) := by
    unfold fgets
    rw [h1]
    simp
  unfold fgets_lines
  have hl : (text ++ 10 :: rest).length = (text.length + rest.length) + 1 := by
    simp
    omega
  rw [hl]
  simp only [fgets_loop, hfg]
  rw [fgets_loop_fuel size (by omega) (text.length + rest.length) rest (by omega)
    (text.length + rest.length) (by omega)]

theorem fgets_lines_nil (size : Nat) : fgets_lines size [] = [] := by
  simp [fgets_lines, fgets_loop]

theorem scan_decimal_shorter (input rest : Bytes) (v : Int)
    (h : scan_decimal input = some (v, rest)) : rest.length < input.length := by
  have hlen : ∀ l : Bytes, l.takeWhile isdigit ≠ [] →
      (l.dropWhile isdigit).length < l.length := by
    intro l hl
    have h1 := congrArg List.length (List.takeWhile_append_dropWhile isdigit l)
    have h2 : 0 < (l.takeWhile isdigit).length := List.length_pos.mpr hl
    rw [List.length_append] at h1
    omega
  cases input with
  | nil => simp [scan_decimal] at h
  | cons b t =>
    simp only [scan_decimal] at h
    split_ifs at h with h45 ht h43 ht2 ht3
    · simp only [Option.some.injEq, Prod.mk.injEq] at h
      have := hlen t ht
      rw [← h.2]
      simp
      omega
    · simp only [Option.some.injEq, Prod.mk.injEq] at h
      have := hlen t ht2
      rw [← h.2]
      simp
      omega
    · simp only [Option.some.injEq, Prod.mk.injEq] at h
      have := hlen (b :: t) ht3
      rw [← h.2]
      exact this

theorem scan_d_shorter (input rest : Bytes) (v : Int) (h : scan_d input = some (v, rest)) :
    rest.length < input.length := by
  unfold scan_d at h
  cases hd : scan_decimal (skip_space input) with
  | none => simp [hd] at h
  | some vr =>
    obtain ⟨v1, r1⟩ := vr
    simp only [hd, Option.some.injEq, Prod.mk.injEq] at h
    have h1 := scan_decimal_shorter _ _ _ hd
    have h2 : (skip_space input).length ≤ input.length := by
      have := congrArg List.length (List.takeWhile_append_dropWhile isspace input)
      rw [List.length_append] at this
      unfold skip_space
      omega
    rw [← h.2]
    omega

theorem scan_ints_loop_fuel : ∀ (n : Nat) (input : Bytes),
    input.length ≤ n → ∀ fuel, input.length ≤ fuel →
      scan_ints_loop fuel input = scan_ints_loop input.length input := by
  intro n
  induction n with
  | zero =>
    intro input hn fuel _
    have hs : input = [] := List.length_eq_zero.mp (by omega)
    subst hs
    cases fuel <;> simp [scan_ints_loop, scan_d, skip_space, scan_decimal]
  | succ n ih =>
    intro input hn fuel hfuel
    cases hsd : scan_d input with
    | none =>
      cases fuel <;> cases hl : input.length <;> simp [scan_ints_loop, hsd]
    | some vr =>
      obtain ⟨v, rest⟩ := vr
      have hshort := scan_d_shorter input rest v hsd
      cases fuel with
      | zero => omega
      | succ fuel =>
        cases hl : input.length with
        | zero => omega
        | succ k =>
          simp only [scan_ints_loop, hsd]
          rw [ih rest (by omega) fuel (by omega), ih rest (by omega) k (by omega)]

/-! ## Discovery of the PIDs -/

theorem utf8_int_bytes (z : Int) : ∀ b ∈ utf8 (toString z), isdigit b = true ∨ b = 45 := by
  cases z with
  | ofNat m =>
    intro b hb
    exact Or.inl ((utf8_nat_digits m).1 b hb)
  | negSucc m =>
    intro b hb
    rw [utf8_int_neg] at hb
    rcases List.mem_cons.mp hb with h | h
    · exact Or.inr h
    · exact Or.inl ((utf8_nat_digits (m + 1)).1 b h)

theorem utf8_int_byte_toNat (z : Int) (b : UInt8) (hb : b ∈ utf8 (toString z)) :
    45 ≤ b.toNat ∧ b.toNat ≤ 57 := by
  rcases utf8_int_bytes z b hb with h | h
  · have := isdigit_toNat b h
    omega
  · subst h
    decide

theorem atoi_line (p : Int) (h0 : -(2 : Int) ^ 31 ≤ p) (h1 : p < 2 ^ 31) :
    atoi (c_str (utf8 (toString p) ++ [10])) = p := by
  have hnul : ∀ b ∈ utf8 (toString p) ++ [10], b ≠ 0 := by
    intro b hb
    rcases List.mem_append.mp hb with h | h
    · have := utf8_int_byte_toNat p b h
      intro h0
      rw [h0] at this
      simp at this
    · rw [List.mem_singleton.mp h]
      decide
  rw [c_str_of_no_nul _ hnul]
  exact atoi_int p [10] (by decide) h0 h1

theorem cgroup_procs_pids_of_lines : ∀ ps : List Int,
    (∀ p ∈ ps, -(2 : Int) ^ 31 ≤ p ∧ p < 2 ^ 31) →
    cgroup_procs_pids (fgets_lines 64 (lines_of_ints ps)) = ps.filter (fun p => 0 < p) := by
  intro ps
  induction ps with
  | nil =>
    intro _
    simp [lines_of_ints, fgets_lines_nil, cgroup_procs_pids]
  | cons p ps ih =>
    intro h
    obtain ⟨h0, h1⟩ := h p (List.mem_cons_self _ _)
    have ih2 := ih (fun q hq => h q (List.mem_cons_of_mem _ hq))
    have hnl : ∀ b ∈ utf8 (toString p), b.toNat ≠ 10 := by
      intro b hb
      have := utf8_int_byte_toNat p b hb
      omega
    have hlen := utf8_int_length p (by omega) (by omega)
    have hcons : lines_of_ints (p :: ps) = utf8 (toString p) ++ 10 :: lines_of_ints ps := by
      simp [lines_of_ints]
    rw [hcons, fgets_lines_cons 64 _ _ hnl (by omega)]
    unfold cgroup_procs_pids at ih2 ⊢
    simp only [List.map_cons, atoi_line p h0 h1]
    by_cases hp : 0 < p
    · simp [List.filter_cons, hp, ih2]
    · simp [List.filter_cons, hp, ih2]

theorem scan_ints_cons (p : Int) (rest : Bytes) (h0 : -(2 : Int) ^ 31 ≤ p)
    (h1 : p < 2 ^ 31) :
    scan_ints (utf8 (toString p) ++ 32 :: rest) = p :: scan_ints rest := by
  have hsd : scan_d (utf8 (toString p) ++ 32 :: rest) = some (p, 32 :: rest) :=
    scan_d_int p (32 :: rest) rfl h0 h1
  have hne : utf8 (toString p) ≠ [] := by
    cases p with
    | ofNat m => exact (utf8_nat_digits m).2.1
    | negSucc m => rw [utf8_int_neg]; simp
  have hpos : 0 < (utf8 (toString p)).length := List.length_pos.mpr hne
  have hl : (utf8 (toString p) ++ 32 :: rest).length
      = ((utf8 (toString p)).length + rest.length) + 1 := by
    simp
    omega
  unfold scan_ints
  rw [hl]
  simp only [scan_ints_loop, hsd]
  have hstep : ∀ fuel, 0 < fuel →
      scan_ints_loop fuel (32 :: rest) = scan_ints_loop fuel rest := by
    intro fuel hf
    cases fuel with
    | zero => omega
    | succ fuel =>
      simp only [scan_ints_loop, scan_d_space 32 rest (by decide)]
  rw [hstep _ (by omega),
    scan_ints_loop_fuel ((utf8 (toString p)).length + rest.length) rest (by omega)
      ((utf8 (toString p)).length + rest.length) (by omega)]

theorem scan_ints_blank_separated (tail : Bytes) (htail : scan_d tail = none) :
    ∀ ps : List Int, (∀ p ∈ ps, -(2 : Int) ^ 31 ≤ p ∧ p < 2 ^ 31) →
    scan_ints (blank_separated ps ++ tail) = ps := by
  intro ps
  induction ps with
  | nil =>
    intro _
    cases hl : tail.length <;> simp [blank_separated, scan_ints, hl, scan_ints_loop, htail]
  | cons p ps ih =>
    intro h
    obtain ⟨h0, h1⟩ := h p (List.mem_cons_self _ _)
    have ih2 := ih (fun q hq => h q (List.mem_cons_of_mem _ hq))
    have hcons : blank_separated (p :: ps) ++ tail
        = utf8 (toString p) ++ 32 :: (blank_separated ps ++ tail) := by
      simp [blank_separated]
    rw [hcons, scan_ints_cons p _ h0 h1, ih2]

/-- C15: the PID list `ps` samples for a running container. When the cgroup path is known
and `cgroup.procs` under it opens and lists at least one positive integer, the list is the
positive integers of its lines, in file order (each line read by `fgets` into 64 bytes
and converted by `atoi`, so that a line without a leading number, or with a number
`<= 0`, is dropped). Otherwise (path unknown, file unreadable or no positive entry) it is
the recorded main PID followed by the integers of the children file of that PID in order,
and just the main PID when that file does not open. It is never empty. For a file that
lists `int` values one per line the first list is these values less the non-positive
ones; for a children file that lists `int` values each followed by a blank the second
list is the main PID followed by these values. -/
theorem ps_discovery (H : Host W) (status : libcrun_container_status_t) (s : Sys W) :
    (ps_cgroup_pids H status s).1
      = (match status.cgroup_path with
         | none => []
         | some cgroup_path =>
           match (H.fopen (snprintf_buf PATH_MAX
              (utf8 "/sys/fs/cgroup/" ++ cgroup_path ++ utf8 "/cgroup.procs")) s.world).1 with
           | none => []
           | some content => cgroup_procs_pids (fgets_lines 64 content))
    ∧ ((ps_cgroup_pids H status s).1 ≠ [] →
        ps_discover H status s = ps_cgroup_pids H status s)
    ∧ ((ps_cgroup_pids H status s).1 = [] →
        (ps_discover H status s).1
          = (match (H.fopen (children_path status.pid)
                (ps_cgroup_pids H status s).2.world).1 with
             | none => [status.pid]
             | some content => status.pid :: scan_ints content))
    ∧ (ps_discover H status s).1 ≠ []
    ∧ (ps_sample H status s).1
        = .array (NapiItems.ofList
            (ps_loop H (ps_discover H status s).1 0 [] (ps_discover H status s).2).1)
    ∧ (∀ lines : List Bytes, cgroup_procs_pids lines
        = (lines.map (fun line => atoi (c_str line))).filter (fun p => 0 < p))
    ∧ (∀ ps : List Int, (∀ p ∈ ps, -(2 : Int) ^ 31 ≤ p ∧ p < 2 ^ 31) →
        cgroup_procs_pids (fgets_lines 64 (lines_of_ints ps)) = ps.filter (fun p => 0 < p))
    ∧ (∀ (ps : List Int) (tail : Bytes), scan_d tail = none →
        (∀ p ∈ ps, -(2 : Int) ^ 31 ≤ p ∧ p < 2 ^ 31) →
        scan_ints (blank_separated ps ++ tail) = ps) := by
  refine ⟨?_, ?_, ?_, ?_, rfl, fun _ => rfl, cgroup_procs_pids_of_lines,
    fun ps tail ht hp => scan_ints_blank_separated tail ht ps hp⟩
  · unfold ps_cgroup_pids
    cases status.cgroup_path with
    | none => rfl
    | some cgroup_path =>
      simp only [fopen]
      cases (H.fopen (snprintf_buf PATH_MAX
        (utf8 "/sys/fs/cgroup/" ++ cgroup_path ++ utf8 "/cgroup.procs")) s.world).1 <;> rfl
  · intro h
    simp only [ps_discover, h, if_false]
  · intro h
    simp only [ps_discover, h, if_true, fopen]
    cases (H.fopen (children_path status.pid) (ps_cgroup_pids H status s).2.world).1 <;> rfl
  · by_cases h : (ps_cgroup_pids H status s).1 = []
    · simp only [ps_discover, h, if_true, fopen]
      cases (H.fopen (children_path status.pid) (ps_cgroup_pids H status s).2.world).1
        <;> simp
    · simp only [ps_discover, h, if_false]
      exact h

/-! ## One snapshot per PID -/

theorem napi_set_element_end (items : List NapiValue) (value : NapiValue) :
    napi_set_element items items.length value = items ++ [value] := by
  simp [napi_set_element]

theorem ps_loop_eq (H : Host W) : ∀ (pids : List Int) (result : List NapiValue) (s : Sys W),
    result.length + pids.length ≤ 2 ^ 32 →
    ps_loop H pids result.length result s
      = (result ++ (ps_snapshots H pids s).1, (ps_snapshots H pids s).2) := by
  intro pids
  induction pids with
  | nil => intro result s _; simp [ps_loop, ps_snapshots]
  | cons pid rest ih =>
    intro result s h
    have hlen : (pid :: rest).length = rest.length + 1 := rfl
    have hmod : result.length % 2 ^ 32 = result.length := Nat.mod_eq_of_lt (by omega)
    have hih := ih (result ++ [(read_ps_info H pid s).1]) (read_ps_info H pid s).2
      (by simp; omega)
    simp only [ps_loop, ps_snapshots, hmod, napi_set_element_end]
    rw [show result.length + 1 = (result ++ [(read_ps_info H pid s).1]).length by simp, hih]
    simp

theorem ps_snapshots_forall (H : Host W) : ∀ (pids : List Int) (s : Sys W),
    List.Forall₂ (fun pid snap => ∃ s1 : Sys W, snap = (read_ps_info H pid s1).1) pids
      (ps_snapshots H pids s).1 := by
  intro pids
  induction pids with
  | nil => intro s; exact List.Forall₂.nil
  | cons pid rest ih =>
    intro s
    exact List.Forall₂.cons ⟨s, rfl⟩ (ih _)

theorem snprintf_int32 (n : Int) (h0 : -(2 : Int) ^ 31 ≤ n) (h1 : n < 2 ^ 31) :
    snprintf_int 32 n = utf8 (toString n) := by
  unfold snprintf_int
  exact List.take_of_length_le
    (by have := utf8_int_length n (by omega) (by omega); omega)

theorem read_ps_info_pid (H : Host W) (pid : Int) (s : Sys W) :
    napi_named_property (read_ps_info H pid s).1 "PID"
      = some (.string (snprintf_int 32 pid)) := by
  cases h : (H.fopen (proc_path pid "/stat") s.world).1 with
  | none =>
    simp [read_ps_info, fopen, h, napi_named_property, napi_object_of, NapiProps.ofList,
      NapiProps.find]
  | some content =>
    simp only [read_ps_info, fopen, h]
    split_ifs <;>
      simp [napi_named_property, napi_object_of, NapiProps.ofList, NapiProps.find]

theorem read_ps_info_vanished (H : Host W) (pid : Int) (s : Sys W)
    (h : (H.fopen (proc_path pid "/stat") s.world).1 = none) :
    read_ps_info H pid s
      = (napi_object_of
          [("PID", .string (snprintf_int 32 pid)), ("PPID", .string (utf8 "0")),
           ("UID", .string (utf8 "0")), ("STIME", .string (utf8 "0")),
           ("TTY", .string (utf8 "0")), ("TIME", .string (utf8 "0")),
           ("C", .string (utf8 "0")), ("CMD", .string (utf8 "unknown"))],
         { world := (H.fopen (proc_path pid "/stat") s.world).2,
           trace := s.trace ++ [⟨.fopen (proc_path pid "/stat"), 0⟩] }) := by
  simp [read_ps_info, fopen, h, ps_zero_fields]

/-- C16: for a running container whose status was read, `ps` returns an array (not an
error) with exactly one snapshot per discovered PID, in discovery order, each made by
`read_ps_info` for that PID and carrying the decimal text of the PID as `PID`; for a PID
whose stat file cannot be opened the snapshot has `PPID`, `UID`, `STIME`, `TTY`, `TIME`
and `C` equal to "0" and `CMD` equal to "unknown". The index of the array is a
`uint32_t`, hence the bound on the number of PIDs. -/
theorem ps_one_snapshot_per_pid (H : Host W) (s : Sys W) (id : CStr) (rest : List NapiValue)
    (r run : Ret) (status : libcrun_container_status_t) (w1 w2 : W)
    (hst : H.read_container_status (list_root (options_arg (.string id :: rest) 1)) id
      s.world = ((r, status), w1))
    (hok : 0 ≤ r.ret)
    (hrun : H.is_container_running status w1 = (run, w2))
    (hpos : 0 < run.ret)
    (hlen : (ps_discover H status { world := w2, trace := s.trace
        ++ [⟨.read_container_status (list_root (options_arg (.string id :: rest) 1)) id,
              r.ret⟩, ⟨.is_container_running status, run.ret⟩] }).1.length ≤ 2 ^ 32) :
    (∃ snaps : List NapiValue,
      (CrunPs H (.string id :: rest) s).1 = .array (NapiItems.ofList snaps)
      ∧ List.Forall₂ (fun pid snap => ∃ s1 : Sys W, snap = (read_ps_info H pid s1).1)
          (ps_discover H status { world := w2, trace := s.trace
            ++ [⟨.read_container_status (list_root (options_arg (.string id :: rest) 1)) id,
                  r.ret⟩, ⟨.is_container_running status, run.ret⟩] }).1 snaps)
    ∧ (∀ (pid : Int) (s1 : Sys W),
        napi_named_property (read_ps_info H pid s1).1 "PID"
          = some (.string (snprintf_int 32 pid)))
    ∧ (∀ pid : Int, -(2 : Int) ^ 31 ≤ pid → pid < 2 ^ 31 →
        snprintf_int 32 pid = utf8 (toString pid))
    ∧ (∀ (pid : Int) (s1 : Sys W), (H.fopen (proc_path pid "/stat") s1.world).1 = none →
        (read_ps_info H pid s1).1
          = napi_object_of
              [("PID", .string (snprintf_int 32 pid)), ("PPID", .string (utf8 "0")),
               ("UID", .string (utf8 "0")), ("STIME", .string (utf8 "0")),
               ("TTY", .string (utf8 "0")), ("TIME", .string (utf8 "0")),
               ("C", .string (utf8 "0")), ("CMD", .string (utf8 "unknown"))]) := by
  refine ⟨?_, read_ps_info_pid H, snprintf_int32, ?_⟩
  · rw [CrunPs_after_checks H s id rest r run status w1 w2 hst hok hrun]
    have hn : ¬ run.ret ≤ 0 := by omega
    simp only [hn, if_false, ps_sample]
    have h := ps_loop_eq H
      (ps_discover H status { world := w2, trace := s.trace
        ++ [⟨.read_container_status (list_root (options_arg (.string id :: rest) 1)) id,
              r.ret⟩, ⟨.is_container_running status, run.ret⟩] }).1 []
      (ps_discover H status { world := w2, trace := s.trace
        ++ [⟨.read_container_status (list_root (options_arg (.string id :: rest) 1)) id,
              r.ret⟩, ⟨.is_container_running status, run.ret⟩] }).2
      (by simpa using hlen)
    simp only [List.length_nil, List.nil_append] at h
    rw [h]
    exact ⟨_, rfl, ps_snapshots_forall H _ _⟩
  · intro pid s1 h
    rw [read_ps_info_vanished H pid s1 h]

theorem ps_one_snapshot_per_pid_witness :
    procHost.read_container_status
        (list_root (options_arg [.string (utf8 "web-2")] 1)) (utf8 "web-2")
        runningSys.world
      = ((⟨0, none⟩, webStatus), runningWorld)
    ∧ (0 : Int) ≤ (⟨0, none⟩ : Ret).ret
    ∧ procHost.is_container_running webStatus runningWorld = (⟨1, none⟩, runningWorld)
    ∧ 0 < (⟨1, none⟩ : Ret).ret
    ∧ (ps_discover procHost webStatus ⟨runningWorld, runningSys.trace
          ++ [⟨.read_container_status
                (list_root (options_arg [.string (utf8 "web-2")] 1)) (utf8 "web-2"),
                (⟨0, none⟩ : Ret).ret⟩,
              ⟨.is_container_running webStatus, (⟨1, none⟩ : Ret).ret⟩]⟩).1.length ≤ 2 ^ 32
    ∧ ((∃ snaps : List NapiValue,
        (CrunPs procHost [.string (utf8 "web-2")]
            runningSys).1 = .array (NapiItems.ofList snaps)
        ∧ List.Forall₂
            (fun pid snap => ∃ s1 : Sys ProcWorld, snap = (read_ps_info procHost pid s1).1)
            (ps_discover procHost webStatus ⟨runningWorld, runningSys.trace
                ++ [⟨.read_container_status
                      (list_root (options_arg [.string (utf8 "web-2")] 1)) (utf8 "web-2"),
                      (⟨0, none⟩ : Ret).ret⟩,
                    ⟨.is_container_running webStatus, (⟨1, none⟩ : Ret).ret⟩]⟩).1 snaps)
      ∧ (∀ (pid : Int) (s1 : Sys ProcWorld),
          napi_named_property (read_ps_info procHost pid s1).1 "PID"
            = some (.string (snprintf_int 32 pid)))
      ∧ (∀ pid : Int, -(2 : Int) ^ 31 ≤ pid → pid < 2 ^ 31 →
          snprintf_int 32 pid = utf8 (toString pid))
      ∧ (∀ (pid : Int) (s1 : Sys ProcWorld),
          (procHost.fopen (proc_path pid "/stat") s1.world).1 = none →
          (read_ps_info procHost pid s1).1
            = napi_object_of
                [("PID", .string (snprintf_int 32 pid)), ("PPID", .string (utf8 "0")),
                 ("UID", .string (utf8 "0")), ("STIME", .string (utf8 "0")),
                 ("TTY", .string (utf8 "0")), ("TIME", .string (utf8 "0")),
                 ("C", .string (utf8 "0")), ("CMD", .string (utf8 "unknown"))])) :=
  ⟨by decide, by decide, by decide, by decide, by decide,
    ps_one_snapshot_per_pid procHost runningSys (utf8 "web-2") []
      ⟨0, none⟩ ⟨1, none⟩ webStatus runningWorld runningWorld (by decide) (by decide)
      (by decide) (by decide) (by decide)⟩

/-- The run of `ps` on the evaluation world: process 7 is sampled from its stat and
status files, and process 9, whose stat file does not open, gets the zeroed snapshot. -/
theorem ps_running_world :
    (CrunPs procHost [.string (utf8 "web-2")] runningSys).1
      = .array (NapiItems.ofList
          [napi_object_of
            [("PID", .string (utf8 "7")), ("PPID", .string (utf8 "1")),
             ("CMD", .string (utf8 "(my prog)")), ("UID", .string (utf8 "1000")),
             ("STIME", .string (utf8 "5")), ("TTY", .string (utf8 "5")),
             ("TIME", .string (utf8 "8")), ("C", .string (utf8 "0"))],
           napi_object_of
            [("PID", .string (utf8 "9")), ("PPID", .string (utf8 "0")),
             ("UID", .string (utf8 "0")), ("STIME", .string (utf8 "0")),
             ("TTY", .string (utf8 "0")), ("TIME", .string (utf8 "0")),
             ("C", .string (utf8 "0")), ("CMD", .string (utf8 "unknown"))]]) := by
  decide

/-! ## The stat line of a command name with a closing parenthesis -/

/-- C17, the code run on the stat line `7 (a)b) S 1 7 5 0 ...` of a process named `a)b`:
the first scan stops the name at the first `)`, reads `b` as the state and fails on the
next `)`, so three conversions are made; `strchr` finds the first `)`, at index 4 and not
at index 6; and the snapshot is the one of an unparsed line, with the command `(a)` and
the parent PID "0" in place of `a)b` and "1". -/
theorem stat_name_with_rparen_is_cut_at_first :
    (fscanf_stat
        (utf8 "7 (a)b) S 1 7 5 0 -1 4194560 100 0 0 0 500 300 0 0 20 0 1 0 100 10 20\n")
        (procHost.uninit 7)).1 = 3
    ∧ (fscanf_stat
        (utf8 "7 (a)b) S 1 7 5 0 -1 4194560 100 0 0 0 500 300 0 0 20 0 1 0 100 10 20\n")
        (procHost.uninit 7)).2.comm = utf8 "a"
    ∧ strchr (utf8 "7 (a)b) S 1 7 5 0 -1 4194560 100 0 0 0 500 300 0 0 20 0 1 0 100 10 20\n")
        41 = some 4
    ∧ (read_ps_info procHost 7 ⟨parenWorld, []⟩).1
      = napi_object_of
          [("PID", .string (utf8 "7")), ("PPID", .string (utf8 "0")),
           ("UID", .string (utf8 "0")), ("STIME", .string (utf8 "0")),
           ("TTY", .string (utf8 "0")), ("TIME", .string (utf8 "0")),
           ("C", .string (utf8 "0")), ("CMD", .string (utf8 "(a)"))]
    ∧ (CrunPs procHost [.string (utf8 "web-2")] ⟨parenWorld, []⟩).1
      = .array (NapiItems.ofList
          [napi_object_of
            [("PID", .string (utf8 "7")), ("PPID", .string (utf8 "0")),
             ("UID", .string (utf8 "0")), ("STIME", .string (utf8 "0")),
             ("TTY", .string (utf8 "0")), ("TIME", .string (utf8 "0")),
             ("C", .string (utf8 "0")), ("CMD", .string (utf8 "(a)"))]]) := by
  refine ⟨by decide, by decide, by decide, by decide, by decide⟩

/-! ## The two scans of a well-formed stat line -/

theorem takeWhile_append_stop (p : UInt8 → Bool) (l x : Bytes) (hl : ∀ b ∈ l, p b = true)
    (hx : x.takeWhile p = []) : (l ++ x).takeWhile p = l := by
  induction l with
  | nil => simpa using hx
  | cons a t ih =>
    have ha : p a = true := hl a (List.mem_cons_self _ _)
    simp only [List.cons_append, List.takeWhile_cons, ha, if_true]
    rw [ih (fun b hb => hl b (List.mem_cons_of_mem _ hb))]

/-- `%255[^)]` reads a name of at most 255 bytes without `)` up to the `)` after it. -/
theorem scan_not_rparen_comm (comm rest : Bytes) (hne : comm ≠ [])
    (hlen : comm.length ≤ 255) (hno : ∀ b ∈ comm, b.toNat ≠ 41) :
    scan_not_rparen 255 (comm ++ 41 :: rest) = some (comm, 41 :: rest) := by
  have h1 : ((comm ++ 41 :: rest).take 255).takeWhile (fun b => b.toNat ≠ 41) = comm := by
    rw [List.take_append_eq_append_take, List.take_of_length_le hlen]
    apply takeWhile_append_stop
    · intro b hb
      simpa using hno b hb
    · cases 255 - comm.length with
      | zero => simp
      | succ k => simp
  unfold scan_not_rparen
  rw [h1]
  simp [hne]

theorem skip_space_blank (b : UInt8) (x : Bytes) (hb : isspace b = false) :
    skip_space (32 :: b :: x) = b :: x := by
  have h32 : isspace 32 = true := by decide
  simp [skip_space, List.dropWhile_cons, h32, hb]

theorem scan_d_int_blank (z : Int) (rest : Bytes) (h : -(2 : Int) ^ 31 ≤ z ∧ z < 2 ^ 31) :
    scan_d (utf8 (toString z) ++ 32 :: rest) = some (z, 32 :: rest) :=
  scan_d_int z (32 :: rest) rfl h.1 h.2

theorem scan_d_blank_int (z : Int) (rest : Bytes) (h : -(2 : Int) ^ 31 ≤ z ∧ z < 2 ^ 31) :
    scan_d (32 :: (utf8 (toString z) ++ 32 :: rest)) = some (z, 32 :: rest) := by
  rw [scan_d_space 32 _ (by decide), scan_d_int_blank z rest h]

theorem scan_lu_blank_int (z : Int) (rest : Bytes) (hrest : ends_number rest = true) :
    scan_lu (32 :: (utf8 (toString z) ++ rest)) = some (to_ulong z, rest) := by
  rw [scan_lu_space 32 _ (by decide), scan_lu_int z _ hrest]

theorem scan_lu_blank_int_blank (z : Int) (rest : Bytes) :
    scan_lu (32 :: (utf8 (toString z) ++ 32 :: rest)) = some (to_ulong z, 32 :: rest) :=
  scan_lu_blank_int z _ rfl

/-- The four `%d` after the state read four blank-separated `int` fields back. -/
theorem scan_four_text (a b c d : Int) (rest : Bytes) (v : ps_locals)
    (ha : -(2 : Int) ^ 31 ≤ a ∧ a < 2 ^ 31) (hb : -(2 : Int) ^ 31 ≤ b ∧ b < 2 ^ 31)
    (hc : -(2 : Int) ^ 31 ≤ c ∧ c < 2 ^ 31) (hd : -(2 : Int) ^ 31 ≤ d ∧ d < 2 ^ 31) :
    scan_four (32 :: (utf8 (toString a) ++ 32 :: (utf8 (toString b)
        ++ 32 :: (utf8 (toString c) ++ 32 :: (utf8 (toString d) ++ 32 :: rest))))) v
      = (4, { v with ppid := a, pgrp := b, session := c, tty_nr := d }, 32 :: rest) := by
  simp only [scan_four, scan_d_blank_int a _ ha, scan_d_blank_int b _ hb,
    scan_d_blank_int c _ hc, scan_d_blank_int d _ hd]

/-- The second scan reads the state and the fields 4 to 7, 14 and 15 of a well-formed
line back. -/
theorem sscanf_after_comm_text (r : stat_fields) (tail : Bytes) (v : ps_locals)
    (hwf : r.wf) (htail : ends_number tail = true) :
    sscanf_after_comm (stat_after_comm r tail) v
      = { v with state := r.state, ppid := r.ppid, pgrp := r.pgrp, session := r.session,
                 tty_nr := r.tty_nr, utime := r.utime, stime := r.stime } := by
  obtain ⟨-, -, -, -, -, -, hppid, hpgrp, hsession, htty, -, -, -, -, -, -, hutime, hstime⟩ :=
    hwf
  simp only [sscanf_after_comm, stat_after_comm, scan_c,
    scan_four_text r.ppid r.pgrp r.session r.tty_nr _ _ hppid hpgrp hsession htty,
    scan_lus, scan_lu_blank_int_blank, scan_lu_blank_int _ tail htail,
    to_ulong_of_range r.utime hutime, to_ulong_of_range r.stime hstime]
  simp

/-- The first scan makes its seven conversions on a well-formed line whose command name
has no `)`. -/
theorem fscanf_stat_text (r : stat_fields) (tail : Bytes) (v : ps_locals)
    (hwf : r.wf) (hcomm : ∀ b ∈ r.comm, b.toNat ≠ 41) :
    fscanf_stat (stat_text r tail) v
      = (7, { v with comm := r.comm, state := r.state, ppid := r.ppid, pgrp := r.pgrp,
                     session := r.session, tty_nr := r.tty_nr }) := by
  obtain ⟨hne, hlen, hbytes, hstate, -, hpid, hppid, hpgrp, hsession, htty, -⟩ := hwf
  have hc : c_str r.comm = r.comm := by
    apply c_str_of_no_nul
    intro b hb h0
    exact (hbytes b hb).1 (by rw [h0]; rfl)
  have h40 : skip_space (32 :: 40 :: (r.comm ++ 41 :: 32 :: stat_after_comm r tail))
      = 40 :: (r.comm ++ 41 :: 32 :: stat_after_comm r tail) :=
    skip_space_blank 40 _ (by decide)
  have hst : skip_space (32 :: stat_after_comm r tail) = stat_after_comm r tail := by
    unfold stat_after_comm
    exact skip_space_blank r.state _ hstate
  simp only [fscanf_stat, stat_text, scan_d_int_blank r.pid _ hpid, h40, scan_lit,
    if_true, scan_not_rparen_comm r.comm _ hne hlen hcomm, hst, hc]
  simp only [stat_after_comm, scan_c,
    scan_four_text r.ppid r.pgrp r.session r.tty_nr _ _ hppid hpgrp hsession htty]

theorem stat_text_append (r : stat_fields) (tail : Bytes) :
    stat_text r tail = stat_text r [] ++ tail := by
  simp [stat_text, stat_after_comm]

theorem utf8_nat_cast (n : Nat) : utf8 (toString (n : Int)) = utf8 (toString n) := rfl

theorem utf8_ulong_length (n : Nat) (h : n < 2 ^ 64) :
    (utf8 (toString (n : Int))).length ≤ 20 := by
  rw [utf8_nat_cast]
  exact utf8_nat_length n 20 (by decide) (by omega)

/-- A well-formed stat line up to its fifteenth field is shorter than the line buffer. -/
theorem stat_text_length (r : stat_fields) (hwf : r.wf) : (stat_text r []).length ≤ 600 := by
  obtain ⟨-, hlen, -, -, -, hpid, hppid, hpgrp, hsession, htty, htpgid, h1, h2, h3, h4, h5,
    h6, h7⟩ := hwf
  have l0 := utf8_int_length r.pid (by omega) (by omega)
  have l1 := utf8_int_length r.ppid (by omega) (by omega)
  have l2 := utf8_int_length r.pgrp (by omega) (by omega)
  have l3 := utf8_int_length r.session (by omega) (by omega)
  have l4 := utf8_int_length r.tty_nr (by omega) (by omega)
  have l5 := utf8_int_length r.tpgid (by omega) (by omega)
  have l6 := utf8_ulong_length r.flags h1
  have l7 := utf8_ulong_length r.minflt h2
  have l8 := utf8_ulong_length r.cminflt h3
  have l9 := utf8_ulong_length r.majflt h4
  have l10 := utf8_ulong_length r.cmajflt h5
  have l11 := utf8_ulong_length r.utime h6
  have l12 := utf8_ulong_length r.stime h7
  simp only [stat_text, stat_after_comm, List.length_append, List.length_cons,
    List.length_nil]
  omega

/-- A well-formed stat line up to its fifteenth field holds neither NUL nor newline. -/
theorem stat_text_bytes (r : stat_fields) (hwf : r.wf) :
    ∀ b ∈ stat_text r [], b.toNat ≠ 0 ∧ b.toNat ≠ 10 := by
  obtain ⟨-, -, hbytes, hstate, hstate0, -⟩ := hwf
  have hdec : ∀ z : Int, ∀ b ∈ utf8 (toString z), b.toNat ≠ 0 ∧ b.toNat ≠ 10 := by
    intro z b hb
    have := utf8_int_byte_toNat z b hb
    omega
  have hs10 : r.state.toNat ≠ 10 := by
    intro h
    simp [isspace, h] at hstate
  have h32 : (32 : UInt8).toNat ≠ 0 ∧ (32 : UInt8).toNat ≠ 10 := by decide
  have h40 : (40 : UInt8).toNat ≠ 0 ∧ (40 : UInt8).toNat ≠ 10 := by decide
  have h41 : (41 : UInt8).toNat ≠ 0 ∧ (41 : UInt8).toNat ≠ 10 := by decide
  simp only [stat_text, stat_after_comm, List.forall_mem_append, List.forall_mem_cons]
  refine ⟨hdec _, h32, h40, hbytes, h41, h32, ⟨hstate0, hs10⟩, h32, hdec _, h32, hdec _, h32,
    hdec _, h32, hdec _, h32, hdec _, h32, hdec _, h32, hdec _, h32, hdec _, h32, hdec _, h32,
    hdec _, h32, hdec _, h32, hdec _, ?_⟩
  simp

theorem take_line_append : ∀ (text rest : Bytes) (n : Nat),
    (∀ b ∈ text, b.toNat ≠ 10) → text.length ≤ n →
    take_line n (text ++ rest) = text ++ take_line (n - text.length) rest
  | [], rest, n, _, _ => by simp
  | a :: t, rest, 0, _, hn => by simp at hn
  | a :: t, rest, n + 1, hnl, hn => by
    have ha : a.toNat ≠ 10 := hnl a (List.mem_cons_self _ _)
    have ih := take_line_append t rest n (fun b hb => hnl b (List.mem_cons_of_mem _ hb))
      (by simpa using hn)
    simp [take_line, ha, ih]

theorem c_str_append (text x : Bytes) (h : ∀ b ∈ text, b.toNat ≠ 0) :
    c_str (text ++ x) = text ++ c_str x := by
  induction text with
  | nil => rfl
  | cons a t ih =>
    have ha : a ≠ 0 := by
      intro h0
      exact h a (List.mem_cons_self _ _) (by rw [h0]; rfl)
    have := ih (fun b hb => h b (List.mem_cons_of_mem _ hb))
    simp only [c_str] at this ⊢
    simp [List.takeWhile_cons, ha, this]

theorem ends_number_take_line (n : Nat) (x : Bytes) (h : ends_number x = true) :
    ends_number (take_line n x) = true := by
  cases n with
  | zero => cases x <;> rfl
  | succ n =>
    cases x with
    | nil => rfl
    | cons b t =>
      by_cases hb : b.toNat = 10
      · simpa [take_line, hb, ends_number] using h
      · simpa [take_line, hb, ends_number] using h

theorem ends_number_c_str (x : Bytes) (h : ends_number x = true) :
    ends_number (c_str x) = true := by
  cases x with
  | nil => rfl
  | cons b t =>
    by_cases hb : b = 0
    · simp [c_str, hb, ends_number]
    · simpa [c_str, List.takeWhile_cons, hb, ends_number] using h

theorem strchr_append (l x : Bytes) (c : UInt8) (h : ∀ b ∈ l, b ≠ c) :
    strchr (l ++ c :: x) c = some l.length := by
  have hmem : c ∉ l := fun hc => h c hc rfl
  unfold strchr
  rw [if_pos (by simp), List.indexOf_append_of_not_mem hmem, List.indexOf_cons_self]
  rfl

/-- The second scan of a well-formed line whose command name has no `)`: `strchr` finds
the `)` after the name, and the state and the fields 4 to 7, 14 and 15 are read back. -/
theorem rescan_stat_text (r : stat_fields) (tail : Bytes) (v : ps_locals)
    (hwf : r.wf) (hcomm : ∀ b ∈ r.comm, b.toNat ≠ 41) (htail : ends_number tail = true) :
    rescan_stat (stat_text r tail) v
      = { v with state := r.state, ppid := r.ppid, pgrp := r.pgrp, session := r.session,
                 tty_nr := r.tty_nr, utime := r.utime, stime := r.stime } := by
  have hlen := stat_text_length r hwf
  have hbytes := stat_text_bytes r hwf
  have hne : stat_text r tail ≠ [] := by
    obtain ⟨-, h2, -⟩ := utf8_nat_digits 0
    simp [stat_text]
  have hline : take_line 4095 (stat_text r tail)
      = stat_text r [] ++ take_line (4095 - (stat_text r []).length) tail := by
    rw [stat_text_append r tail]
    exact take_line_append _ _ _ (fun b hb => (hbytes b hb).2) (by omega)
  have htail2 : ends_number (c_str (take_line (4095 - (stat_text r []).length) tail)) = true :=
    ends_number_c_str _ (ends_number_take_line _ _ htail)
  have hcs : c_str (take_line 4095 (stat_text r tail))
      = stat_text r (c_str (take_line (4095 - (stat_text r []).length) tail)) := by
    rw [hline, c_str_append _ _ (fun b hb => (hbytes b hb).1), ← stat_text_append]
  generalize c_str (take_line (4095 - (stat_text r []).length) tail) = tail2 at hcs htail2
  have hsplit : stat_text r tail2
      = (utf8 (toString r.pid) ++ 32 :: 40 :: r.comm)
        ++ 41 :: (32 :: stat_after_comm r tail2) := by
    simp [stat_text]
  have hpre : ∀ b ∈ utf8 (toString r.pid) ++ 32 :: 40 :: r.comm, b ≠ 41 := by
    intro b hb h41
    rcases List.mem_append.mp hb with h | h
    · have := utf8_int_byte_toNat r.pid b h
      rw [h41] at this
      exact absurd this.1 (by decide)
    · rcases List.mem_cons.mp h with h | h
      · rw [h41] at h
        exact absurd h (by decide)
      · rcases List.mem_cons.mp h with h | h
        · rw [h41] at h
          exact absurd h (by decide)
        · exact hcomm b h (by rw [h41]; rfl)
  have hchr : strchr (stat_text r tail2) 41
      = some (utf8 (toString r.pid) ++ 32 :: 40 :: r.comm).length := by
    rw [hsplit]
    exact strchr_append _ _ 41 hpre
  have hdrop : (stat_text r tail2).drop
      ((utf8 (toString r.pid) ++ 32 :: 40 :: r.comm).length + 2) = stat_after_comm r tail2 := by
    rw [hsplit, List.drop_append]
    rfl
  have hf : fgets 4096 (stat_text r tail)
      = some (take_line 4095 (stat_text r tail),
          (stat_text r tail).drop (take_line 4095 (stat_text r tail)).length) := by
    simp [fgets, hne]
  simp only [rescan_stat, hf, hcs, hchr, hdrop]
  exact sscanf_after_comm_text r tail2 v hwf htail2

/-- The snapshot of a process whose stat file opens with a well-formed line whose command
name has no `)`: every field but the UID comes from the line. -/
theorem read_ps_info_parsed (H : Host W) (pid : Int) (s : Sys W) (r : stat_fields)
    (tail : Bytes) (hopen : (H.fopen (proc_path pid "/stat") s.world).1
      = some (stat_text r tail))
    (hwf : r.wf) (hcomm : ∀ b ∈ r.comm, b.toNat ≠ 41) (htail : ends_number tail = true) :
    (read_ps_info H pid s).1
      = napi_object_of
          [("PID", .string (snprintf_int 32 pid)),
           ("PPID", .string (utf8 (toString r.ppid))),
           ("CMD", .string (utf8 "(" ++ r.comm ++ utf8 ")")),
           ("UID", .string
             (match (H.fopen (proc_path pid "/status")
                (H.fopen (proc_path pid "/stat") s.world).2).1 with
              | none => utf8 "0"
              | some status =>
                status_uid_str (H.uninit_uid pid) (fgets_lines 1024 status))),
           ("STIME", .string (utf8 (toString r.session))),
           ("TTY", .string (utf8 (toString r.session))),
           ("TIME", .string (ps_time_str H.clk_tck r.utime r.stime)),
           ("C", .string (utf8 "0"))] := by
  have hscan := fscanf_stat_text r tail (H.uninit pid) hwf hcomm
  have hre := rescan_stat_text r tail
    { H.uninit pid with comm := r.comm, state := r.state, ppid := r.ppid, pgrp := r.pgrp,
                        session := r.session, tty_nr := r.tty_nr } hwf hcomm htail
  obtain ⟨-, hlen, -, -, -, -, hppid, -, hsession, -⟩ := hwf
  have hcmd : snprintf_buf 260 (utf8 "(" ++ r.comm ++ utf8 ")")
      = utf8 "(" ++ r.comm ++ utf8 ")" := by
    unfold snprintf_buf
    apply List.take_of_length_le
    have h1 : (utf8 "(").length = 1 := rfl
    have h2 : (utf8 ")").length = 1 := rfl
    simp only [List.length_append, h1, h2]
    omega
  simp only [read_ps_info, fopen, hopen, hscan, hre, lt_irrefl, if_false,
    snprintf_int32 r.ppid hppid.1 hppid.2, snprintf_int32 r.session hsession.1 hsession.2, hcmd]

/-! ## The TIME field -/

theorem ps_hz_eq_clock_ticks (clk_tck : Int) : ps_hz clk_tck = (clock_ticks clk_tck : Int) := by
  unfold ps_hz clock_ticks
  by_cases h : clk_tck ≤ 0
  · have h2 : ¬ 0 < clk_tck := by omega
    simp [h, h2]
  · have h2 : 0 < clk_tck := by omega
    simp only [h, h2, if_false, if_true]
    omega

theorem clock_ticks_pos (clk_tck : Int) : 0 < clock_ticks clk_tck := by
  unfold clock_ticks
  split_ifs with h
  · omega
  · decide

/-- The content of `time_str` is the decimal text of the quotient of natural numbers. -/
theorem ps_time_str_eq (clk_tck : Int) (utime stime : Nat) :
    ps_time_str clk_tck utime stime
      = utf8 (toString (((utime + stime) % 2 ^ 64) / clock_ticks clk_tck)) := by
  have hpos := clock_ticks_pos clk_tck
  have hlt : ((utime + stime) % 2 ^ 64) / clock_ticks clk_tck < 10 ^ 20 := by
    have h1 : (utime + stime) % 2 ^ 64 < 2 ^ 64 := Nat.mod_lt _ (by decide)
    have h2 := Nat.div_le_self ((utime + stime) % 2 ^ 64) (clock_ticks clk_tck)
    omega
  have hlen := utf8_nat_length _ 20 (by decide) hlt
  have hq : (((utime + stime) % 2 ^ 64 : Nat) : Int) / ps_hz clk_tck
      = ((((utime + stime) % 2 ^ 64) / clock_ticks clk_tck : Nat) : Int) := by
    rw [ps_hz_eq_clock_ticks]
    push_cast
    rfl
  unfold ps_time_str snprintf_int
  rw [hq, utf8_nat_cast]
  exact List.take_of_length_le (by omega)

/-- C18, the claim fails for a command name that holds a newline: the stat text
`7 (a\nb) S 1 7 5 0 -1 4194560 100 0 0 0 500 300 ...` parses (the first scan makes its
seven conversions and the name has no `)`), its fields 14 and 15 are 500 and 300 and the
rate is 100, so that the claim gives the TIME "8"; but the second scan reads the first
line `7 (a` alone, finds no `)` and assigns nothing, and the TIME field is made from what
`utime` and `stime` held before: "0" on one host and "1234" on another. -/
theorem stat_name_with_newline_leaves_ticks_unset :
    (fscanf_stat
        (utf8 "7 (a\nb) S 1 7 5 0 -1 4194560 100 0 0 0 500 300 0 0 20 0 1 0 100 10 20\n")
        (procHost.uninit 7)).1 = 7
    ∧ (fscanf_stat
        (utf8 "7 (a\nb) S 1 7 5 0 -1 4194560 100 0 0 0 500 300 0 0 20 0 1 0 100 10 20\n")
        (procHost.uninit 7)).2.comm = utf8 "a\nb"
    ∧ (∀ b ∈ utf8 "a\nb", b.toNat ≠ 41)
    ∧ napi_named_property (read_ps_info procHost 7 ⟨newlineWorld, []⟩).1 "PPID"
        = some (.string (utf8 "1"))
    ∧ napi_named_property (read_ps_info procHost 7 ⟨newlineWorld, []⟩).1 "TIME"
        = some (.string (utf8 "0"))
    ∧ napi_named_property (read_ps_info staleHost 7 ⟨newlineWorld, []⟩).1 "TIME"
        = some (.string (utf8 "1234"))
    ∧ utf8 (toString (((500 + 300) % 2 ^ 64) / clock_ticks procHost.clk_tck)) = utf8 "8"
    ∧ utf8 "0" ≠ utf8 "8" ∧ utf8 "1234" ≠ utf8 "8" := by
  refine ⟨by decide, by decide, by decide, by decide, by decide, by decide, by decide,
    by decide, by decide⟩

/-- C18 as amended: when the stat file of a process opens with a well-formed line of
text `pid (comm) state ppid pgrp session tty_nr tpgid flags minflt cminflt majflt cmajflt
utime stime ...` whose command name has no `)` and, the text being one line, no newline,
the TIME field of its snapshot is the decimal text of `((utime + stime) mod 2^64) / hz` in
natural-number (floor) division, where `utime` and `stime` are the fields 14 and 15 and
`hz` is the rate of the host when it is positive and 100 otherwise. -/
theorem ps_time_is_ticks_over_hz (H : Host W) (pid : Int) (s : Sys W) (r : stat_fields)
    (tail : Bytes)
    (hopen : (H.fopen (proc_path pid "/stat") s.world).1 = some (stat_text r tail))
    (hwf : r.wf) (hcomm : ∀ b ∈ r.comm, b.toNat ≠ 41) (htail : ends_number tail = true) :
    napi_named_property (read_ps_info H pid s).1 "TIME"
      = some (.string
          (utf8 (toString (((r.utime + r.stime) % 2 ^ 64) / clock_ticks H.clk_tck)))) := by
  rw [read_ps_info_parsed H pid s r tail hopen hwf hcomm htail, ps_time_str_eq]
  simp [napi_named_property, napi_object_of, NapiProps.ofList, NapiProps.find]

theorem ps_time_is_ticks_over_hz_witness :
    (procHost.fopen (proc_path 7 "/stat") runningSys.world).1
        = some (stat_text progFields progTail)
    ∧ progFields.wf ∧ (∀ b ∈ progFields.comm, b.toNat ≠ 41)
    ∧ ends_number progTail = true
    ∧ napi_named_property (read_ps_info procHost 7 runningSys).1 "TIME"
        = some (.string (utf8 "8")) :=
  ⟨by decide, by decide, by decide, by decide,
    ps_time_is_ticks_over_hz procHost 7 runningSys progFields progTail
      (by decide) (by decide) (by decide) (by decide)⟩

/-! ## The UID field -/

theorem fgets_lines_text : ∀ (lines : List Bytes) (x : Bytes),
    (∀ l ∈ lines, text_line l) →
    fgets_lines 1024 (text_of_lines lines ++ x)
      = lines.map (fun l => l ++ [10]) ++ fgets_lines 1024 x
  | [], x, _ => by simp [text_of_lines]
  | l :: ls, x, h => by
    have hl : text_line l := h l (List.mem_cons_self _ _)
    have ih := fgets_lines_text ls x (fun m hm => h m (List.mem_cons_of_mem _ hm))
    have e : text_of_lines (l :: ls) ++ x = l ++ 10 :: (text_of_lines ls ++ x) := by
      simp [text_of_lines]
    rw [e, fgets_lines_cons 1024 l _ (fun b hb => (hl.2 b hb).2) (by have := hl.1; omega), ih]
    simp

theorem isPrefixOf_append_last (c : UInt8) : ∀ (p l : Bytes), c ∉ p →
    p.isPrefixOf (l ++ [c]) = true → p.isPrefixOf l = true
  | [], l, _, _ => by simp
  | a :: p, [], hc, h => by
    have hac : a ≠ c := fun e => hc (by simp [e])
    simp [List.isPrefixOf, hac] at h
  | a :: p, b :: l, hc, h => by
    simp only [List.cons_append, List.isPrefixOf, Bool.and_eq_true] at h ⊢
    exact ⟨h.1, isPrefixOf_append_last c p l (fun hm => hc (List.mem_cons_of_mem _ hm)) h.2⟩

theorem c_str_text_line (l : Bytes) (hl : text_line l) : c_str (l ++ [10]) = l ++ [10] := by
  apply c_str_of_no_nul
  intro b hb h0
  rcases List.mem_append.mp hb with h | h
  · exact (hl.2 b h).1 (by rw [h0]; rfl)
  · rw [h0] at h
    exact absurd h (by decide)

/-- The loop over the status lines passes the lines that do not start with `Uid:`. -/
theorem status_uid_str_skip (u : Int) : ∀ (pre : List Bytes) (more : List Bytes),
    (∀ l ∈ pre, text_line l ∧ (utf8 "Uid:").isPrefixOf l = false) →
    status_uid_str u (pre.map (fun l => l ++ [10]) ++ more) = status_uid_str u more
  | [], more, _ => by simp
  | l :: ls, more, h => by
    have hl := h l (List.mem_cons_self _ _)
    have ih := status_uid_str_skip u ls more (fun m hm => h m (List.mem_cons_of_mem _ hm))
    have hp : (utf8 "Uid:").isPrefixOf (l ++ [10]) = false := by
      cases hq : (utf8 "Uid:").isPrefixOf (l ++ [10]) with
      | false => rfl
      | true =>
        have := isPrefixOf_append_last 10 (utf8 "Uid:") l (by decide) hq
        rw [hl.2] at this
        exact absurd this (by decide)
    simp only [List.map_cons, List.cons_append, status_uid_str, c_str_text_line l hl.1, hp]
    simpa using ih

theorem scan_d_blanks : ∀ (blanks x : Bytes), (∀ b ∈ blanks, isspace b = true) →
    scan_d (blanks ++ x) = scan_d x
  | [], x, _ => rfl
  | b :: t, x, h => by
    rw [List.cons_append, scan_d_space b _ (h b (List.mem_cons_self _ _))]
    exact scan_d_blanks t x (fun c hc => h c (List.mem_cons_of_mem _ hc))

theorem to_int_range (v : Int) : -(2 : Int) ^ 31 ≤ to_int v ∧ to_int v < 2 ^ 31 := by
  unfold to_int wrap_int32
  constructor <;> omega

/-- `%d` reads the decimal text of any integer back as the `int` it converts to. -/
theorem scan_d_any_int (z : Int) (rest : Bytes) (hrest : ends_number rest = true) :
    scan_d (utf8 (toString z) ++ rest) = some (to_int z, rest) := by
  simp [scan_d, skip_space_int, scan_decimal_int z rest hrest]

/-- The loop over the status lines stops at a line `Uid:`, blanks, an integer. -/
theorem status_uid_str_line (u uid : Int) (blanks rest : Bytes) (more : List Bytes)
    (hblanks : ∀ b ∈ blanks, isspace b = true)
    (hline : text_line (utf8 "Uid:" ++ (blanks ++ (utf8 (toString uid) ++ rest))))
    (hrest : ends_number (rest ++ [10]) = true) :
    status_uid_str u
        ((utf8 "Uid:" ++ (blanks ++ (utf8 (toString uid) ++ rest)) ++ [10]) :: more)
      = utf8 (toString (to_int uid)) := by
  have hd : (utf8 "Uid:" ++ (blanks ++ (utf8 (toString uid) ++ rest)) ++ [10]).drop 4
      = blanks ++ (utf8 (toString uid) ++ (rest ++ [10])) := by
    have h4 : (utf8 "Uid:").length = 4 := rfl
    rw [List.append_assoc, ← h4, List.drop_left]
    simp
  have hp : (utf8 "Uid:").isPrefixOf
      (utf8 "Uid:" ++ (blanks ++ (utf8 (toString uid) ++ rest)) ++ [10]) = true := by
    rw [List.append_assoc]
    simp
  have hr := to_int_range uid
  simp only [status_uid_str, c_str_text_line _ hline, hp, if_true, hd,
    scan_d_blanks blanks _ hblanks, scan_d_any_int uid _ hrest,
    snprintf_int32 (to_int uid) hr.1 hr.2]

theorem read_ps_info_uid (H : Host W) (pid : Int) (s : Sys W) (r : stat_fields)
    (tail : Bytes) (hopen : (H.fopen (proc_path pid "/stat") s.world).1
      = some (stat_text r tail))
    (hwf : r.wf) (hcomm : ∀ b ∈ r.comm, b.toNat ≠ 41) (htail : ends_number tail = true) :
    napi_named_property (read_ps_info H pid s).1 "UID"
      = some (.string
          (match (H.fopen (proc_path pid "/status")
              (H.fopen (proc_path pid "/stat") s.world).2).1 with
           | none => utf8 "0"
           | some status =>
             status_uid_str (H.uninit_uid pid) (fgets_lines 1024 status))) := by
  rw [read_ps_info_parsed H pid s r tail hopen hwf hcomm htail]
  simp [napi_named_property, napi_object_of, NapiProps.ofList, NapiProps.find]

/-- C19, the claim fails for a UID that an `int` does not hold: the stat line of process 7
parses (its PPID is read), the first line of its status text that starts with `Uid:`
holds the integer 4294967294, and the UID field of the snapshot is "-2". -/
theorem uid_beyond_int_is_wrapped :
    (procHost.fopen (utf8 "/proc/7/status") bigUidWorld).1
      = some (utf8
          "Name:\tmy prog\nUid:\t4294967294\t4294967294\t4294967294\t4294967294\n")
    ∧ napi_named_property (read_ps_info procHost 7 ⟨bigUidWorld, []⟩).1 "PPID"
      = some (.string (utf8 "1"))
    ∧ napi_named_property (read_ps_info procHost 7 ⟨bigUidWorld, []⟩).1 "UID"
      = some (.string (utf8 "-2"))
    ∧ utf8 "-2" ≠ utf8 (toString (4294967294 : Int)) := by
  refine ⟨by decide, by decide, by decide, by decide⟩

/-- C19 as amended: for a process whose stat file opens with a well-formed line whose
command name has no `)`, the UID field of the snapshot is "0" when the status file does
not open, "0" when the status text is made of lines none of which starts with `Uid:`, and,
when the first line that starts with `Uid:` continues with blanks and the decimal text of
an integer `uid`, the decimal text of `uid` as converted to `int`, which is `uid` itself
when `-2^31 ≤ uid < 2^31`. -/
theorem ps_uid_from_status (H : Host W) (pid : Int) (s : Sys W) (r : stat_fields)
    (tail : Bytes) (lines pre : List Bytes) (blanks : Bytes) (uid : Int) (rest post : Bytes)
    (hopen : (H.fopen (proc_path pid "/stat") s.world).1 = some (stat_text r tail))
    (hwf : r.wf) (hcomm : ∀ b ∈ r.comm, b.toNat ≠ 41) (htail : ends_number tail = true) :
    ((H.fopen (proc_path pid "/status") (H.fopen (proc_path pid "/stat") s.world).2).1
        = none →
      napi_named_property (read_ps_info H pid s).1 "UID" = some (.string (utf8 "0")))
    ∧ ((H.fopen (proc_path pid "/status") (H.fopen (proc_path pid "/stat") s.world).2).1
        = some (text_of_lines lines) →
      (∀ l ∈ lines, text_line l ∧ (utf8 "Uid:").isPrefixOf l = false) →
      napi_named_property (read_ps_info H pid s).1 "UID" = some (.string (utf8 "0")))
    ∧ ((H.fopen (proc_path pid "/status") (H.fopen (proc_path pid "/stat") s.world).2).1
        = some (text_of_lines pre
            ++ (utf8 "Uid:" ++ (blanks ++ (utf8 (toString uid) ++ rest)) ++ 10 :: post)) →
      (∀ l ∈ pre, text_line l ∧ (utf8 "Uid:").isPrefixOf l = false) →
      (∀ b ∈ blanks, isspace b = true) →
      text_line (utf8 "Uid:" ++ (blanks ++ (utf8 (toString uid) ++ rest))) →
      ends_number (rest ++ [10]) = true →
      napi_named_property (read_ps_info H pid s).1 "UID"
          = some (.string (utf8 (toString (to_int uid))))
        ∧ (-(2 : Int) ^ 31 ≤ uid → uid < 2 ^ 31 → to_int uid = uid)) := by
  have huid := read_ps_info_uid H pid s r tail hopen hwf hcomm htail
  refine ⟨?_, ?_, ?_⟩
  · intro hst
    rw [huid, hst]
  · intro hst hlines
    have h1 := fgets_lines_text lines [] (fun l hl => (hlines l hl).1)
    have h2 := status_uid_str_skip (H.uninit_uid pid) lines [] hlines
    rw [List.append_nil] at h1
    rw [huid, hst]
    simp only [h1, fgets_lines_nil]
    rw [h2]
    rfl
  · intro hst hpre hblanks hline hrest
    refine ⟨?_, fun h0 h1 => to_int_of_range uid h0 h1⟩
    have h1 := fgets_lines_text pre
      (utf8 "Uid:" ++ (blanks ++ (utf8 (toString uid) ++ rest)) ++ 10 :: post)
      (fun l hl => (hpre l hl).1)
    have h2 := fgets_lines_cons 1024
      (utf8 "Uid:" ++ (blanks ++ (utf8 (toString uid) ++ rest))) post
      (fun b hb => (hline.2 b hb).2) (by have := hline.1; omega)
    have h3 := status_uid_str_skip (H.uninit_uid pid) pre
      ((utf8 "Uid:" ++ (blanks ++ (utf8 (toString uid) ++ rest)) ++ [10])
        :: fgets_lines 1024 post) hpre
    rw [huid, hst]
    simp only [h1, h2, h3]
    rw [status_uid_str_line (H.uninit_uid pid) uid blanks rest _ hblanks hline hrest]

theorem ps_uid_from_status_witness :
    (procHost.fopen (proc_path 7 "/stat") runningSys.world).1
        = some (stat_text progFields progTail)
    ∧ progFields.wf ∧ (∀ b ∈ progFields.comm, b.toNat ≠ 41)
    ∧ ends_number progTail = true
    ∧ (procHost.fopen (proc_path 7 "/status")
          (procHost.fopen (proc_path 7 "/stat") runningSys.world).2).1
        = some (text_of_lines [utf8 "Name:\tmy prog"]
            ++ (utf8 "Uid:" ++ ([9] ++ (utf8 (toString (1000 : Int))
              ++ utf8 "\t1000\t1000\t1000")) ++ 10 :: utf8 "Gid:\t100\n"))
    ∧ napi_named_property (read_ps_info procHost 7 runningSys).1 "UID"
        = some (.string (utf8 (toString (to_int 1000)))) :=
  ⟨by decide, by decide, by decide, by decide, by decide,
    ((ps_uid_from_status procHost 7 runningSys progFields progTail []
        [utf8 "Name:\tmy prog"] [9] 1000 (utf8 "\t1000\t1000\t1000") (utf8 "Gid:\t100\n")
        (by decide) (by decide) (by decide) (by decide)).2.2
      (by decide) (by decide) (by decide) (by decide) (by decide)).1⟩

/-! ## `list` in quiet mode -/

theorem list_entry_quiet (H : Host W) (root name : CStr) (s : Sys W) :
    list_entry H root name true s = (napi_object_of [("id", .string name)], s) := by
  simp [list_entry]

/-- The loop of `CrunList` in quiet mode appends one object `{id}` per name and leaves
the state as it is. -/
theorem list_loop_quiet (H : Host W) (root : CStr) :
    ∀ (names : List CStr) (result : List NapiValue) (s : Sys W),
    result.length + names.length ≤ 2 ^ 32 →
    list_loop H root true names result.length result s
      = (result ++ names.map (fun name => napi_object_of [("id", .string name)]), s)
  | [], result, s, _ => by simp [list_loop]
  | name :: next, result, s, hlen => by
    simp only [list_loop, list_entry_quiet, napi_set_element_end, List.map_cons]
    cases next with
    | nil => simp [list_loop]
    | cons n2 rest =>
      have hlt : result.length + 1 < 2 ^ 32 := by
        simp only [List.length_cons] at hlen
        omega
      have hidx : (result.length + 1) % 2 ^ 32
          = (result ++ [napi_object_of [("id", .string name)]]).length := by
        rw [Nat.mod_eq_of_lt hlt]
        simp
      rw [hidx, list_loop_quiet H root (n2 :: rest) _ s (by
        simp only [List.length_append, List.length_cons, List.length_nil] at hlen ⊢
        omega)]
      simp

/-- C20: when the options object has `quiet: true` and the container list is read, `list`
returns the array of the objects `{id: name}`, one per enumerated container in
enumeration order and with no other key, and the list read is the only call it makes: no
status is read and the world is the one the list read left. -/
theorem list_quiet_ids_only (E : Env W R) (H : Host W) (s : Sys W) (opts : NapiProps)
    (extra : List NapiValue) (lr : Ret) (names : List CStr) (w : W)
    (hquiet : opts.find "quiet" = some (.boolean true))
    (hlist : E.list (list_root (some (.object opts))) s.world = ((lr, names), w))
    (hret : 0 ≤ lr.ret) (hlen : names.length ≤ 2 ^ 32) :
    CrunList E H (.object opts :: extra) s
      = (.array (NapiItems.ofList
          (names.map (fun name => napi_object_of [("id", .string name)]))),
         { world := w,
           trace := s.trace ++ [⟨.get_containers_list (list_root (some (.object opts))),
             lr.ret⟩] }) := by
  have hopts : options_arg (.object opts :: extra) 0 = some (.object opts) := by
    simp [options_arg, cb_arg, napi_typeof]
  have hq : option_bool E.indet (some (.object opts)) "quiet" = true := by
    simp [option_bool, get_bool_property, napi_named_property, hquiet]
  have hl := list_eq E (list_root (some (.object opts))) s lr names w hlist
  have hloop := list_loop_quiet H (list_root (some (.object opts))) names []
    { world := w,
      trace := s.trace ++ [⟨.get_containers_list (list_root (some (.object opts))),
        lr.ret⟩] } (by simpa using hlen)
  have hnot : ¬ lr.ret < 0 := by omega
  simp only [List.length_nil, List.nil_append] at hloop
  simp only [CrunList, hopts, hq, hl, hnot, if_false, hloop]

theorem list_quiet_ids_only_witness :
    quietOpts.find "quiet" = some (.boolean true)
    ∧ demoEnv.list (list_root (some (.object quietOpts))) demoSys.world
        = (({ ret := 0, err := none }, demoFleet), demoFleet)
    ∧ CrunList demoEnv fleetHost [.object quietOpts] demoSys
      = (.array (NapiItems.ofList
          (demoFleet.map (fun name => napi_object_of [("id", .string name)]))),
         { world := demoFleet,
           trace := demoSys.trace
             ++ [⟨.get_containers_list (list_root (some (.object quietOpts))), 0⟩] }) :=
  ⟨by decide, by decide,
    list_quiet_ids_only demoEnv fleetHost demoSys quietOpts [] { ret := 0, err := none }
      demoFleet demoFleet (by decide) (by decide) (by decide) (by decide)⟩

/-! ## Error objects -/

/-- C23: for every prefix `p` and collaborator message `m`, `create_error_from_crun`
returns the object `{code: -1, message, error: true}` whose message is `p ++ ": " ++ m`
cut to its first 2047 bytes, which is the whole text when it fits; without a collaborator
error the message is `p ++ ": Unknown error"`, cut in the same way; and
`napi_create_error_obj` with a NULL message gives the message "Unknown error". -/
theorem error_from_crun_message (pfx : String) (m : CStr) (code : Int) :
    create_error_from_crun pfx (some m)
      = napi_object_of
          [("code", .number (.int (-1))),
           ("message", .string ((utf8 pfx ++ utf8 ": " ++ m).take 2047)),
           ("error", .boolean true)]
    ∧ ((utf8 pfx ++ utf8 ": " ++ m).length ≤ 2047 →
        create_error_from_crun pfx (some m)
          = napi_object_of
              [("code", .number (.int (-1))),
               ("message", .string (utf8 pfx ++ utf8 ": " ++ m)),
               ("error", .boolean true)])
    ∧ create_error_from_crun pfx none
      = napi_object_of
          [("code", .number (.int (-1))),
           ("message", .string ((utf8 pfx ++ utf8 ": Unknown error").take 2047)),
           ("error", .boolean true)]
    ∧ ((utf8 pfx ++ utf8 ": Unknown error").length ≤ 2047 →
        create_error_from_crun pfx none
          = napi_object_of
              [("code", .number (.int (-1))),
               ("message", .string (utf8 pfx ++ utf8 ": Unknown error")),
               ("error", .boolean true)])
    ∧ napi_create_error_obj_nullable code none
      = napi_object_of
          [("code", .number (.int code)), ("message", .string (utf8 "Unknown error")),
           ("error", .boolean true)]
    ∧ napi_create_error_obj_nullable code (some m)
      = napi_object_of
          [("code", .number (.int code)), ("message", .string m), ("error", .boolean true)] := by
  refine ⟨rfl, ?_, rfl, ?_, rfl, rfl⟩
  · intro h
    simp only [create_error_from_crun, napi_create_error_obj, List.take_of_length_le h]
  · intro h
    simp only [create_error_from_crun, napi_create_error_obj, List.take_of_length_le h]

theorem error_from_crun_message_witness :
    (utf8 "Failed to kill container" ++ utf8 ": " ++ utf8 "no such process").length ≤ 2047
    ∧ create_error_from_crun "Failed to kill container" (some (utf8 "no such process"))
      = napi_object_of
          [("code", .number (.int (-1))),
           ("message", .string
             (utf8 "Failed to kill container" ++ utf8 ": " ++ utf8 "no such process")),
           ("error", .boolean true)] :=
  ⟨by decide,
    (error_from_crun_message "Failed to kill container" (utf8 "no such process") 0).2.1
      (by decide)⟩

/-! ## The STIME and TTY fields -/

/-- C27: when the stat file of a process opens with a well-formed line whose command
name has no `)`, the STIME field and the TTY field of its snapshot are both the decimal
text of the session ID, the sixth field of the line; neither the seventh field `tty_nr`
nor anything after the fifteenth field (where the start time is) enters them. -/
theorem ps_stime_and_tty_are_session (H : Host W) (pid : Int) (s : Sys W) (r : stat_fields)
    (tail : Bytes)
    (hopen : (H.fopen (proc_path pid "/stat") s.world).1 = some (stat_text r tail))
    (hwf : r.wf) (hcomm : ∀ b ∈ r.comm, b.toNat ≠ 41) (htail : ends_number tail = true) :
    napi_named_property (read_ps_info H pid s).1 "STIME"
        = some (.string (utf8 (toString r.session)))
    ∧ napi_named_property (read_ps_info H pid s).1 "TTY"
        = some (.string (utf8 (toString r.session))) := by
  rw [read_ps_info_parsed H pid s r tail hopen hwf hcomm htail]
  constructor <;>
    simp [napi_named_property, napi_object_of, NapiProps.ofList, NapiProps.find]

theorem ps_stime_and_tty_are_session_witness :
    (procHost.fopen (proc_path 7 "/stat") runningSys.world).1
        = some (stat_text progFields progTail)
    ∧ progFields.wf ∧ (∀ b ∈ progFields.comm, b.toNat ≠ 41)
    ∧ ends_number progTail = true
    ∧ progFields.session = 5 ∧ progFields.tty_nr = 0
    ∧ napi_named_property (read_ps_info procHost 7 runningSys).1 "STIME"
        = some (.string (utf8 "5"))
    ∧ napi_named_property (read_ps_info procHost 7 runningSys).1 "TTY"
        = some (.string (utf8 "5")) :=
  ⟨by decide, by decide, by decide, by decide, by decide, by decide,
    ps_stime_and_tty_are_session procHost 7 runningSys progFields progTail
      (by decide) (by decide) (by decide) (by decide)⟩

/-! ## An update without entries -/

/-- C30: when the resources object yields no generic entry and has neither
`l3CacheSchema` nor `memBwSchema` as a string, `update` returns
`{id, updated: true, error: false}` and leaves the state as it is: the world is unchanged
and no delegated call is added to the trace. -/
theorem update_without_entries_calls_nothing (E : Env W R) (s : Sys W) (id : CStr)
    (props : NapiProps) (extra : List NapiValue)
    (hvals : update_values (.object props) = [])
    (hl3 : get_string_property (.object props) "l3CacheSchema" = none)
    (hbw : get_string_property (.object props) "memBwSchema" = none) :
    CrunUpdate E (.string id :: .object props :: extra) s
      = (napi_object_of
          [("id", .string id), ("updated", .boolean true), ("error", .boolean false)], s) := by
  rw [CrunUpdate_object, hvals]
  simp [update_generic, update_rdt, hl3, hbw, update_result]

theorem update_without_entries_calls_nothing_witness :
    update_values (.object .nil) = []
    ∧ update_values (.object unknownOnly) = []
    ∧ get_string_property (.object unknownOnly) "l3CacheSchema" = none
    ∧ get_string_property (.object unknownOnly) "memBwSchema" = none
    ∧ CrunUpdate demoEnv [.string (utf8 "web-2"), .object .nil] demoSys
      = (napi_object_of
          [("id", .string (utf8 "web-2")), ("updated", .boolean true),
           ("error", .boolean false)], demoSys)
    ∧ CrunUpdate demoEnv [.string (utf8 "web-2"), .object unknownOnly] demoSys
      = (napi_object_of
          [("id", .string (utf8 "web-2")), ("updated", .boolean true),
           ("error", .boolean false)], demoSys) :=
  ⟨by decide, by decide, by decide, by decide,
    update_without_entries_calls_nothing demoEnv demoSys (utf8 "web-2") .nil []
      (by decide) (by decide) (by decide),
    update_without_entries_calls_nothing demoEnv demoSys (utf8 "web-2") unknownOnly []
      (by decide) (by decide) (by decide)⟩

/-! ## The scratch buffers of the update translator -/

theorem copy_string_value_idx (prop_val : NapiValue) (i : Nat) :
    (copy_string_value prop_val i).2
      = if (copy_string_value prop_val i).1.isSome then i + 1 else i := by
  unfold copy_string_value
  cases napi_get_string prop_val with
  | none => simp
  | some tmp => by_cases h : i < 16 <;> simp [h]

theorem update_value_str_idx (m : update_mapping) (prop_val : NapiValue) (i : Nat) :
    (update_value_str m prop_val i).2
      = if (update_value_str m prop_val i).1.isSome then i + 1 else i := by
  have hc := copy_string_value_idx prop_val i
  unfold update_value_str
  by_cases h1 : m.numeric ≠ 0 ∧ napi_typeof prop_val = .napi_number
  · simp [h1]
  · by_cases h2 : m.numeric = 0 ∧ napi_typeof prop_val = .napi_string
    · rw [if_neg h1, if_pos h2]
      exact hc
    · by_cases h3 : napi_typeof prop_val = .napi_string
      · rw [if_neg h1, if_neg h2, if_pos h3]
        exact hc
      · rw [if_neg h1, if_neg h2, if_neg h3]
        simp

/-- The loop keeps `buf_idx` equal to the number of elements of `values`, and erasing the
buffer indices gives the loop without them. -/
theorem update_step_bufs_spec (resources : NapiValue)
    (st : Nat × List (Nat × libcrun_update_value_s)) (m : update_mapping)
    (hinv : st.1 = st.2.length) (hidx : st.2.map Prod.fst = List.range st.2.length) :
    (update_step_bufs resources st m).1 = (update_step_bufs resources st m).2.length
    ∧ (update_step_bufs resources st m).2.map Prod.fst
        = List.range (update_step_bufs resources st m).2.length
    ∧ (update_step_bufs resources st m).2.length ≤ st.2.length + 1
    ∧ update_step resources (st.1, st.2.map Prod.snd) m
        = ((update_step_bufs resources st m).1,
           (update_step_bufs resources st m).2.map Prod.snd) := by
  unfold update_step_bufs update_step
  cases hp : napi_named_property resources m.js_prop with
  | none => simp [hinv, hidx]
  | some prop_val =>
    have hi := update_value_str_idx m prop_val st.1
    rcases hv : update_value_str m prop_val st.1 with ⟨v, j⟩
    rw [hv] at hi
    cases v with
    | none =>
      simp only [Option.isSome_none, Bool.false_eq_true, if_false] at hi
      simp only [hv]
      simp [hi, hinv, hidx]
    | some text =>
      simp only [Option.isSome_some, if_true] at hi
      simp only [hv]
      simp [hi, hinv, hidx, List.range_succ]

theorem update_foldl_bufs_spec (resources : NapiValue) (rows : List update_mapping) :
    ∀ st : Nat × List (Nat × libcrun_update_value_s),
      st.1 = st.2.length → st.2.map Prod.fst = List.range st.2.length →
      (rows.foldl (update_step_bufs resources) st).2.map Prod.fst
          = List.range (rows.foldl (update_step_bufs resources) st).2.length
      ∧ (rows.foldl (update_step_bufs resources) st).2.length ≤ st.2.length + rows.length
      ∧ (rows.foldl (update_step resources) (st.1, st.2.map Prod.snd)).2
          = (rows.foldl (update_step_bufs resources) st).2.map Prod.snd := by
  induction rows with
  | nil =>
    intro st _ hidx
    simp [hidx]
  | cons m rows ih =>
    intro st hinv hidx
    obtain ⟨h1, h2, h3, h4⟩ := update_step_bufs_spec resources st m hinv hidx
    obtain ⟨i1, i2, i3⟩ := ih (update_step_bufs resources st m) h1 h2
    simp only [List.foldl_cons, List.length_cons]
    refine ⟨i1, by omega, ?_⟩
    rw [h4, i3]

/-- C28: in the loop of `CrunUpdate` over the update table, for every resources object,
the `k`-th element of `values` (from 0) points to the buffer `value_bufs[k]`: the buffer
indices in use are `0, 1, ..., n - 1` for the `n` elements, they are distinct, `n` is at
most 14 and every index is at most 13, so below the 16 buffers on the numeric branch too;
and without the indices the elements are the array handed to the delegated update. -/
theorem update_buffers_are_distinct_and_in_range (resources : NapiValue) :
    (update_bufs resources).map Prod.fst = List.range (update_bufs resources).length
    ∧ (update_bufs resources).map Prod.snd = update_values resources
    ∧ (update_bufs resources).length ≤ 14
    ∧ (∀ i ∈ (update_bufs resources).map Prod.fst, i ≤ 13)
    ∧ ((update_bufs resources).map Prod.fst).Nodup := by
  obtain ⟨h1, h2, h3⟩ := update_foldl_bufs_spec resources update_mappings (0, []) rfl rfl
  have hlen : (update_bufs resources).length ≤ 14 := h2
  have hidx : (update_bufs resources).map Prod.fst
      = List.range (update_bufs resources).length := h1
  refine ⟨hidx, h3.symm, hlen, ?_, ?_⟩
  · intro i hi
    rw [hidx, List.mem_range] at hi
    omega
  · rw [hidx]
    exact List.nodup_range _

/-! ## The signal handed to the delegated kill -/

theorem error_obj_no_signal (code : Int) (msg : CStr) :
    napi_named_property (napi_create_error_obj code msg) "signal" = none := by
  simp [napi_create_error_obj, napi_named_property, napi_object_of, NapiProps.ofList,
    NapiProps.find]

theorem error_from_crun_no_signal (pfx : String) (err : Option CStr) :
    napi_named_property (create_error_from_crun pfx err) "signal" = none := by
  cases err <;> simp [create_error_from_crun, error_obj_no_signal]

theorem kill_signals_of_calls (ctx : libcrun_context_t) (sig : CStr) :
    ∀ (evs : List Event) (names : List CStr),
      evs.map Event.call = names.map (fun name => Call.container_kill ctx name sig) →
      kill_signals evs = names.map (fun _ => sig)
  | [], [], _ => rfl
  | [], _ :: _, h => by simp at h
  | _ :: _, [], h => by simp at h
  | e :: evs, n :: names, h => by
    simp only [List.map_cons, List.cons.injEq] at h
    have ih := kill_signals_of_calls ctx sig evs names h.2
    simp only [kill_signals, List.filterMap_cons, h.1, kill_signal_of, List.map_cons]
    exact congrArg _ ih

/-- Every delegated kill of `CrunKill` is handed the content of `sig_str_buf`, and the
`signal` property of the result, when it has one, is that content. -/
theorem CrunKill_signals (E : Env W R) (args : List NapiValue) (s : Sys W) :
    ∃ evs : List Event,
      (CrunKill E args s).2.trace = s.trace ++ evs
      ∧ (∀ sig ∈ kill_signals evs, sig = kill_sig_str_buf args)
      ∧ (∀ v, napi_named_property (CrunKill E args s).1 "signal" = some v →
          v = .string (kill_sig_str_buf args)) := by
  unfold CrunKill
  by_cases hlen : args.length < 1
  · rw [if_pos hlen]
    exact ⟨[], by simp, by simp [kill_signals], by simp [error_obj_no_signal]⟩
  · rw [if_neg hlen]
    cases hid : napi_get_string (cb_arg args 0) with
    | none => exact ⟨[], by simp, by simp [kill_signals], by simp [error_obj_no_signal]⟩
    | some id =>
      simp only []
      by_cases hre : option_bool E.indet (options_arg args 2) "regex" = true
      · rw [if_pos hre]
        cases hc : E.regcomp id with
        | none => exact ⟨[], by simp, by simp [kill_signals], by simp [error_obj_no_signal]⟩
        | some re =>
          simp only []
          by_cases hl :
              (libcrun_get_containers_list E (list_root (options_arg args 2)) s).1.1.ret < 0
          · rw [if_pos hl]
            exact ⟨[⟨.get_containers_list (list_root (options_arg args 2)),
                (E.list (list_root (options_arg args 2)) s.world).1.1.ret⟩],
              by simp [libcrun_get_containers_list],
              by simp [kill_signals, kill_signal_of],
              by simp [error_from_crun_no_signal]⟩
          · rw [if_neg hl]
            obtain ⟨evs, ht, hcalls, -⟩ := kill_matching_spec E re
              (make_context E.indet id (options_arg args 2)) (kill_sig_str_buf args)
              (libcrun_get_containers_list E (list_root (options_arg args 2)) s).1.2 0
              (libcrun_get_containers_list E (list_root (options_arg args 2)) s).2
            refine ⟨⟨.get_containers_list (list_root (options_arg args 2)),
                (E.list (list_root (options_arg args 2)) s.world).1.1.ret⟩ :: evs, ?_, ?_, ?_⟩
            · simp only []
              rw [ht]
              simp [libcrun_get_containers_list]
            · intro sig hsig
              have hk := kill_signals_of_calls _ _ evs _ hcalls
              have hsig2 : sig ∈ kill_signals evs := hsig
              rw [hk] at hsig2
              obtain ⟨_, _, h⟩ := List.mem_map.mp hsig2
              exact h.symm
            · intro v hv
              simpa [napi_named_property, napi_object_of, NapiProps.ofList, NapiProps.find,
                eq_comm] using hv
      · rw [if_neg hre]
        by_cases hall : option_bool E.indet (options_arg args 2) "all" = true
        · simp only [hall, if_true]
          refine ⟨[⟨.container_killall (make_context E.indet id (options_arg args 2)) id
              (kill_sig_str_buf args),
              (E.killall (make_context E.indet id (options_arg args 2)) id
                (kill_sig_str_buf args) s.world).1.ret⟩], ?_, ?_, ?_⟩
          · split_ifs <;> simp [libcrun_container_killall, Sys.record]
          · simp [kill_signals, kill_signal_of]
          · intro v hv
            split_ifs at hv
            · simp [error_from_crun_no_signal] at hv
            · simpa [napi_named_property, napi_object_of, NapiProps.ofList, NapiProps.find,
                eq_comm] using hv
        · simp only [hall, Bool.false_eq_true, if_false]
          refine ⟨[⟨.container_kill (make_context E.indet id (options_arg args 2)) id
              (kill_sig_str_buf args),
              (E.kill (make_context E.indet id (options_arg args 2)) id
                (kill_sig_str_buf args) s.world).1.ret⟩], ?_, ?_, ?_⟩
          · split_ifs <;> simp [libcrun_container_kill, Sys.record]
          · simp [kill_signals, kill_signal_of]
          · intro v hv
            split_ifs at hv
            · simp [error_from_crun_no_signal] at hv
            · simpa [napi_named_property, napi_object_of, NapiProps.ofList, NapiProps.find,
                eq_comm] using hv

/-- `CrunKill` without an options object: one delegated kill of the container. -/
theorem CrunKill_plain (E : Env W R) (s : Sys W) (id : CStr) (sigv : List NapiValue)
    (hlen : sigv.length ≤ 1) :
    (CrunKill E (.string id :: sigv) s).2.trace
      = s.trace ++ [⟨.container_kill (make_context E.indet id none) id
          (kill_sig_str_buf (.string id :: sigv)),
          (E.kill (make_context E.indet id none) id
            (kill_sig_str_buf (.string id :: sigv)) s.world).1.ret⟩]
    ∧ (0 ≤ (E.kill (make_context E.indet id none) id
            (kill_sig_str_buf (.string id :: sigv)) s.world).1.ret →
        napi_named_property (CrunKill E (.string id :: sigv) s).1 "signal"
          = some (.string (kill_sig_str_buf (.string id :: sigv)))) := by
  have hopts : options_arg (.string id :: sigv) 2 = none := by
    simp only [options_arg, List.length_cons]
    rw [if_neg]
    intro h
    omega
  have hid : napi_get_string (cb_arg (.string id :: sigv) 0) = some id := by
    simp [cb_arg, napi_get_string]
  simp only [CrunKill, hopts, hid, option_bool, List.length_cons]
  constructor
  · split_ifs <;> simp_all [libcrun_container_kill, Sys.record]
  · intro hok
    have hnot : ¬ (E.kill (make_context E.indet id none) id
        (kill_sig_str_buf (.string id :: sigv)) s.world).1.ret < 0 := by omega
    simp [libcrun_container_kill, Sys.record, hnot, napi_named_property, napi_object_of,
      NapiProps.ofList, NapiProps.find]

/-- C22, the code run at `kill("web-2", "BOGUS")` and at `kill("db", "BOGUS", {regex:
true})`: a string that is no signal name is handed to the delegated kill and reported as
`signal` as it is, in single mode and in regex mode alike; "SIGTERM" is not put in its
place. -/
theorem kill_unknown_signal_name_is_forwarded :
    (CrunKill demoEnv [.string (utf8 "web-2"), .string (utf8 "BOGUS")] soloSys).1
      = napi_object_of
          [("id", .string (utf8 "web-2")), ("signal", .string (utf8 "BOGUS")),
           ("all", .boolean false), ("success", .boolean true), ("error", .boolean false)]
    ∧ kill_signals
        (CrunKill demoEnv [.string (utf8 "web-2"), .string (utf8 "BOGUS")] soloSys).2.trace
      = [utf8 "BOGUS"]
    ∧ napi_named_property
        (CrunKill demoEnv [.string (utf8 "db"), .string (utf8 "BOGUS"), .object regexOpts]
          demoSys).1 "signal"
      = some (.string (utf8 "BOGUS"))
    ∧ kill_signals
        (CrunKill demoEnv [.string (utf8 "db"), .string (utf8 "BOGUS"), .object regexOpts]
          demoSys).2.trace
      = [utf8 "BOGUS"]
    ∧ utf8 "BOGUS" ≠ utf8 "SIGTERM" := by
  refine ⟨by decide, by decide, by decide, by decide, by decide⟩

theorem strncpy_buf_eq (size : Nat) (src : CStr) :
    strncpy_buf size src = (c_str src).take (size - 1) := rfl

/-- What `kill` does with its signal argument: every delegated kill (single, all or regex
mode) is handed the content of `sig_str_buf`, which is also the `signal` of the result;
that content is "SIGTERM" when the argument is omitted or is neither a string nor a
number, the first 31 bytes of the C string of a string argument whatever it spells, and
the decimal text of `n` for a number `n` in the range of `int`. Without an options object
exactly one kill is delegated. -/
theorem kill_signal_is_forwarded (E : Env W R) (args : List NapiValue) (s : Sys W)
    (id : CStr) (idv : NapiValue) (rest : List NapiValue) (t : CStr) (n : Int) :
    (∃ evs : List Event,
      (CrunKill E args s).2.trace = s.trace ++ evs
      ∧ (∀ sig ∈ kill_signals evs, sig = kill_sig_str_buf args)
      ∧ (∀ v, napi_named_property (CrunKill E args s).1 "signal" = some v →
          v = .string (kill_sig_str_buf args)))
    ∧ (CrunKill E [.string id, .string t] s).2.trace
      = s.trace ++ [⟨.container_kill (make_context E.indet id none) id ((c_str t).take 31),
          (E.kill (make_context E.indet id none) id ((c_str t).take 31) s.world).1.ret⟩]
    ∧ kill_sig_str_buf [idv] = utf8 "SIGTERM"
    ∧ (∀ v : NapiValue, napi_typeof v ≠ .napi_string → napi_typeof v ≠ .napi_number →
        kill_sig_str_buf (idv :: v :: rest) = utf8 "SIGTERM")
    ∧ kill_sig_str_buf (idv :: .string t :: rest) = (c_str t).take 31
    ∧ (-(2 : Int) ^ 31 ≤ n → n < 2 ^ 31 →
        kill_sig_str_buf (idv :: .number (.int n) :: rest) = utf8 (toString n)) := by
  refine ⟨CrunKill_signals E args s, (CrunKill_plain E s id [.string t] (by simp)).1, rfl,
    ?_, ?_, ?_⟩
  · intro v hs hn
    cases v <;> first
      | exact absurd rfl hs
      | exact absurd rfl hn
      | simp [kill_sig_str_buf, cb_arg]
  · simp [kill_sig_str_buf, cb_arg, strncpy_buf_eq]
  · intro h0 h1
    have hw : wrap_int32 n = n := by
      unfold wrap_int32
      omega
    simp [kill_sig_str_buf, cb_arg, napi_get_value_int32, hw, snprintf_int32 n h0 h1]

/-! ## Strings copied into fixed buffers -/

/-- C29, the claim fails for a string that holds a NUL character: the request
`{cpusetCpus: "0-3\u0000x"}` gives the entry value "0-3", which is not the first 63 bytes
of the five-byte string; and `kill("web-2", "KILL\u0000XX")` hands "KILL" to the delegated
kill, not the seven bytes of the string. -/
theorem string_with_nul_is_cut_at_the_nul :
    row_entry (.object (.cons "cpusetCpus" (.string [48, 45, 51, 0, 120]) .nil)) cpusetCpusRow
      = some ⟨"cpu", "cpus", 0, [48, 45, 51]⟩
    ∧ ([48, 45, 51, 0, 120] : CStr).take 63 = [48, 45, 51, 0, 120]
    ∧ ([48, 45, 51] : CStr) ≠ [48, 45, 51, 0, 120]
    ∧ kill_signals
        (CrunKill demoEnv [.string (utf8 "web-2"), .string [75, 73, 76, 76, 0, 88, 88]]
          soloSys).2.trace
      = [[75, 73, 76, 76]]
    ∧ ([75, 73, 76, 76, 0, 88, 88] : CStr).take 31 = [75, 73, 76, 76, 0, 88, 88]
    ∧ ([75, 73, 76, 76] : CStr) ≠ [75, 73, 76, 76, 0, 88, 88] := by
  refine ⟨by decide, by decide, by decide, by decide, by decide, by decide⟩

/-- C29 as amended: when `cpusetCpus` or `cpusetMems` is present in the resources object
with a string `str`, the entry of its row has as value the first 63 bytes of the C string
of `str` (its bytes before the first NUL), which are the first 63 bytes of `str` when
`str` holds no NUL and `str` itself when it has at most 63 bytes as well; and a string
signal `sig` given to `kill` is handed to every delegated kill as the first 31 bytes of
its C string, with the same two special cases. -/
theorem strings_are_cut_to_their_buffers (E : Env W R) (s : Sys W) (props : NapiProps)
    (m : update_mapping) (str id sig : CStr) (extra : List NapiValue)
    (hm : m ∈ update_mappings)
    (hkey : m.js_prop = "cpusetCpus" ∨ m.js_prop = "cpusetMems")
    (hfind : props.find m.js_prop = some (.string str)) :
    row_entry (.object props) m = some ⟨m.«section», m.name, 0, (c_str str).take 63⟩
    ∧ (⟨m.«section», m.name, 0, (c_str str).take 63⟩ : libcrun_update_value_s)
        ∈ update_values (.object props)
    ∧ ((∀ b ∈ str, b ≠ 0) → (c_str str).take 63 = str.take 63)
    ∧ ((∀ b ∈ str, b ≠ 0) → str.length ≤ 63 → (c_str str).take 63 = str)
    ∧ kill_sig_str_buf (.string id :: .string sig :: extra) = (c_str sig).take 31
    ∧ ((∀ b ∈ sig, b ≠ 0) → (c_str sig).take 31 = sig.take 31)
    ∧ ((∀ b ∈ sig, b ≠ 0) → sig.length ≤ 31 → (c_str sig).take 31 = sig)
    ∧ (∃ evs : List Event,
        (CrunKill E (.string id :: .string sig :: extra) s).2.trace = s.trace ++ evs
        ∧ ∀ x ∈ kill_signals evs, x = (c_str sig).take 31)
    ∧ (CrunKill E [.string id, .string sig] s).2.trace
      = s.trace ++ [⟨.container_kill (make_context E.indet id none) id ((c_str sig).take 31),
          (E.kill (make_context E.indet id none) id ((c_str sig).take 31) s.world).1.ret⟩] := by
  have hnum : m.numeric = 0 := by
    simp only [update_mappings, List.mem_cons, List.mem_singleton, List.not_mem_nil,
      or_false] at hm
    rcases hm with rfl | rfl | rfl | rfl | rfl | rfl | rfl | rfl | rfl | rfl | rfl | rfl | rfl
      | rfl
    all_goals first
      | rfl
      | (exfalso; revert hkey; decide)
  have hrow : row_entry (.object props) m
      = some ⟨m.«section», m.name, 0, (c_str str).take 63⟩ := by
    rw [row_entry_of_string props m str hfind, hnum]
    rfl
  have hsig : kill_sig_str_buf (.string id :: .string sig :: extra) = (c_str sig).take 31 := by
    simp [kill_sig_str_buf, cb_arg, strncpy_buf_eq]
  obtain ⟨evs, ht, hall, -⟩ := CrunKill_signals E (.string id :: .string sig :: extra) s
  refine ⟨hrow, ?_, fun h => by rw [c_str_of_no_nul str h],
    fun h hl => by rw [c_str_of_no_nul str h, List.take_of_length_le hl], hsig,
    fun h => by rw [c_str_of_no_nul sig h],
    fun h hl => by rw [c_str_of_no_nul sig h, List.take_of_length_le hl],
    ⟨evs, ht, fun x hx => (hall x hx).trans hsig⟩,
    (CrunKill_plain E s id [.string sig] (by simp)).1⟩
  rw [update_values_eq]
  exact List.mem_filterMap.mpr ⟨m, hm, hrow⟩

theorem strings_are_cut_to_their_buffers_witness :
    cpusetCpusRow ∈ update_mappings
    ∧ (cpusetCpusRow.js_prop = "cpusetCpus" ∨ cpusetCpusRow.js_prop = "cpusetMems")
    ∧ memoryFirst.find cpusetCpusRow.js_prop = some (.string (utf8 "0-3"))
    ∧ row_entry (.object memoryFirst) cpusetCpusRow
      = some ⟨"cpu", "cpus", 0, (c_str (utf8 "0-3")).take 63⟩ :=
  ⟨by decide, by decide, by decide,
    (strings_are_cut_to_their_buffers demoEnv demoSys memoryFirst cpusetCpusRow (utf8 "0-3")
      (utf8 "web-2") (utf8 "KILL") [] (by decide) (by decide) (by decide)).1⟩

/-! ## `signal_from_name` -/

theorem tolower_toNat (x : UInt8) :
    (tolower x).toNat = if 65 ≤ x.toNat ∧ x.toNat ≤ 90 then x.toNat + 32 else x.toNat := by
  unfold tolower
  split_ifs with h
  · rw [UInt8.toNat_add]
    have h32 : (32 : UInt8).toNat = 32 := rfl
    have hsize : UInt8.size = 256 := rfl
    rw [h32, hsize]
    omega
  · rfl

theorem tolower_ne_zero (x : UInt8) (h : x ≠ 0) : (tolower x).toNat ≠ 0 := by
  have hx : x.toNat ≠ 0 := by
    intro h0
    apply h
    exact UInt8.ext h0
  rw [tolower_toNat]
  split_ifs <;> omega

/-- `strcasecmp` returns zero exactly for C strings that agree in lower case. -/
theorem strcasecmp_eq_zero : ∀ (a b : CStr), (∀ x ∈ a, x ≠ 0) → (∀ x ∈ b, x ≠ 0) →
    (strcasecmp a b = 0 ↔ lower a = lower b)
  | [], [], _, _ => by simp [strcasecmp, lower]
  | [], b :: t, _, hb => by
    have := tolower_ne_zero b (hb b (List.mem_cons_self _ _))
    simp only [strcasecmp, lower, List.map_nil, List.map_cons]
    constructor
    · intro h
      omega
    · intro h
      simp at h
  | a :: s, [], ha, _ => by
    have := tolower_ne_zero a (ha a (List.mem_cons_self _ _))
    simp only [strcasecmp, lower, List.map_nil, List.map_cons]
    constructor
    · intro h
      omega
    · intro h
      simp at h
  | a :: s, b :: t, ha, hb => by
    have ih := strcasecmp_eq_zero s t (fun x hx => ha x (List.mem_cons_of_mem _ hx))
      (fun x hx => hb x (List.mem_cons_of_mem _ hx))
    simp only [strcasecmp, lower, List.map_cons, List.cons.injEq]
    by_cases h : tolower a = tolower b
    · simp only [h, if_true, true_and]
      exact ih
    · have hne : (tolower a).toNat ≠ (tolower b).toNat := fun e => h (UInt8.ext e)
      simp only [h, if_false, false_and, iff_false]
      omega

theorem strcasecmp_lit (name lit low : CStr) (hname : ∀ x ∈ name, x ≠ 0)
    (hlit : (∀ x ∈ lit, x ≠ 0) ∧ lower lit = low) :
    strcasecmp name lit = 0 ↔ lower name = low := by
  rw [strcasecmp_eq_zero name lit hname hlit.1, hlit.2]

theorem signal_chain (sg : signal_numbers) (l : CStr) :
    (if l = utf8 "sigterm" ∨ l = utf8 "term" then sg.SIGTERM
      else if l = utf8 "sigkill" ∨ l = utf8 "kill" then sg.SIGKILL
      else if l = utf8 "sigint" ∨ l = utf8 "int" then sg.SIGINT
      else if l = utf8 "sighup" ∨ l = utf8 "hup" then sg.SIGHUP
      else if l = utf8 "sigstop" ∨ l = utf8 "stop" then sg.SIGSTOP
      else if l = utf8 "sigcont" ∨ l = utf8 "cont" then sg.SIGCONT
      else if l = utf8 "sigusr1" ∨ l = utf8 "usr1" then sg.SIGUSR1
      else if l = utf8 "sigusr2" ∨ l = utf8 "usr2" then sg.SIGUSR2
      else sg.SIGTERM)
      = match (signal_names sg).find?
          (fun p => l == p.1 || l == utf8 "sig" ++ p.1) with
        | some p => p.2
        | none => sg.SIGTERM := by
  by_cases h1 : l = utf8 "sigterm"
  · subst h1
    rfl
  by_cases h2 : l = utf8 "term"
  · subst h2
    rfl
  by_cases h3 : l = utf8 "sigkill"
  · subst h3
    rfl
  by_cases h4 : l = utf8 "kill"
  · subst h4
    rfl
  by_cases h5 : l = utf8 "sigint"
  · subst h5
    rfl
  by_cases h6 : l = utf8 "int"
  · subst h6
    rfl
  by_cases h7 : l = utf8 "sighup"
  · subst h7
    rfl
  by_cases h8 : l = utf8 "hup"
  · subst h8
    rfl
  by_cases h9 : l = utf8 "sigstop"
  · subst h9
    rfl
  by_cases h10 : l = utf8 "stop"
  · subst h10
    rfl
  by_cases h11 : l = utf8 "sigcont"
  · subst h11
    rfl
  by_cases h12 : l = utf8 "cont"
  · subst h12
    rfl
  by_cases h13 : l = utf8 "sigusr1"
  · subst h13
    rfl
  by_cases h14 : l = utf8 "usr1"
  · subst h14
    rfl
  by_cases h15 : l = utf8 "sigusr2"
  · subst h15
    rfl
  by_cases h16 : l = utf8 "usr2"
  · subst h16
    rfl
  have b1 : (l == utf8 "sigterm") = false := beq_false_of_ne h1
  have b2 : (l == utf8 "term") = false := beq_false_of_ne h2
  have b3 : (l == utf8 "sigkill") = false := beq_false_of_ne h3
  have b4 : (l == utf8 "kill") = false := beq_false_of_ne h4
  have b5 : (l == utf8 "sigint") = false := beq_false_of_ne h5
  have b6 : (l == utf8 "int") = false := beq_false_of_ne h6
  have b7 : (l == utf8 "sighup") = false := beq_false_of_ne h7
  have b8 : (l == utf8 "hup") = false := beq_false_of_ne h8
  have b9 : (l == utf8 "sigstop") = false := beq_false_of_ne h9
  have b10 : (l == utf8 "stop") = false := beq_false_of_ne h10
  have b11 : (l == utf8 "sigcont") = false := beq_false_of_ne h11
  have b12 : (l == utf8 "cont") = false := beq_false_of_ne h12
  have b13 : (l == utf8 "sigusr1") = false := beq_false_of_ne h13
  have b14 : (l == utf8 "usr1") = false := beq_false_of_ne h14
  have b15 : (l == utf8 "sigusr2") = false := beq_false_of_ne h15
  have b16 : (l == utf8 "usr2") = false := beq_false_of_ne h16
  have e : ∀ t : String, utf8 "sig" ++ utf8 t = utf8 ("sig" ++ t) := by
    intro t
    simp [utf8]
  simp [signal_names, List.find?, e, h1, h2, h3, h4, h5, h6, h7, h8, h9, h10, h11, h12, h13,
    h14, h15, h16, b1, b2, b3, b4, b5, b6, b7, b8,
    b9, b10, b11, b12, b13, b14, b15, b16]

theorem signal_from_name_eq (sg : signal_numbers) (name : CStr) (hname : ∀ x ∈ name, x ≠ 0) :
    signal_from_name sg (some name) = signal_of_name sg name := by
  have c1 := strcasecmp_lit name (utf8 "SIGTERM") (utf8 "sigterm") hname
    ⟨by decide, by decide⟩
  have c2 := strcasecmp_lit name (utf8 "TERM") (utf8 "term") hname
    ⟨by decide, by decide⟩
  have c3 := strcasecmp_lit name (utf8 "SIGKILL") (utf8 "sigkill") hname
    ⟨by decide, by decide⟩
  have c4 := strcasecmp_lit name (utf8 "KILL") (utf8 "kill") hname
    ⟨by decide, by decide⟩
  have c5 := strcasecmp_lit name (utf8 "SIGINT") (utf8 "sigint") hname
    ⟨by decide, by decide⟩
  have c6 := strcasecmp_lit name (utf8 "INT") (utf8 "int") hname
    ⟨by decide, by decide⟩
  have c7 := strcasecmp_lit name (utf8 "SIGHUP") (utf8 "sighup") hname
    ⟨by decide, by decide⟩
  have c8 := strcasecmp_lit name (utf8 "HUP") (utf8 "hup") hname
    ⟨by decide, by decide⟩
  have c9 := strcasecmp_lit name (utf8 "SIGSTOP") (utf8 "sigstop") hname
    ⟨by decide, by decide⟩
  have c10 := strcasecmp_lit name (utf8 "STOP") (utf8 "stop") hname
    ⟨by decide, by decide⟩
  have c11 := strcasecmp_lit name (utf8 "SIGCONT") (utf8 "sigcont") hname
    ⟨by decide, by decide⟩
  have c12 := strcasecmp_lit name (utf8 "CONT") (utf8 "cont") hname
    ⟨by decide, by decide⟩
  have c13 := strcasecmp_lit name (utf8 "SIGUSR1") (utf8 "sigusr1") hname
    ⟨by decide, by decide⟩
  have c14 := strcasecmp_lit name (utf8 "USR1") (utf8 "usr1") hname
    ⟨by decide, by decide⟩
  have c15 := strcasecmp_lit name (utf8 "SIGUSR2") (utf8 "sigusr2") hname
    ⟨by decide, by decide⟩
  have c16 := strcasecmp_lit name (utf8 "USR2") (utf8 "usr2") hname
    ⟨by decide, by decide⟩
  simp only [signal_from_name, c1, c2, c3, c4, c5, c6, c7, c8, c9, c10, c11, c12, c13, c14,
    c15, c16]
  exact signal_chain sg (lower name)

/-- C26: `signal_from_name` gives SIGTERM for NULL, and for a C string the number of the
one of TERM, KILL, INT, HUP, STOP, CONT, USR1, USR2 that the string spells in any case,
with or without a leading `SIG` in any case; every other string, "9" included, gives
SIGTERM. -/
theorem signal_from_name_spec (sg : signal_numbers) (name : CStr)
    (hname : ∀ x ∈ name, x ≠ 0) :
    signal_from_name sg none = sg.SIGTERM
    ∧ signal_from_name sg (some name) = signal_of_name sg name
    ∧ (∀ p ∈ signal_names sg, lower name = p.1 ∨ lower name = utf8 "sig" ++ p.1 →
        signal_from_name sg (some name) = p.2)
    ∧ ((∀ p ∈ signal_names sg, lower name ≠ p.1 ∧ lower name ≠ utf8 "sig" ++ p.1) →
        signal_from_name sg (some name) = sg.SIGTERM)
    ∧ signal_from_name sg (some (utf8 "9")) = sg.SIGTERM := by
  have heq := signal_from_name_eq sg name hname
  refine ⟨rfl, heq, ?_, ?_, ?_⟩
  · intro p hp h
    rw [heq]
    unfold signal_of_name
    simp only [signal_names, List.mem_cons, List.mem_singleton, List.not_mem_nil,
      or_false] at hp
    rcases hp with rfl | rfl | rfl | rfl | rfl | rfl | rfl | rfl <;>
      rcases h with h | h <;> rw [h] <;> rfl
  · intro h
    rw [heq]
    unfold signal_of_name
    have hnone : (signal_names sg).find?
        (fun p => lower name == p.1 || lower name == utf8 "sig" ++ p.1) = none := by
      rw [List.find?_eq_none]
      intro p hp
      have := h p hp
      simp [this.1, this.2]
    rw [hnone]
  · rw [signal_from_name_eq sg (utf8 "9") (by decide)]
    rfl

theorem signal_from_name_spec_witness :
    (∀ x ∈ utf8 "SigKill", x ≠ 0)
    ∧ signal_from_name linux_signals (some (utf8 "SigKill")) = 9
    ∧ signal_from_name linux_signals (some (utf8 "kill")) = 9
    ∧ signal_from_name linux_signals (some (utf8 "SIGUSR2")) = 12
    ∧ signal_from_name linux_signals (some (utf8 "9")) = 15
    ∧ signal_from_name linux_signals (some (utf8 "SIGSIGKILL")) = 15 :=
  ⟨by decide,
    ((signal_from_name_spec linux_signals (utf8 "SigKill") (by decide)).2.1).trans
      (by decide),
    by decide, by decide, by decide, by decide⟩

/-! ## `list` with status -/

theorem list_loop_eq (H : Host W) (root : CStr) (quiet : Bool) :
    ∀ (names : List CStr) (result : List NapiValue) (s : Sys W),
    result.length + names.length ≤ 2 ^ 32 →
    list_loop H root quiet names result.length result s
      = (result ++ (list_entries H root quiet names s).1,
         (list_entries H root quiet names s).2)
  | [], result, s, _ => by simp [list_loop, list_entries]
  | name :: next, result, s, hlen => by
    simp only [list_loop, list_entries, napi_set_element_end]
    cases next with
    | nil => simp [list_loop, list_entries]
    | cons n2 rest =>
      have hlt : result.length + 1 < 2 ^ 32 := by
        simp only [List.length_cons] at hlen
        omega
      have hidx : (result.length + 1) % 2 ^ 32
          = (result ++ [(list_entry H root name quiet s).1]).length := by
        rw [Nat.mod_eq_of_lt hlt]
        simp
      rw [hidx, list_loop_eq H root quiet (n2 :: rest) _ _ (by
        simp only [List.length_append, List.length_cons, List.length_nil] at hlen ⊢
        omega)]
      simp

theorem list_entries_forall (H : Host W) (root : CStr) (quiet : Bool) :
    ∀ (names : List CStr) (s : Sys W),
    List.Forall₂ (fun name entry => ∃ s1 : Sys W, entry = (list_entry H root name quiet s1).1)
      names (list_entries H root quiet names s).1
  | [], _ => List.Forall₂.nil
  | _ :: rest, s =>
    List.Forall₂.cons ⟨s, rfl⟩ (list_entries_forall H root quiet rest _)

/-- C21: when quiet mode is off and the container list is read, `list` returns an array
(not an error) with exactly one entry per enumerated container, in enumeration order, each
built by the loop body for that container alone and carrying its `id`; an entry whose
status read fails, or whose state string cannot be computed, is the object `{id}` and the
loop goes on; an entry for which both succeed carries `pid` and the fields that are set. -/
theorem list_degrades_per_entry (E : Env W R) (H : Host W) (args : List NapiValue)
    (s : Sys W) (lr : Ret) (names : List CStr) (w : W)
    (hquiet : option_bool E.indet (options_arg args 0) "quiet" = false)
    (hlist : E.list (list_root (options_arg args 0)) s.world = ((lr, names), w))
    (hret : 0 ≤ lr.ret) (hlen : names.length ≤ 2 ^ 32) :
    (∃ entries : List NapiValue,
      (CrunList E H args s).1 = .array (NapiItems.ofList entries)
      ∧ entries.length = names.length
      ∧ List.Forall₂
          (fun name entry => ∃ s1 : Sys W,
            entry = (list_entry H (list_root (options_arg args 0)) name false s1).1)
          names entries)
    ∧ (∀ (root name : CStr) (s1 : Sys W),
        napi_named_property (list_entry H root name false s1).1 "id" = some (.string name))
    ∧ (∀ (root name : CStr) (s1 : Sys W),
        (H.read_container_status root name s1.world).1.1.ret < 0 →
        (list_entry H root name false s1).1 = napi_object_of [("id", .string name)])
    ∧ (∀ (root name : CStr) (s1 : Sys W),
        0 ≤ (H.read_container_status root name s1.world).1.1.ret →
        (H.get_container_state_string name (H.read_container_status root name s1.world).1.2
          root (H.read_container_status root name s1.world).2).1.1.ret < 0 →
        (list_entry H root name false s1).1 = napi_object_of [("id", .string name)])
    ∧ (∀ (root name : CStr) (s1 : Sys W),
        0 ≤ (H.read_container_status root name s1.world).1.1.ret →
        0 ≤ (H.get_container_state_string name
          (H.read_container_status root name s1.world).1.2
          root (H.read_container_status root name s1.world).2).1.1.ret →
        (list_entry H root name false s1).1
          = napi_object_of ([("id", .string name)]
              ++ list_status_fields (H.read_container_status root name s1.world).1.2
                  (H.get_container_state_string name
                    (H.read_container_status root name s1.world).1.2
                    root (H.read_container_status root name s1.world).2).1.2.1
                  (H.get_container_state_string name
                    (H.read_container_status root name s1.world).1.2
                    root (H.read_container_status root name s1.world).2).1.2.2)) := by
  refine ⟨?_, ?_, ?_, ?_, ?_⟩
  · have hl := list_eq E (list_root (options_arg args 0)) s lr names w hlist
    have hloop := list_loop_eq H (list_root (options_arg args 0)) false names []
      { world := w,
        trace := s.trace ++ [⟨.get_containers_list (list_root (options_arg args 0)),
          lr.ret⟩] } (by simpa using hlen)
    have hnot : ¬ lr.ret < 0 := by omega
    simp only [List.length_nil, List.nil_append] at hloop
    have hf := list_entries_forall H (list_root (options_arg args 0)) false names
      { world := w,
        trace := s.trace ++ [⟨.get_containers_list (list_root (options_arg args 0)),
          lr.ret⟩] }
    refine ⟨_, ?_, hf.length_eq.symm, hf⟩
    simp only [CrunList, hquiet, hl, hnot, if_false, hloop]
  · intro root name s1
    simp only [list_entry, Bool.false_eq_true, if_false]
    split_ifs <;>
      simp [napi_named_property, napi_object_of, NapiProps.ofList, NapiProps.find]
  · intro root name s1 h
    simp [list_entry, libcrun_read_container_status, h]
  · intro root name s1 h1 h2
    have hn : ¬ (H.read_container_status root name s1.world).1.1.ret < 0 := by omega
    simp [list_entry, libcrun_read_container_status, libcrun_get_container_state_string, hn,
      h2]
  · intro root name s1 h1 h2
    have hn1 : ¬ (H.read_container_status root name s1.world).1.1.ret < 0 := by omega
    have hn2 : ¬ (H.get_container_state_string name
        (H.read_container_status root name s1.world).1.2
        root (H.read_container_status root name s1.world).2).1.1.ret < 0 := by omega
    simp [list_entry, libcrun_read_container_status, libcrun_get_container_state_string, hn1,
      hn2]

theorem list_degrades_per_entry_witness :
    option_bool demoEnv.indet (options_arg [] 0) "quiet" = false
    ∧ demoEnv.list (list_root (options_arg [] 0)) demoSys.world
        = (({ ret := 0, err := none }, demoFleet), demoFleet)
    ∧ (∃ entries : List NapiValue,
        (CrunList demoEnv fleetHost [] demoSys).1 = .array (NapiItems.ofList entries)
        ∧ entries.length = demoFleet.length
        ∧ List.Forall₂
            (fun name entry => ∃ s1 : Sys (List CStr),
              entry = (list_entry fleetHost (list_root (options_arg [] 0)) name false s1).1)
            demoFleet entries) :=
  ⟨by decide, by decide,
    (list_degrades_per_entry demoEnv fleetHost [] demoSys { ret := 0, err := none }
      demoFleet demoFleet (by decide) (by decide) (by decide) (by decide)).1⟩

/-- The list of `demoFleet` with status: the status of `web-stuck` cannot be read and the
state string of `db-1` cannot be computed, so both entries hold only `id`, and the entry
of `web-2` after them is complete. -/
theorem list_demo_fleet :
    (CrunList demoEnv fleetHost [] demoSys).1
      = .array (NapiItems.ofList
          [napi_object_of [("id", .string (utf8 "web-stuck"))],
           napi_object_of [("id", .string (utf8 "db-1"))],
           napi_object_of
             [("id", .string (utf8 "web-2")), ("pid", .number (.int 12)),
              ("status", .string (utf8 "running")), ("bundle", .string (utf8 "/bundles/c")),
              ("created", .string (utf8 "2024-01-01")), ("owner", .string (utf8 "root"))]]) := by
  decide

/-! ## `exec` and the no-new-privileges flag -/

/-- The flag of the process description `CrunExec` builds is set exactly when
`noNewPrivs` is true and an AppArmor profile is given as well. -/
theorem exec_no_new_privileges_eq (indet : String → Bool) (cmd_args : List (Option CStr))
    (opts : Option NapiValue) :
    (exec_process indet cmd_args opts).no_new_privileges
      = ((option_string opts "apparmor").isSome && option_bool indet opts "noNewPrivs") := by
  unfold exec_process
  cases (option_string opts "apparmor").isSome <;>
    cases option_bool indet opts "noNewPrivs" <;> rfl

/-- C25, the code run at `exec("web-2", "ls", {noNewPrivs: true})`: the option is read as
true, the call succeeds, and the process description handed to the delegated exec has its
no-new-privileges flag not set; the same call with an AppArmor profile added to the
options has the flag set. -/
theorem exec_no_new_privs_alone_is_dropped :
    option_bool demoRunner.indet (some (.object noNewPrivsOpts)) "noNewPrivs" = true
    ∧ (CrunExec demoRunner
        [.string (utf8 "web-2"), .string (utf8 "ls"), .object noNewPrivsOpts]
        { world := (), trace := [] }).1
      = napi_object_of
          [("id", .string (utf8 "web-2")), ("exitCode", .number (.int 0)),
           ("error", .boolean false)]
    ∧ (CrunExec demoRunner
        [.string (utf8 "web-2"), .string (utf8 "ls"), .object noNewPrivsOpts]
        { world := (), trace := [] }).2.trace.map (fun e => exec_process_of e.call)
      = [some { args := [some (utf8 "ls")], terminal := false, cwd := none, env := [],
                user := none, selinux_label := none, no_new_privileges := false,
                capabilities := none }]
    ∧ (CrunExec demoRunner
        [.string (utf8 "web-2"), .string (utf8 "ls"), .object apparmorOpts]
        { world := (), trace := [] }).2.trace.map (fun e => exec_process_of e.call)
      = [some { args := [some (utf8 "ls")], terminal := false, cwd := none, env := [],
                user := none, selinux_label := none, no_new_privileges := true,
                capabilities := none }] := by
  refine ⟨by decide, by decide, by decide, by decide⟩

/-! ## The state root -/

theorem first_new_call_append (before : List Event) (e : Event) (evs : List Event) :
    first_new_call before (before ++ e :: evs) = some e.call := by
  simp [first_new_call]

theorem read_ps_info_trace (H : Host W) (pid : Int) (s : Sys W) :
    ∃ evs : List Event, (read_ps_info H pid s).2.trace = s.trace ++ evs := by
  cases h : (H.fopen (proc_path pid "/stat") s.world).1 with
  | none =>
    simp only [read_ps_info, fopen, h]
    exact ⟨_, rfl⟩
  | some content =>
    by_cases hs : (fscanf_stat content (H.uninit pid)).1 < 7
    · simp only [read_ps_info, fopen, h, hs, if_true]
      exact ⟨_, rfl⟩
    · simp only [read_ps_info, fopen, h, hs, if_false]
      exact ⟨_, List.append_assoc _ _ _⟩

theorem ps_loop_trace (H : Host W) : ∀ (pids : List Int) (i : Nat) (result : List NapiValue)
    (s : Sys W), ∃ evs : List Event, (ps_loop H pids i result s).2.trace = s.trace ++ evs
  | [], _, _, s => ⟨[], by simp [ps_loop]⟩
  | pid :: rest, i, result, s => by
    obtain ⟨e1, h1⟩ := read_ps_info_trace H pid s
    obtain ⟨e2, h2⟩ := ps_loop_trace H rest (i + 1)
      (napi_set_element result (i % 2 ^ 32) (read_ps_info H pid s).1) (read_ps_info H pid s).2
    exact ⟨e1 ++ e2, by simp only [ps_loop, h2, h1, List.append_assoc]⟩

theorem ps_discover_trace (H : Host W) (status : libcrun_container_status_t) (s : Sys W) :
    ∃ evs : List Event, (ps_discover H status s).2.trace = s.trace ++ evs := by
  have hc : ∃ evs : List Event, (ps_cgroup_pids H status s).2.trace = s.trace ++ evs := by
    unfold ps_cgroup_pids
    cases status.cgroup_path with
    | none => exact ⟨[], by simp⟩
    | some cgroup_path =>
      simp only [fopen]
      split <;> exact ⟨_, rfl⟩
  obtain ⟨e1, h1⟩ := hc
  unfold ps_discover
  simp only []
  split_ifs
  · simp only [fopen]
    split <;>
      · simp only [h1, List.append_assoc]
        exact ⟨_, rfl⟩
  · exact ⟨e1, h1⟩

theorem ps_sample_trace (H : Host W) (status : libcrun_container_status_t) (s : Sys W) :
    ∃ evs : List Event, (ps_sample H status s).2.trace = s.trace ++ evs := by
  obtain ⟨e1, h1⟩ := ps_discover_trace H status s
  obtain ⟨e2, h2⟩ := ps_loop_trace H (ps_discover H status s).1 0 []
    (ps_discover H status s).2
  exact ⟨e1 ++ e2, by simp only [ps_sample, h2, h1, List.append_assoc]⟩

theorem add_cgroup_stats_trace (H : Host W) (cgroup_path : CStr)
    (files : List (String × String)) (obj : List (String × NapiValue)) (s : Sys W) :
    ∃ evs : List Event,
      (add_cgroup_stats H cgroup_path files obj s).2.trace = s.trace ++ evs := by
  obtain ⟨opened, -, -, ht⟩ := add_cgroup_stats_spec H cgroup_path files obj s
  exact ⟨_, ht⟩

theorem usage_collect_trace (H : Host W) (status : libcrun_container_status_t) (s : Sys W) :
    ∃ evs : List Event, (usage_collect H status s).2.trace = s.trace ++ evs := by
  have hp : ∃ evs : List Event, (usage_cgroup_path H status s).2.trace = s.trace ++ evs := by
    unfold usage_cgroup_path
    cases status.cgroup_path with
    | some cgroup_path => exact ⟨[], by simp⟩
    | none =>
      simp only [fopen]
      split <;> exact ⟨_, rfl⟩
  obtain ⟨e0, h0⟩ := hp
  by_cases h : (usage_cgroup_path H status s).1 = []
  · exact ⟨e0, by simp only [usage_collect, h, if_true, h0]⟩
  · obtain ⟨e1, h1⟩ := add_cgroup_stats_trace H (usage_cgroup_path H status s).1
      memory_stat_files [] (usage_cgroup_path H status s).2
    obtain ⟨e2, h2⟩ := add_cgroup_stats_trace H (usage_cgroup_path H status s).1
      cpu_stat_files []
      (add_cgroup_stats H (usage_cgroup_path H status s).1 memory_stat_files []
        (usage_cgroup_path H status s).2).2
    obtain ⟨e3, h3⟩ := add_cgroup_stats_trace H (usage_cgroup_path H status s).1
      io_stat_files []
      (add_cgroup_stats H (usage_cgroup_path H status s).1 cpu_stat_files []
        (add_cgroup_stats H (usage_cgroup_path H status s).1 memory_stat_files []
          (usage_cgroup_path H status s).2).2).2
    exact ⟨e0 ++ (e1 ++ (e2 ++ e3)), by
      simp only [usage_collect, h, if_false, collect_memory_stats, collect_cpu_stats,
        collect_io_stats, h3, h2, h1, h0, List.append_assoc]⟩

theorem CrunPs_first_call (H : Host W) (s : Sys W) (id : CStr) (rest : List NapiValue) :
    first_new_call s.trace (CrunPs H (.string id :: rest) s).2.trace
      = some (.read_container_status (list_root (options_arg (.string id :: rest) 1)) id) := by
  have hid : napi_get_string (cb_arg (.string id :: rest) 0) = some id := by
    simp [cb_arg, napi_get_string]
  have hlen : ¬ (NapiValue.string id :: rest).length < 1 := by simp
  simp only [CrunPs, hlen, if_false, hid]
  have hrs : (libcrun_read_container_status H
      (list_root (options_arg (.string id :: rest) 1)) id s).2.trace
      = s.trace ++ [⟨.read_container_status
          (list_root (options_arg (.string id :: rest) 1)) id,
          (H.read_container_status (list_root (options_arg (.string id :: rest) 1)) id
            s.world).1.1.ret⟩] := rfl
  have hrun : ∀ (st : libcrun_container_status_t) (s1 : Sys W),
      (libcrun_is_container_running H st s1).2.trace
        = s1.trace ++ [⟨.is_container_running st,
            (H.is_container_running st s1.world).1.ret⟩] := fun _ _ => rfl
  split_ifs
  · rw [hrs]
    simp [first_new_call]
  · rw [hrun, hrs]
    simp [first_new_call]
  · obtain ⟨evs, h⟩ := ps_sample_trace H
      (libcrun_read_container_status H
        (list_root (options_arg (.string id :: rest) 1)) id s).1.2
      (libcrun_is_container_running H
        (libcrun_read_container_status H
          (list_root (options_arg (.string id :: rest) 1)) id s).1.2
        (libcrun_read_container_status H
          (list_root (options_arg (.string id :: rest) 1)) id s).2).2
    rw [h, hrun, hrs]
    simp [first_new_call]

theorem CrunResourceUsage_first_call (H : Host W) (s : Sys W) (id : CStr)
    (rest : List NapiValue) :
    first_new_call s.trace (CrunResourceUsage H (.string id :: rest) s).2.trace
      = some (.read_container_status (list_root (options_arg (.string id :: rest) 1)) id) := by
  have hid : napi_get_string (cb_arg (.string id :: rest) 0) = some id := by
    simp [cb_arg, napi_get_string]
  have hlen : ¬ (NapiValue.string id :: rest).length < 1 := by simp
  simp only [CrunResourceUsage, hlen, if_false, hid]
  have hrs : (libcrun_read_container_status H
      (list_root (options_arg (.string id :: rest) 1)) id s).2.trace
      = s.trace ++ [⟨.read_container_status
          (list_root (options_arg (.string id :: rest) 1)) id,
          (H.read_container_status (list_root (options_arg (.string id :: rest) 1)) id
            s.world).1.1.ret⟩] := rfl
  have hrun : ∀ (st : libcrun_container_status_t) (s1 : Sys W),
      (libcrun_is_container_running H st s1).2.trace
        = s1.trace ++ [⟨.is_container_running st,
            (H.is_container_running st s1.world).1.ret⟩] := fun _ _ => rfl
  split_ifs
  · rw [hrs]
    simp [first_new_call]
  · rw [hrun, hrs]
    simp [first_new_call]
  · obtain ⟨evs, h⟩ := usage_collect_trace H
      (libcrun_read_container_status H
        (list_root (options_arg (.string id :: rest) 1)) id s).1.2
      (libcrun_is_container_running H
        (libcrun_read_container_status H
          (list_root (options_arg (.string id :: rest) 1)) id s).1.2
        (libcrun_read_container_status H
          (list_root (options_arg (.string id :: rest) 1)) id s).2).2
    rw [h, hrun, hrs]
    simp [first_new_call]

theorem list_entries_trace (H : Host W) (root : CStr) (quiet : Bool) :
    ∀ (names : List CStr) (s : Sys W),
    ∃ evs : List Event, (list_entries H root quiet names s).2.trace = s.trace ++ evs
  | [], s => ⟨[], by simp [list_entries]⟩
  | name :: rest, s => by
    have h1 : ∃ evs : List Event,
        (list_entry H root name quiet s).2.trace = s.trace ++ evs := by
      cases quiet with
      | true => exact ⟨[], by simp [list_entry]⟩
      | false =>
        by_cases hr : (H.read_container_status root name s.world).1.1.ret < 0
        · exact ⟨[⟨.read_container_status root name,
              (H.read_container_status root name s.world).1.1.ret⟩],
            by simp [list_entry, libcrun_read_container_status, hr]⟩
        · refine ⟨[⟨.read_container_status root name,
              (H.read_container_status root name s.world).1.1.ret⟩,
              ⟨.get_container_state_string name
                (H.read_container_status root name s.world).1.2 root,
               (H.get_container_state_string name
                (H.read_container_status root name s.world).1.2 root
                (H.read_container_status root name s.world).2).1.1.ret⟩], ?_⟩
          simp only [list_entry, libcrun_read_container_status,
            libcrun_get_container_state_string, hr, Bool.false_eq_true, if_false]
          split_ifs <;> simp
    obtain ⟨e1, h1⟩ := h1
    obtain ⟨e2, h2⟩ := list_entries_trace H root quiet rest (list_entry H root name quiet s).2
    exact ⟨e1 ++ e2, by simp only [list_entries, h2, h1, List.append_assoc]⟩

theorem list_loop_trace (H : Host W) (root : CStr) (quiet : Bool) :
    ∀ (names : List CStr) (index : Nat) (result : List NapiValue) (s : Sys W),
    ∃ evs : List Event, (list_loop H root quiet names index result s).2.trace = s.trace ++ evs
  | [], _, _, s => ⟨[], by simp [list_loop]⟩
  | name :: rest, index, result, s => by
    have h1 : ∃ evs : List Event,
        (list_entry H root name quiet s).2.trace = s.trace ++ evs :=
      list_entries_trace H root quiet [name] s
    obtain ⟨e1, h1⟩ := h1
    obtain ⟨e2, h2⟩ := list_loop_trace H root quiet rest ((index + 1) % 2 ^ 32)
      (napi_set_element result index (list_entry H root name quiet s).1)
      (list_entry H root name quiet s).2
    exact ⟨e1 ++ e2, by simp only [list_loop, h2, h1, List.append_assoc]⟩

theorem CrunList_first_call (E : Env W R) (H : Host W) (args : List NapiValue) (s : Sys W) :
    first_new_call s.trace (CrunList E H args s).2.trace
      = some (.get_containers_list (list_root (options_arg args 0))) := by
  have hl : (libcrun_get_containers_list E (list_root (options_arg args 0)) s).2.trace
      = s.trace ++ [⟨.get_containers_list (list_root (options_arg args 0)),
          (E.list (list_root (options_arg args 0)) s.world).1.1.ret⟩] := rfl
  simp only [CrunList]
  split_ifs
  · rw [hl]
    simp [first_new_call]
  · obtain ⟨evs, h⟩ := list_loop_trace H (list_root (options_arg args 0))
      (option_bool E.indet (options_arg args 0) "quiet")
      (libcrun_get_containers_list E (list_root (options_arg args 0)) s).1.2 0 []
      (libcrun_get_containers_list E (list_root (options_arg args 0)) s).2
    rw [h, hl]
    simp [first_new_call]

theorem calls_state_root_kill (ctx : libcrun_context_t) (sig : CStr) (evs : List Event)
    (names : List CStr)
    (h : evs.map Event.call = names.map (fun name => Call.container_kill ctx name sig)) :
    ∀ e ∈ evs, call_state_root e.call = some ctx.state_root := by
  intro e he
  have hm : e.call ∈ evs.map Event.call := List.mem_map_of_mem _ he
  rw [h] at hm
  obtain ⟨n, -, hn⟩ := List.mem_map.mp hm
  rw [← hn]
  rfl

theorem calls_state_root_delete (ctx : libcrun_context_t) (force : Bool) (evs : List Event)
    (names : List CStr)
    (h : evs.map Event.call = names.map (fun name => Call.container_delete ctx name force)) :
    ∀ e ∈ evs, call_state_root e.call = some ctx.state_root := by
  intro e he
  have hm : e.call ∈ evs.map Event.call := List.mem_map_of_mem _ he
  rw [h] at hm
  obtain ⟨n, -, hn⟩ := List.mem_map.mp hm
  rw [← hn]
  rfl

/-- Regex-mode kill reads the list under `list_root` and hands every kill a context with
the state root of the options. -/
theorem CrunKill_regex_root (E : Env W R) (s : Sys W) (pat : CStr) (re : R)
    (sigv : NapiValue) (opts : NapiProps) (extra : List NapiValue)
    (hregex : opts.find "regex" = some (.boolean true)) (hre : E.regcomp pat = some re) :
    ∃ evs : List Event,
      (CrunKill E (.string pat :: sigv :: .object opts :: extra) s).2.trace
        = s.trace ++ ⟨.get_containers_list (list_root (some (.object opts))),
            (E.list (list_root (some (.object opts))) s.world).1.1.ret⟩ :: evs
      ∧ ∀ e ∈ evs, call_state_root e.call
          = some (option_string (some (.object opts)) "stateRoot") := by
  have hl : (libcrun_get_containers_list E (list_root (some (.object opts))) s).2.trace
      = s.trace ++ [⟨.get_containers_list (list_root (some (.object opts))),
          (E.list (list_root (some (.object opts))) s.world).1.1.ret⟩] := rfl
  rw [CrunKill_regex_mode E s pat sigv opts extra hregex, hre]
  simp only []
  split_ifs
  · exact ⟨[], by rw [hl], by simp⟩
  · obtain ⟨evs, ht, hcalls, -⟩ := kill_matching_spec E re
      (make_context E.indet pat (some (.object opts)))
      (kill_sig_str_buf (.string pat :: sigv :: .object opts :: extra))
      (libcrun_get_containers_list E (list_root (some (.object opts))) s).1.2 0
      (libcrun_get_containers_list E (list_root (some (.object opts))) s).2
    refine ⟨evs, ?_, calls_state_root_kill _ _ evs _ hcalls⟩
    simp only []
    rw [ht, hl, List.append_assoc]
    rfl

/-- Regex-mode delete reads the list under `list_root` and hands every delete a context
with the state root of the options. -/
theorem CrunDelete_regex_root (E : Env W R) (s : Sys W) (pat : CStr) (re : R)
    (opts : NapiProps) (extra : List NapiValue)
    (hregex : opts.find "regex" = some (.boolean true)) (hre : E.regcomp pat = some re) :
    ∃ evs : List Event,
      (CrunDelete E (.string pat :: .object opts :: extra) s).2.trace
        = s.trace ++ ⟨.get_containers_list (list_root (some (.object opts))),
            (E.list (list_root (some (.object opts))) s.world).1.1.ret⟩ :: evs
      ∧ ∀ e ∈ evs, call_state_root e.call
          = some (option_string (some (.object opts)) "stateRoot") := by
  have hl : (libcrun_get_containers_list E (list_root (some (.object opts))) s).2.trace
      = s.trace ++ [⟨.get_containers_list (list_root (some (.object opts))),
          (E.list (list_root (some (.object opts))) s.world).1.1.ret⟩] := rfl
  rw [CrunDelete_regex_mode E s pat opts extra hregex, hre]
  simp only []
  split_ifs
  · exact ⟨[], by rw [hl], by simp⟩
  · obtain ⟨evs, ht, hcalls, -⟩ := delete_matching_spec E re
      (make_context E.indet pat (some (.object opts)))
      (option_bool E.indet (some (.object opts)) "force")
      (libcrun_get_containers_list E (list_root (some (.object opts))) s).1.2 0
      (libcrun_get_containers_list E (list_root (some (.object opts))) s).2
    refine ⟨evs, ?_, calls_state_root_delete _ _ evs _ hcalls⟩
    simp only []
    rw [ht, hl, List.append_assoc]
    rfl

/-- C24: `create_context(id, NULL)` gives the state root "/run/crun" and
`create_context(id, root)` gives `root`; the root of an operation is "/run/crun" without
an options object or without a `stateRoot` in it, and the string `stateRoot` when there is
one, which is then also the state root of the context; `list` reads the container list
under that root, regex-mode `kill` and `delete` read it under that root and hand every
delegated call a context with the state root of the options, and `ps` and
`resourceUsage` read the status under that root. -/
theorem state_root_default_and_override (E : Env W R) (H : Host W) (s : Sys W)
    (id pat root : CStr) (re : R) (sigv : NapiValue) (opts : NapiProps)
    (args extra : List NapiValue)
    (hregex : opts.find "regex" = some (.boolean true)) (hre : E.regcomp pat = some re) :
    (create_context (some id) none).state_root = some (utf8 "/run/crun")
    ∧ (create_context (some id) (some root)).state_root = some root
    ∧ list_root none = utf8 "/run/crun"
    ∧ (∀ o : NapiProps, o.find "stateRoot" = none →
        list_root (some (.object o)) = utf8 "/run/crun")
    ∧ (∀ o : NapiProps, o.find "stateRoot" = some (.string root) →
        list_root (some (.object o)) = root
        ∧ (make_context E.indet id (some (.object o))).state_root = some root)
    ∧ first_new_call s.trace (CrunList E H args s).2.trace
        = some (.get_containers_list (list_root (options_arg args 0)))
    ∧ (∃ evs : List Event,
        (CrunKill E (.string pat :: sigv :: .object opts :: extra) s).2.trace
          = s.trace ++ ⟨.get_containers_list (list_root (some (.object opts))),
              (E.list (list_root (some (.object opts))) s.world).1.1.ret⟩ :: evs
        ∧ ∀ e ∈ evs, call_state_root e.call
            = some (option_string (some (.object opts)) "stateRoot"))
    ∧ (∃ evs : List Event,
        (CrunDelete E (.string pat :: .object opts :: extra) s).2.trace
          = s.trace ++ ⟨.get_containers_list (list_root (some (.object opts))),
              (E.list (list_root (some (.object opts))) s.world).1.1.ret⟩ :: evs
        ∧ ∀ e ∈ evs, call_state_root e.call
            = some (option_string (some (.object opts)) "stateRoot"))
    ∧ first_new_call s.trace (CrunPs H (.string id :: extra) s).2.trace
        = some (.read_container_status (list_root (options_arg (.string id :: extra) 1)) id)
    ∧ first_new_call s.trace (CrunResourceUsage H (.string id :: extra) s).2.trace
        = some (.read_container_status
            (list_root (options_arg (.string id :: extra) 1)) id) := by
  refine ⟨rfl, rfl, rfl, ?_, ?_, CrunList_first_call E H args s,
    CrunKill_regex_root E s pat re sigv opts extra hregex hre,
    CrunDelete_regex_root E s pat re opts extra hregex hre,
    CrunPs_first_call H s id extra, CrunResourceUsage_first_call H s id extra⟩
  · intro o h
    simp [list_root, option_string, get_string_property, napi_named_property, h]
  · intro o h
    simp [list_root, make_context, option_string, get_string_property, napi_named_property,
      h, napi_get_string]

theorem state_root_default_and_override_witness :
    regexOpts.find "regex" = some (.boolean true)
    ∧ demoEnv.regcomp (utf8 "web") = some (utf8 "web")
    ∧ first_new_call demoSys.trace (CrunList demoEnv fleetHost [] demoSys).2.trace
        = some (.get_containers_list (utf8 "/run/crun"))
    ∧ first_new_call demoSys.trace
        (CrunList demoEnv fleetHost [.object rootOpts] demoSys).2.trace
        = some (.get_containers_list (utf8 "/tmp/state"))
    ∧ first_new_call runningSys.trace
        (CrunPs procHost [.string (utf8 "web-2")] runningSys).2.trace
        = some (.read_container_status (utf8 "/run/crun") (utf8 "web-2"))
    ∧ first_new_call runningSys.trace
        (CrunPs procHost [.string (utf8 "web-2"), .object rootOpts] runningSys).2.trace
        = some (.read_container_status (utf8 "/tmp/state") (utf8 "web-2")) :=
  ⟨by decide, by decide,
    (state_root_default_and_override demoEnv fleetHost demoSys (utf8 "web-2") (utf8 "web")
      (utf8 "/tmp/state") (utf8 "web") .undefined regexOpts [] [] (by decide)
      (by decide)).2.2.2.2.2.1,
    by decide, by decide, by decide⟩

end Crun
